import Mathlib

/-!
# Qtractor MIDI engine and insert plugin: a shallow embedding

Definitions follow `src/src/qtractorMidiEngine.cpp` and
`src/src/qtractorInsertPlugin.cpp`.  Machine integers are `Nat`/`Int`
with explicit reductions: `unsigned long` is taken modulo `2 ^ 64`,
`long` is the two's-complement range `[-2 ^ 63, 2 ^ 63)`, `unsigned short`
is taken modulo `2 ^ 16` and `unsigned char` modulo `2 ^ 8` (LP64, the
platform of the ALSA sequencer).  Calls into collaborators whose code is
in other files (session, cursors, monitors, plugin managers, the ALSA
sequencer) are recorded, in order, as values of a call type.
-/

namespace Qtractor

/-! ## Machine integers -/

/-- Conversion of an integer value to `unsigned long`. -/
def toULong (x : Int) : Nat := (x % 2 ^ 64).toNat

/-- Conversion of an integer value to `long` (two's complement wrap). -/
def toLong (x : Int) : Int := (x + 2 ^ 63) % 2 ^ 64 - 2 ^ 63

/-- Conversion to `unsigned char`. -/
def toUChar (x : Nat) : Nat := x % 256

/-- Conversion to `unsigned short`. -/
def toUShort (x : Nat) : Nat := x % 65536

/-- Conversion of a (possibly negative) `int` to `unsigned char`. -/
def intToUChar (x : Int) : Nat := (x % 256).toNat

/-! ## Events -/

/-- Event types of `qtractorMidiEvent::EventType` that the engine switches on;
`OTHER` stands for every enumerator that falls to a `default:` branch. -/
inductive EventType
  | NOTEOFF | NOTEON | KEYPRESS | CONTROLLER | PGMCHANGE | CHANPRESS
  | PITCHBEND | SYSEX | OTHER
  deriving DecidableEq, Repr

/-- The accessors of a `qtractorMidiEvent` read by the engine. -/
structure MidiEvent where
  type : EventType
  note : Nat
  controller : Nat
  value : Nat
  duration : Nat
  pitchBend : Int
  sysex : List Nat
  deriving DecidableEq, Repr

/-- The `#define`d controller numbers. -/
def BANK_SELECT_MSB : Nat := 0x00

def BANK_SELECT_LSB : Nat := 0x20

def ALL_SOUND_OFF : Nat := 0x78

def ALL_CONTROLLERS_OFF : Nat := 0x79

def ALL_NOTES_OFF : Nat := 0x7b

/-- Payload of an outbound sequencer event (`ev.type` with the `ev.data`
member that `enqueue` fills in); `NONE` is the cleared event. -/
inductive SeqData
  | NONE
  | NOTE (channel note : Nat) (velocity : Int) (duration : Nat)
  | KEYPRESS (channel param value : Nat)
  | CONTROLLER (channel param : Nat) (value : Int)
  | PGMCHANGE (channel : Nat) (value : Int)
  | CHANPRESS (channel value : Nat)
  | PITCHBEND (channel : Nat) (value : Int)
  | SYSEX (bytes : List Nat)
  deriving DecidableEq, Repr

/-- Modelled from the spec: the backend event `snd_seq_event_t` after
`snd_seq_ev_clear`, `snd_seq_ev_set_source`, `snd_seq_ev_set_subs` and
`snd_seq_ev_schedule_tick` (ALSA macros outside the sources); it carries the
tag, the source port, the queue and the schedule tick handed over. -/
structure SeqEvent where
  tag : Nat
  source : Int
  queue : Int
  tick : Nat
  data : SeqData
  deriving DecidableEq, Repr

/-- The parts of a `qtractorMidiBus` read on the output path. -/
structure MidiBusOut where
  alsaPort : Int
  hasMonitorOut : Bool
  hasMidiManagerOut : Bool
  deriving DecidableEq, Repr

/-- The parts of a `qtractorTrack` read by `enqueue`. -/
structure Track where
  outputBus : Option MidiBusOut
  midiTag : Nat
  midiChannel : Nat
  midiBank : Int
  midiProgram : Int
  hasMonitor : Bool
  hasMidiManager : Bool
  deriving DecidableEq, Repr

/-- What `enqueue` does to its collaborators, in call order. -/
inductive EnqueueCall
  | eventOutput (ev : SeqEvent)
  | trackMonitorEnqueue (type : EventType) (value : Nat) (tick : Nat)
  | busMonitorEnqueue (type : EventType) (value : Nat) (tick : Nat)
  | trackManagerQueued (ev : SeqEvent)
  | busManagerQueued (ev : SeqEvent)
  deriving DecidableEq, Repr

/-- C conversion `int(x)` of a gain product: truncation toward zero. -/
def truncInt (x : ℚ) : Int := if 0 ≤ x then ⌊x⌋ else ⌈x⌉

/-- The schedule tick of `enqueue`:
`((long) iTime > m_iTimeStart ? iTime - m_iTimeStart : 0)`, the subtraction
being done in `unsigned long`. -/
def enqueueTick (iTime : Nat) (timeStart : Int) : Nat :=
  if toLong iTime > timeStart then toULong ((iTime : Int) - timeStart) else 0

/-- The `switch (pEvent->type())` of `enqueue`. -/
def enqueueData (track : Track) (ev : MidiEvent) (fGain : ℚ) : SeqData :=
  match ev.type with
  | .NOTEON =>
    .NOTE track.midiChannel ev.note
      (Int.land (truncInt (fGain * (ev.value : ℚ))) 0x7f) ev.duration
  | .KEYPRESS => .KEYPRESS track.midiChannel ev.note ev.value
  | .CONTROLLER =>
    .CONTROLLER track.midiChannel ev.controller
      (if track.midiBank ≥ 0 then
        if ev.controller = BANK_SELECT_MSB then
          (Int.land track.midiBank 0x3f80) >>> 7
        else if ev.controller = BANK_SELECT_LSB then
          Int.land track.midiBank 0x007f
        else (ev.value : Int)
      else (ev.value : Int))
  | .PGMCHANGE =>
    .PGMCHANGE track.midiChannel
      (if track.midiProgram ≥ 0 then track.midiProgram else (ev.value : Int))
  | .CHANPRESS => .CHANPRESS track.midiChannel ev.value
  | .PITCHBEND => .PITCHBEND track.midiChannel ev.pitchBend
  | .SYSEX => .SYSEX ev.sysex
  | _ => .NONE

/-- The outbound event built by `enqueue` for a track routed to `bus`. -/
def enqueueEvent (alsaQueue : Int) (timeStart : Int) (track : Track)
    (bus : MidiBusOut) (ev : MidiEvent) (iTime : Nat) (fGain : ℚ) : SeqEvent :=
  { tag := track.midiTag % 256
    source := bus.alsaPort
    queue := alsaQueue
    tick := enqueueTick iTime timeStart
    data := enqueueData track ev fGain }

/-- The notifications that follow `snd_seq_event_output` in `enqueue`: track
monitor, bus output monitor, track plugin manager, bus output plugin
manager, each one only when it exists. -/
def enqueueNotify (track : Track) (bus : MidiBusOut) (ev : MidiEvent)
    (sev : SeqEvent) : List EnqueueCall :=
  (if track.hasMonitor then
      [EnqueueCall.trackMonitorEnqueue ev.type ev.value sev.tick] else [])
    ++ (if bus.hasMonitorOut then
      [EnqueueCall.busMonitorEnqueue ev.type ev.value sev.tick] else [])
    ++ (if track.hasMidiManager then
      [EnqueueCall.trackManagerQueued sev] else [])
    ++ (if bus.hasMidiManagerOut then
      [EnqueueCall.busManagerQueued sev] else [])

/-- Model of `qtractorMidiEngine::enqueue`: nothing happens without an output
bus; otherwise the event is built, pumped into the queue, and the monitors
and plugin managers that exist are told. -/
def enqueue (alsaQueue : Int) (timeStart : Int) (track : Track)
    (ev : MidiEvent) (iTime : Nat) (fGain : ℚ) : List EnqueueCall :=
  match track.outputBus with
  | none => []
  | some bus =>
    EnqueueCall.eventOutput (enqueueEvent alsaQueue timeStart track bus ev iTime fGain)
      :: enqueueNotify track bus ev
          (enqueueEvent alsaQueue timeStart track bus ev iTime fGain)

/-! ## Capture quantization -/

/-- The capture quantization step of `qtractorMidiEngine::capture`:
`if (m_iCaptureQuantize > 0) { q = ticksPerBeat / m_iCaptureQuantize;
tick = q * ((tick + (q >> 1)) / q); }` in `unsigned long`.  A zero quantum
is a division by zero: no result. -/
def captureQuantizeTick (ticksPerBeat captureQuantize tick : Nat) : Option Nat :=
  if captureQuantize > 0 then
    let q := ticksPerBeat / captureQuantize
    if q = 0 then none
    else some ((q * (((tick + (q >>> 1)) % 2 ^ 64) / q)) % 2 ^ 64)
  else some tick

/-! ## Session, cursors and the output thread -/

/-- The session accessors read by the output thread and by `restartLoop`;
`tickFromFrame` is the session's tempo map (code outside the sources), taken
as a parameter. -/
structure Session where
  isLooping : Bool
  loopStart : Nat
  loopEnd : Nat
  tickFromFrame : Nat → Nat

/-- Modelled from the spec: a `qtractorSessionCursor` (declared outside the
sources) holds a frame position, set by `seek`, and a running frame time,
advanced by `process`. -/
structure SessionCursor where
  frame : Nat
  frameTime : Nat
  deriving DecidableEq, Repr

/-- Cursor `seek(iFrame)`. -/
def SessionCursor.seek (c : SessionCursor) (iFrame : Nat) : SessionCursor :=
  { c with frame := iFrame }

/-- Cursor `process(nframes)`. -/
def SessionCursor.process (c : SessionCursor) (nframes : Nat) : SessionCursor :=
  { c with frameTime := (c.frameTime + nframes) % 2 ^ 64 }

/-- The engine clock fields `m_iTimeStart` and `m_iTimeDrift` (both `long`). -/
structure EngineClock where
  timeStart : Int
  timeDrift : Int
  deriving DecidableEq, Repr

/-- Model of `qtractorMidiEngine::restartLoop`: with a looping session,
`m_iTimeStart -= long(tickFromFrame(loopEnd) - tickFromFrame(loopStart))`
(the difference taken in `unsigned long`) and `m_iTimeDrift = 0`. -/
def restartLoop (session : Option Session) (e : EngineClock) : EngineClock :=
  match session with
  | none => e
  | some s =>
    if s.isLooping then
      { timeStart := toLong (e.timeStart
          - toLong (toULong ((s.tickFromFrame s.loopEnd : Int)
              - (s.tickFromFrame s.loopStart : Int))))
        timeDrift := 0 }
    else e

/-- The calls made by one output cycle, in order. -/
inductive OutputCall
  | processMetro (iFrameStart iFrameEnd : Nat)
  | sessionProcess (iFrameStart iFrameEnd : Nat)
  | cursorSeek (iFrame : Nat)
  | restartLoop
  | cursorProcess (nframes : Nat)
  | flush
  | drift
  deriving DecidableEq, Repr

/-- Model of `qtractorMidiOutputThread::midiCursorSync`: the MIDI cursor, or
nothing when a cursor is missing or MIDI is ahead of audio by more than the
read-ahead; the second component is `m_iDriftCheck`. -/
def midiCursorSync (bStart : Bool) (audioCursor midiCursor : Option SessionCursor)
    (readAhead driftCheck : Nat) : Option SessionCursor × Nat :=
  match audioCursor with
  | none => (none, driftCheck)
  | some a =>
    match midiCursor with
    | none => (none, driftCheck)
    | some m =>
      if bStart then (some (m.seek a.frame), 0)
      else if m.frameTime > (a.frameTime + readAhead) % 2 ^ 64 then (none, driftCheck)
      else (some m, driftCheck)

/-- The `while (iFrameEnd >= loopEnd)` loop of `process`, run for at most
`fuel` iterations: each one renders the metronome and the clips up to the
loop end, moves the window to the loop start and restarts the loop.  The
result is the final `(iFrameStart, iFrameEnd)` with the calls made. -/
def loopSplit (loopStart loopEnd : Nat) :
    Nat → Nat → Nat → Option (Nat × Nat × List OutputCall)
  | 0, iFrameStart, iFrameEnd =>
    if iFrameEnd ≥ loopEnd then none else some (iFrameStart, iFrameEnd, [])
  | fuel + 1, iFrameStart, iFrameEnd =>
    if iFrameEnd ≥ loopEnd then
      match loopSplit loopStart loopEnd fuel loopStart
          ((loopStart + (iFrameEnd - loopEnd)) % 2 ^ 64) with
      | none => none
      | some (s, e, calls) =>
        some (s, e,
          [OutputCall.processMetro iFrameStart loopEnd,
           OutputCall.sessionProcess iFrameStart loopEnd,
           OutputCall.cursorSeek loopStart,
           OutputCall.restartLoop] ++ calls)
    else some (iFrameStart, iFrameEnd, [])

/-- State left by one output cycle. -/
structure ProcessResult where
  midiCursor : Option SessionCursor
  driftCheck : Nat
  calls : List OutputCall
  deriving DecidableEq, Repr

/-- Model of `qtractorMidiOutputThread::process`.  `hasEngine` tells whether
`m_pSession->midiEngine()` is non-null; `readAhead` and `driftCheck` are
`m_iReadAhead` and `m_iDriftCheck` (`unsigned int`).  No result means the
loop split did not end within `fuel` iterations. -/
def process (fuel : Nat) (session : Session) (hasEngine : Bool)
    (audioCursor midiCursor : Option SessionCursor)
    (readAhead driftCheck : Nat) : Option ProcessResult :=
  if !hasEngine then some ⟨midiCursor, driftCheck, []⟩
  else
    match (midiCursorSync false audioCursor midiCursor readAhead driftCheck).1 with
    | none => some ⟨midiCursor, driftCheck, []⟩
    | some cursor =>
      let iFrameStart := cursor.frame
      let iFrameEnd := (iFrameStart + readAhead) % 2 ^ 64
      let split :=
        if session.isLooping && decide (iFrameStart < session.loopEnd) then
          loopSplit session.loopStart session.loopEnd fuel iFrameStart iFrameEnd
        else some (iFrameStart, iFrameEnd, [])
      match split with
      | none => none
      | some (fStart, fEnd, calls) =>
        let fEnd2 :=
          if session.isLooping && decide (fStart < session.loopEnd)
              && decide (fEnd ≥ session.loopEnd) then
            (session.loopStart + (fEnd - session.loopEnd)) % 2 ^ 64
          else fEnd
        let driftNext := (driftCheck + 1) % 2 ^ 32
        some
          { midiCursor := some ((cursor.seek fEnd2).process readAhead)
            driftCheck := if driftNext > 8 then 0 else driftNext
            calls := calls
              ++ [OutputCall.processMetro fStart fEnd,
                  OutputCall.sessionProcess fStart fEnd,
                  OutputCall.cursorSeek fEnd2,
                  OutputCall.cursorProcess readAhead,
                  OutputCall.flush]
              ++ (if driftNext > 8 then [OutputCall.drift] else []) }

/-- Sum of the lengths of the windows handed to the session's clip renderer. -/
def renderedFrames : List OutputCall → Nat
  | [] => 0
  | OutputCall.sessionProcess s e :: rest => (e - s) + renderedFrames rest
  | _ :: rest => renderedFrames rest

/-- Sum of the lengths of the windows handed to the metronome. -/
def metroFrames : List OutputCall → Nat
  | [] => 0
  | OutputCall.processMetro s e :: rest => (e - s) + metroFrames rest
  | _ :: rest => metroFrames rest

/-- The calls of one loop wrap that renders from `iFrameStart`. -/
def wrapCalls (session : Session) (iFrameStart : Nat) : List OutputCall :=
  [OutputCall.processMetro iFrameStart session.loopEnd,
   OutputCall.sessionProcess iFrameStart session.loopEnd,
   OutputCall.cursorSeek session.loopStart,
   OutputCall.restartLoop]

/-! ## MIDI machine control -/

/-- Modelled from the spec: `qtractorBus::BusMode` (declared outside the
sources) is one of none, input, output or duplex; the tests
`mode & qtractorBus::Input` and `mode & qtractorBus::Output` hold for the
modes that include that direction. -/
inductive BusMode
  | None | Input | Output | Duplex
  deriving DecidableEq, Repr

/-- The test `(mode & qtractorBus::Output) != 0`. -/
def BusMode.hasOutput : BusMode → Bool
  | .Output => true
  | .Duplex => true
  | _ => false

/-- The test `(mode & qtractorBus::Input) != 0`. -/
def BusMode.hasInput : BusMode → Bool
  | .Input => true
  | .Duplex => true
  | _ => false

/-- The engine fields read by the MMC senders: `m_mmcMode`, `m_mmcDevice`
(`unsigned char`) and `m_pOControlBus`. -/
structure MmcControl where
  mmcMode : BusMode
  mmcDevice : Nat
  oControlBus : Option MidiBusOut
  deriving DecidableEq, Repr

/-- The call `m_pOControlBus->sendSysex(pSysex, iSysex)` made by
`sendMmcCommand`, with the size of the buffer allocated for `pSysex`. -/
structure MmcSysex where
  bus : MidiBusOut
  allocated : Nat
  pSysex : List Nat
  iSysex : Nat
  deriving DecidableEq, Repr

/-- Model of `qtractorMidiEngine::sendMmcCommand`.  The command code `cmd` is
the value of the `qtractorMmcEvent::Command` enumerator; `pMmcData` is the
data block (nothing for a null pointer), holding at least `iMmcData` bytes,
and `iMmcData` its `unsigned short` length.  Nothing is returned when
nothing is sent. -/
def sendMmcCommand (eng : MmcControl) (cmd : Nat)
    (pMmcData : Option (List Nat)) (iMmcData : Nat) : Option MmcSysex :=
  if !eng.mmcMode.hasOutput then none
  else
    match eng.oControlBus with
    | none => none
    | some bus =>
      let withData := pMmcData.isSome && decide (iMmcData > 0)
      let allocated := if withData then toUShort (6 + (1 + iMmcData)) else 6
      let header := [0xf0, 0x7f, eng.mmcDevice, 0x06, toUChar cmd]
      let block :=
        match pMmcData with
        | none => []
        | some data =>
          if iMmcData > 0 then toUChar iMmcData :: data.take iMmcData else []
      let bytes := header ++ block ++ [0xf7]
      some { bus := bus, allocated := allocated, pSysex := bytes,
             iSysex := toUShort bytes.length }

/-- The data block built by `sendMmcLocate`: `iLocate` is an `unsigned long`,
each `data[i]` an `unsigned char`, and each `iLocate -= k * (int) data[i]`
is done in `unsigned long`. -/
def mmcLocateData (iLocate : Nat) : List Nat :=
  let d1 := toUChar (iLocate / (3600 * 30))
  let l1 := toULong ((iLocate : Int) - (3600 * 30) * (d1 : Int))
  let d2 := toUChar (l1 / (60 * 30))
  let l2 := toULong ((l1 : Int) - (60 * 30) * (d2 : Int))
  let d3 := toUChar (l2 / 30)
  let l3 := toULong ((l2 : Int) - 30 * (d3 : Int))
  let d4 := toUChar l3
  [0x01, d1, d2, d3, d4, 0]

/-- Model of `qtractorMidiEngine::sendMmcLocate`; `LOCATE` is the value of the
enumerator `qtractorMmcEvent::LOCATE` (declared outside the sources). -/
def sendMmcLocate (eng : MmcControl) (LOCATE : Nat) (iLocate : Nat) :
    Option MmcSysex :=
  sendMmcCommand eng LOCATE (some (mmcLocateData iLocate)) 6

/-- The `int` shift `1 << k`; a negative or oversized count is undefined. -/
def shiftLeftOne (k : Int) : Option Int :=
  if 0 ≤ k ∧ k < 31 then some (((1 <<< k.toNat : Nat) : Int)) else none

/-- The data block built by `sendMmcMaskedWrite` for `int iTrack`; there is
no result when the shift count is undefined. -/
def mmcMaskedWriteData (scmd : Nat) (iTrack : Int) (bOn : Bool) :
    Option (List Nat) :=
  match shiftLeftOne (if iTrack < 2 then iTrack + 5 else (iTrack - 2).tmod 7) with
  | none => none
  | some iMask =>
    some [toUChar scmd,
          intToUChar (if iTrack < 2 then 0 else 1 + (iTrack - 2).tdiv 7),
          intToUChar iMask,
          intToUChar (if bOn then iMask else 0)]

/-- Model of `qtractorMidiEngine::sendMmcMaskedWrite`; `MASKED_WRITE` is the
value of the enumerator `qtractorMmcEvent::MASKED_WRITE`.  The outer option
is empty when the behaviour is undefined, the inner one when nothing is
sent. -/
def sendMmcMaskedWrite (eng : MmcControl) (MASKED_WRITE : Nat) (scmd : Nat)
    (iTrack : Int) (bOn : Bool) : Option (Option MmcSysex) :=
  match mmcMaskedWriteData scmd iTrack bOn with
  | none => none
  | some data => some (sendMmcCommand eng MASKED_WRITE (some data) 4)

/-- The group index of a track in the words of the specification:
`track < 2 ? 0 : 1 + (track - 2) / 7`. -/
def specGroupIndex (track : Nat) : Nat :=
  if track < 2 then 0 else 1 + (track - 2) / 7

/-- The bit mask of a track in the words of the specification:
`1 << (track < 2 ? track + 5 : (track - 2) mod 7)`. -/
def specBitMask (track : Nat) : Nat :=
  1 <<< (if track < 2 then track + 5 else (track - 2) % 7)

/-! ## Insert plugin

Samples are values of a linearly ordered field `α` (exact arithmetic stands
for `float`); a buffer is a function from the frame index to the sample, and
`float **` is a function from the channel index to the buffer.  The buffers
of distinct channels, and of the plugin and the bus, are distinct memory. -/

/-- The call `::memcpy(dst, src, n * sizeof(float))`. -/
def memcpy {α : Type} (dst src : Nat → α) (n : Nat) : Nat → α :=
  fun k => if k < n then src k else dst k

/-- A scalar loop `for (; n > 0; --n) *p++ = step`, from frame `p` on, where
`step p o` is the value stored at frame `p` given the buffer `o`. -/
def scalarLoop {α : Type} (step : Nat → (Nat → α) → α) :
    Nat → Nat → (Nat → α) → (Nat → α)
  | _, 0, o => o
  | p, n + 1, o => scalarLoop step (p + 1) n (Function.update o p (step p o))

/-- The leading loop of the SSE processors,
`for (; (long(p) & 15) && (nframes > 0); --nframes) *p++ = step`, for a
buffer at byte address `addr`; it gives the frame reached, the frames left
and the buffer. -/
def alignLoop {α : Type} (step : Nat → (Nat → α) → α) (addr : Nat) :
    Nat → Nat → (Nat → α) → Nat × Nat × (Nat → α)
  | p, 0, o => (p, 0, o)
  | p, n + 1, o =>
    if (addr + 4 * p) &&& 15 ≠ 0 then
      alignLoop step addr (p + 1) n (Function.update o p (step p o))
    else (p, n + 1, o)

/-- The vector loop of the SSE processors,
`for (; nframes >= 4; nframes -= 4) { _mm_store_ps(p, lanes); p += 4; }`,
where `lane k o` is the value of the lane stored at frame `k`. -/
def vectorLoop {α : Type} (lane : Nat → (Nat → α) → α) :
    Nat → Nat → (Nat → α) → Nat × Nat × (Nat → α)
  | p, n + 4, o =>
    vectorLoop lane (p + 4) n (fun k => if p ≤ k ∧ k < p + 4 then lane k o else o k)
  | p, n, o => (p, n, o)

/-- The three loops of an SSE processor on one channel: scalar up to
alignment, four frames at a time, scalar for the rest. -/
def sseLoops {α : Type} (step lane : Nat → (Nat → α) → α) (addr nframes : Nat)
    (o : Nat → α) : Nat → α :=
  let h := alignLoop step addr 0 nframes o
  let v := vectorLoop lane h.1 h.2.1 h.2.2
  scalarLoop step v.1 v.2.1 v.2.2

/-- Model of `std_process_send_gain`: `*pFrames++ *= fGain` on every frame of
every channel. -/
def std_process_send_gain {α : Type} [LinearOrderedField α]
    (ppFrames : Nat → Nat → α) (iFrames iChannels : Nat) (fGain : α) :
    Nat → Nat → α :=
  fun i =>
    if i < iChannels then
      scalarLoop (fun p o => o p * fGain) 0 iFrames (ppFrames i)
    else ppFrames i

/-- Model of `std_process_dry_wet`: `*pOFrames++ += fGain * *pIFrames++`. -/
def std_process_dry_wet {α : Type} [LinearOrderedField α]
    (ppIFrames ppOFrames : Nat → Nat → α) (iFrames iChannels : Nat) (fGain : α) :
    Nat → Nat → α :=
  fun i =>
    if i < iChannels then
      scalarLoop (fun p o => o p + fGain * ppIFrames i p) 0 iFrames (ppOFrames i)
    else ppOFrames i

/-- Model of `sse_process_send_gain`; `addr i` is the byte address of
`ppFrames[i]`.  All three loops multiply the frame by the gain. -/
def sse_process_send_gain {α : Type} [LinearOrderedField α]
    (ppFrames : Nat → Nat → α) (addr : Nat → Nat)
    (iFrames iChannels : Nat) (fGain : α) : Nat → Nat → α :=
  fun i =>
    if i < iChannels then
      sseLoops (fun p o => o p * fGain) (fun k o => o k * fGain)
        (addr i) iFrames (ppFrames i)
    else ppFrames i

/-- Model of `sse_process_dry_wet`; `addr i` is the byte address of
`ppOFrames[i]`.  The leading and trailing loops are
`*pOFrames++ = fGain * *pIFrames++`, the vector loop stores
`_mm_add_ps(out, _mm_mul_ps(in, gain))`. -/
def sse_process_dry_wet {α : Type} [LinearOrderedField α]
    (ppIFrames ppOFrames : Nat → Nat → α) (addr : Nat → Nat)
    (iFrames iChannels : Nat) (fGain : α) : Nat → Nat → α :=
  fun i =>
    if i < iChannels then
      sseLoops (fun p _ => fGain * ppIFrames i p)
        (fun k o => o k + ppIFrames i k * fGain)
        (addr i) iFrames (ppOFrames i)
    else ppOFrames i

/-- The private audio bus of an insert: `out` are the sends, `in_` the
returns, `outAddr` the byte addresses of the send buffers. -/
structure AudioBus (α : Type) where
  out : Nat → Nat → α
  outAddr : Nat → Nat
  in_ : Nat → Nat → α

/-- The state of a `qtractorInsertPlugin` read by `process`: the bus (if
any), the channel count, the two parameter values, and whether the
constructor selected the SSE processors (`sse_enabled()`). -/
structure InsertPlugin (α : Type) where
  audioBus : Option (AudioBus α)
  channels : Nat
  sendGain : α
  dryWet : α
  sse : Bool

/-- Model of `qtractorInsertPlugin::process`: the bus after the call and the
output buffers after the call; `oAddr` are the byte addresses of the output
buffers.  The threshold `0.001f` is taken as `1 / 1000`. -/
def InsertPlugin.process {α : Type} [LinearOrderedField α] (pl : InsertPlugin α)
    (ppIBuffer ppOBuffer : Nat → Nat → α)
    (oAddr : Nat → Nat) (nframes : Nat) :
    Option (AudioBus α) × (Nat → Nat → α) :=
  match pl.audioBus with
  | none => (none, ppOBuffer)
  | some bus =>
    let ppOut : Nat → Nat → α := fun i =>
      if i < pl.channels then memcpy (bus.out i) (ppIBuffer i) nframes else bus.out i
    let ppO : Nat → Nat → α := fun i =>
      if i < pl.channels then memcpy (ppOBuffer i) (bus.in_ i) nframes else ppOBuffer i
    let send :=
      if pl.sse then
        sse_process_send_gain ppOut bus.outAddr nframes pl.channels pl.sendGain
      else std_process_send_gain ppOut nframes pl.channels pl.sendGain
    let outp :=
      if pl.dryWet > 1 / 1000 then
        if pl.sse then
          sse_process_dry_wet ppIBuffer ppO oAddr nframes pl.channels pl.dryWet
        else std_process_dry_wet ppIBuffer ppO nframes pl.channels pl.dryWet
      else ppO
    (some { bus with out := send }, outp)

/-! ## Metronome and clock generator -/

/-- The members of a `qtractorTimeScale::Node` read by the engine.  The node
maps (`tickFromFrame`, `beatFromTick`, `tickFromBeat`, `beatIsBar`) are code
outside the sources and are taken as parameters. -/
structure TimeScaleNode where
  frame : Nat
  tick : Nat
  tempo : ℚ
  ticksPerBeat : Nat
  tickFromFrame : Nat → Nat
  beatFromTick : Nat → Nat
  tickFromBeat : Nat → Nat
  beatIsBar : Nat → Bool

/-- The lookups of a `qtractorTimeScale::Cursor` (code outside the sources),
taken as parameters. -/
structure MetroCursor where
  seekFrame : Nat → TimeScaleNode
  seekBeat : Nat → TimeScaleNode

/-- The engine fields read by `processMetro` and by the metronome accessors.
The tracked tempo `m_fMetroTempo`, the one field `processMetro` writes, is
passed and returned apart. -/
structure MetroEngine where
  metroCursor : Option MetroCursor
  timeStart : Int
  alsaQueue : Int
  metronome : Bool
  clockMode : BusMode
  metroBus : Option MidiBusOut
  oControlBus : Option MidiBusOut
  metroChannel : Nat
  m_iMetroBarNote : Int
  m_iMetroBarVelocity : Int
  m_iMetroBarDuration : Nat
  m_iMetroBeatNote : Int
  m_iMetroBeatVelocity : Int
  m_iMetroBeatDuration : Nat

/-- Model of `qtractorMidiEngine::setMetroBar`. -/
def MetroEngine.setMetroBar (e : MetroEngine) (iNote iVelocity : Int)
    (iDuration : Nat) : MetroEngine :=
  { e with m_iMetroBarNote := iNote, m_iMetroBarVelocity := iVelocity,
           m_iMetroBarDuration := iDuration }

/-- Model of `qtractorMidiEngine::setMetroBeat`. -/
def MetroEngine.setMetroBeat (e : MetroEngine) (iNote iVelocity : Int)
    (iDuration : Nat) : MetroEngine :=
  { e with m_iMetroBeatNote := iNote, m_iMetroBeatVelocity := iVelocity,
           m_iMetroBeatDuration := iDuration }

/-- Model of the accessor `qtractorMidiEngine::metroBarNote`. -/
def MetroEngine.metroBarNote (e : MetroEngine) : Int := e.m_iMetroBarNote

/-- Model of the accessor `qtractorMidiEngine::metroBarVelocity`. -/
def MetroEngine.metroBarVelocity (e : MetroEngine) : Int := e.m_iMetroBarVelocity

/-- Model of the accessor `qtractorMidiEngine::metroBarDuration`. -/
def MetroEngine.metroBarDuration (e : MetroEngine) : Nat := e.m_iMetroBarDuration

/-- Model of the accessor `qtractorMidiEngine::metroBeatNote`, whose body is
`return m_iMetroBarNote;`. -/
def MetroEngine.metroBeatNote (e : MetroEngine) : Int := e.m_iMetroBarNote

/-- Model of the accessor `qtractorMidiEngine::metroBeatVelocity`, whose body
is `return m_iMetroBarVelocity;`. -/
def MetroEngine.metroBeatVelocity (e : MetroEngine) : Int := e.m_iMetroBarVelocity

/-- Model of the accessor `qtractorMidiEngine::metroBeatDuration`, whose body
is `return m_iMetroBeatDuration;`. -/
def MetroEngine.metroBeatDuration (e : MetroEngine) : Nat := e.m_iMetroBeatDuration

/-- The engine as its constructor leaves the metronome fields, with the
metronome switched on. -/
def defaultMetroEngine : MetroEngine :=
  { metroCursor := none, timeStart := 0, alsaQueue := -1, metronome := true,
    clockMode := BusMode.None, metroBus := none, oControlBus := none,
    metroChannel := 9,
    m_iMetroBarNote := 76, m_iMetroBarVelocity := 96, m_iMetroBarDuration := 48,
    m_iMetroBeatNote := 77, m_iMetroBeatVelocity := 64, m_iMetroBeatDuration := 24 }

/-- What `processMetro` does to its collaborators, in call order: the queued
tempo event and the monitor time split, the queued clock and note events
(with the source port when the bus exists), and the metronome bus output
monitor. -/
inductive MetroCall
  | tempoEvent (tick : Nat) (value : Int)
  | splitTime (frame tick : Nat)
  | clockEvent (source : Option Int) (tick : Nat)
  | noteEvent (source : Option Int) (tick : Nat) (channel : Nat)
      (note velocity : Int) (duration : Nat)
  | monitorEnqueue (velocity : Int) (tick : Nat)
  deriving DecidableEq, Repr

/-- Result of a run that may not end within its fuel, or may dereference a
null pointer. -/
inductive Outcome (α : Type) where
  | ok (a : α)
  | outOfFuel
  | nullDeref

/-- The clock loop of `processMetro`,
`for (iClock = 0; iClock < 24; ++iClock)`, with `n` iterations left and
`iTimeClock` the tick of the next pulse. -/
def clockLoop (eng : MetroEngine) (iTimeStart iTimeEnd iTicksPerClock : Nat) :
    Nat → Nat → List MetroCall
  | 0, _ => []
  | n + 1, iTimeClock =>
    if iTimeClock ≥ iTimeEnd then []
    else
      (if iTimeClock ≥ iTimeStart then
        [MetroCall.clockEvent (eng.oControlBus.map (fun b => b.alsaPort))
          (enqueueTick iTimeClock eng.timeStart)]
      else [])
      ++ clockLoop eng iTimeStart iTimeEnd iTicksPerClock n
          ((iTimeClock + iTicksPerClock) % 2 ^ 64)

/-- The clock part of one pass of the `while (iTime < iTimeEnd)` loop. -/
def beatClocks (eng : MetroEngine) (node : TimeScaleNode)
    (iTimeStart iTimeEnd iTime : Nat) : List MetroCall :=
  if eng.clockMode.hasOutput then
    clockLoop eng iTimeStart iTimeEnd (node.ticksPerBeat / 24) 24 iTime
  else []

/-- The metronome part of one pass of the `while (iTime < iTimeEnd)` loop:
the note with the bar or the beat fields, then the bus output monitor.
There is no result when `m_pMetroBus` is null, which the code dereferences. -/
def beatNote (eng : MetroEngine) (node : TimeScaleNode)
    (iTimeStart iBeat iTime : Nat) : Option (List MetroCall) :=
  if eng.metronome && decide (iTime ≥ iTimeStart) then
    match eng.metroBus with
    | none => none
    | some bus =>
      let tick := enqueueTick iTime eng.timeStart
      let velocity :=
        if node.beatIsBar iBeat then eng.m_iMetroBarVelocity else eng.m_iMetroBeatVelocity
      some
        ([if node.beatIsBar iBeat then
            MetroCall.noteEvent (some bus.alsaPort) tick eng.metroChannel
              eng.m_iMetroBarNote eng.m_iMetroBarVelocity eng.m_iMetroBarDuration
          else
            MetroCall.noteEvent (some bus.alsaPort) tick eng.metroChannel
              eng.m_iMetroBeatNote eng.m_iMetroBeatVelocity eng.m_iMetroBeatDuration]
          ++ (if bus.hasMonitorOut then [MetroCall.monitorEnqueue velocity tick]
              else []))
  else some []

/-- The `while (iTime < iTimeEnd)` loop of `processMetro`, run for at most
`fuel` passes from the node, beat and beat tick given. -/
def metroLoop (eng : MetroEngine) (cursor : MetroCursor)
    (iTimeStart iTimeEnd : Nat) :
    Nat → TimeScaleNode → Nat → Nat → Outcome (List MetroCall)
  | 0, _, _, iTime =>
    if iTime < iTimeEnd then Outcome.outOfFuel else Outcome.ok []
  | fuel + 1, node, iBeat, iTime =>
    if iTime < iTimeEnd then
      match beatNote eng node iTimeStart iBeat iTime with
      | none => Outcome.nullDeref
      | some notes =>
        match metroLoop eng cursor iTimeStart iTimeEnd fuel
            (cursor.seekBeat ((iBeat + 1) % 2 ^ 32)) ((iBeat + 1) % 2 ^ 32)
            ((iTime + node.ticksPerBeat) % 2 ^ 64) with
        | Outcome.ok rest =>
          Outcome.ok (beatClocks eng node iTimeStart iTimeEnd iTime ++ notes ++ rest)
        | Outcome.outOfFuel => Outcome.outOfFuel
        | Outcome.nullDeref => Outcome.nullDeref
    else Outcome.ok []

/-- The tempo check that opens `processMetro`: when the node at the window
end has a tempo other than the tracked one, a tempo event is queued at the
window start (or at the node, when it starts inside the window), the monitor
time is split, and the node tempo becomes the tracked one.  The event value
`(unsigned int) (60000000.0f / tempo)` is taken in exact arithmetic. -/
def metroTempoChange (eng : MetroEngine) (metroTempo : ℚ) (pNode : TimeScaleNode)
    (iFrameStart : Nat) : ℚ × List MetroCall :=
  if pNode.tempo ≠ metroTempo then
    let iTime :=
      if pNode.frame < iFrameStart then pNode.tickFromFrame iFrameStart
      else pNode.tick
    let tick := enqueueTick iTime eng.timeStart
    (pNode.tempo,
      [MetroCall.tempoEvent tick (truncInt (60000000 / pNode.tempo)),
       MetroCall.splitTime pNode.frame tick])
  else (metroTempo, [])

/-- Model of `qtractorMidiEngine::processMetro` on the window
`[iFrameStart, iFrameEnd)`: the tracked tempo after the call and the calls
made. -/
def processMetro (fuel : Nat) (eng : MetroEngine) (metroTempo : ℚ)
    (iFrameStart iFrameEnd : Nat) : Outcome (ℚ × List MetroCall) :=
  match eng.metroCursor with
  | none => Outcome.ok (metroTempo, [])
  | some cursor =>
    let pNode := cursor.seekFrame iFrameEnd
    let change := metroTempoChange eng metroTempo pNode iFrameStart
    if !eng.metronome && !eng.clockMode.hasOutput then Outcome.ok change
    else
      let iTimeEnd := pNode.tickFromFrame iFrameEnd
      let node := cursor.seekFrame iFrameStart
      let iTimeStart := node.tickFromFrame iFrameStart
      let iBeat := node.beatFromTick iTimeStart % 2 ^ 32
      let iTime := node.tickFromBeat iBeat
      match metroLoop eng cursor iTimeStart iTimeEnd fuel node iBeat iTime with
      | Outcome.ok calls => Outcome.ok (change.1, change.2 ++ calls)
      | Outcome.outOfFuel => Outcome.outOfFuel
      | Outcome.nullDeref => Outcome.nullDeref

/-- Consecutive calls of `processMetro` on the windows `[f, f₁)`, `[f₁, f₂)`,
… given by a start and the following window ends, as successive output
cycles make them; the calls are collected in order. -/
def processMetroWindows (fuel : Nat) (eng : MetroEngine) :
    ℚ → Nat → List Nat → Outcome (ℚ × List MetroCall)
  | metroTempo, _, [] => Outcome.ok (metroTempo, [])
  | metroTempo, iFrameStart, iFrameEnd :: rest =>
    match processMetro fuel eng metroTempo iFrameStart iFrameEnd with
    | Outcome.ok (tempo, calls) =>
      match processMetroWindows fuel eng tempo iFrameEnd rest with
      | Outcome.ok (tempo2, calls2) => Outcome.ok (tempo2, calls ++ calls2)
      | Outcome.outOfFuel => Outcome.outOfFuel
      | Outcome.nullDeref => Outcome.nullDeref
    | Outcome.outOfFuel => Outcome.outOfFuel
    | Outcome.nullDeref => Outcome.nullDeref

/-- The note events among the calls. -/
def noteEvents : List MetroCall → List MetroCall
  | [] => []
  | MetroCall.noteEvent s t c n v d :: rest =>
    MetroCall.noteEvent s t c n v d :: noteEvents rest
  | _ :: rest => noteEvents rest

/-- The metronome note of a beat in the words of the specification: the
bar-note parameters when the beat starts a bar, else the beat-note
parameters, on the metronome channel. -/
def specMetroNote (eng : MetroEngine) (port : Int) (isBar : Bool) (tick : Nat) :
    MetroCall :=
  if isBar then
    MetroCall.noteEvent (some port) tick eng.metroChannel
      eng.m_iMetroBarNote eng.m_iMetroBarVelocity eng.m_iMetroBarDuration
  else
    MetroCall.noteEvent (some port) tick eng.metroChannel
      eng.m_iMetroBeatNote eng.m_iMetroBeatVelocity eng.m_iMetroBeatDuration

/-- Index, counted from the node, of the first beat at or after tick `t`. -/
def beatCeil (node : TimeScaleNode) (t : Nat) : Nat :=
  (t - node.tick + node.ticksPerBeat - 1) / node.ticksPerBeat

/-- A cursor that stays on one tempo segment: every lookup gives `node`,
whose maps are the uniform ones of a segment starting at beat `beat0` with
`beatsPerBar` beats to the bar, and whose `tickFromFrame` is monotone and at
or past the node tick from the node frame on. -/
def SingleSegment (cursor : MetroCursor) (node : TimeScaleNode)
    (beat0 beatsPerBar : Nat) : Prop :=
  (∀ f, cursor.seekFrame f = node)
  ∧ (∀ b, cursor.seekBeat b = node)
  ∧ (∀ t, node.tick ≤ t →
      node.beatFromTick t = beat0 + (t - node.tick) / node.ticksPerBeat)
  ∧ (∀ b, beat0 ≤ b →
      node.tickFromBeat b = node.tick + (b - beat0) * node.ticksPerBeat)
  ∧ (∀ b, beat0 ≤ b → node.beatIsBar b = decide ((b - beat0) % beatsPerBar = 0))
  ∧ (∀ f g, f ≤ g → node.tickFromFrame f ≤ node.tickFromFrame g)
  ∧ (∀ f, node.frame ≤ f → node.tick ≤ node.tickFromFrame f)

/-- Example node: one segment from frame 0 at 120 bpm, 48 kHz, 960 ticks per
beat (25 frames per tick), bars of four beats. -/
def exampleNode : TimeScaleNode :=
  { frame := 0, tick := 0, tempo := 120, ticksPerBeat := 960
    tickFromFrame := fun f => f / 25
    beatFromTick := fun t => t / 960
    tickFromBeat := fun b => b * 960
    beatIsBar := fun b => decide (b % 4 = 0) }

/-- Example cursor that stays on `exampleNode`. -/
def exampleCursor : MetroCursor :=
  { seekFrame := fun _ => exampleNode, seekBeat := fun _ => exampleNode }

/-- Example engine: the constructor values with the metronome on, a metronome
bus on port 2 and the example cursor. -/
def exampleMetroEngine : MetroEngine :=
  { defaultMetroEngine with
    metroCursor := some exampleCursor
    metroBus := some ⟨2, false, false⟩ }

/-! ## Drift correction -/

/-- The queue tempo record read and written by `drift`: the skew base and the
current skew (both `unsigned int`). -/
structure QueueTempo where
  skewBase : Nat
  skew : Nat
  deriving DecidableEq, Repr

/-- What `drift` leaves behind: the engine clock, the queue tempo, and the
skew handed to `snd_seq_set_queue_tempo` when that call is made. -/
structure DriftResult where
  clock : EngineClock
  queue : QueueTempo
  skewSet : Option Nat
  deriving DecidableEq, Repr

/-- A single-precision (`float`) value `(-1)^neg * m * 2^e`.  Overflow and
subnormal values are left out: the values met in `drift` lie between
`2 ^ (-63)` and `2 ^ 95` in magnitude, or are zero. -/
structure F32 where
  neg : Bool
  m : Nat
  e : Int
  deriving DecidableEq, Repr

/-- The number of binary digits of `n`, counted in at most `fuel` steps. -/
def bitLengthAux : Nat → Nat → Nat
  | 0, _ => 0
  | fuel + 1, n => if n = 0 then 0 else bitLengthAux fuel (n / 2) + 1

/-- The number of binary digits of `n < 2 ^ 128`; the significand products and
the shifted dividends of the `float` operations below are under `2 ^ 76`. -/
def bitLength (n : Nat) : Nat := bitLengthAux 128 n

/-- Rounding to `float`: `m * 2^e`, increased by a non-zero amount below
`2^e` when `sticky` is set, is rounded to 24 significant bits, to nearest
with ties to even. -/
def f32Round (m : Nat) (e : Int) (sticky : Bool) : Nat × Int :=
  if bitLength m ≤ 24 then (m, e)
  else
    let s := bitLength m - 24
    let q := m >>> s
    let r := m % 2 ^ s
    let half := 2 ^ (s - 1)
    if r > half ∨ (r = half ∧ (sticky = true ∨ q % 2 = 1)) then (q + 1, e + (s : Int))
    else (q, e + (s : Int))

/-- The conversion `float(x)` of an integer. -/
def F32.ofInt (x : Int) : F32 :=
  ⟨decide (x < 0), (f32Round x.natAbs 0 false).1, (f32Round x.natAbs 0 false).2⟩

/-- The `float` product. -/
def F32.mul (a b : F32) : F32 :=
  ⟨xor a.neg b.neg, (f32Round (a.m * b.m) (a.e + b.e) false).1,
    (f32Round (a.m * b.m) (a.e + b.e) false).2⟩

/-- The `float` quotient: the dividend is shifted so that the integer
quotient has at least 26 bits, and the remainder gives the sticky bit.  A
division by zero (infinite or not a number in `float`) is given the value
zero. -/
def F32.div (a b : F32) : F32 :=
  if b.m = 0 then ⟨xor a.neg b.neg, 0, 0⟩
  else
    ⟨xor a.neg b.neg,
      (f32Round ((a.m <<< (26 + bitLength b.m)) / b.m)
        (a.e - b.e - ((26 + bitLength b.m : Nat) : Int))
        (decide ((a.m <<< (26 + bitLength b.m)) % b.m ≠ 0))).1,
      (f32Round ((a.m <<< (26 + bitLength b.m)) / b.m)
        (a.e - b.e - ((26 + bitLength b.m : Nat) : Int))
        (decide ((a.m <<< (26 + bitLength b.m)) % b.m ≠ 0))).2⟩

/-- The conversion `(unsigned int) x` of a `float`: truncation toward zero;
a value outside the range of `unsigned int` (undefined in C) is wrapped. -/
def F32.toUInt (a : F32) : Nat :=
  if a.neg then
    ((-(((if a.e ≥ 0 then a.m * 2 ^ a.e.toNat else a.m / 2 ^ (-a.e).toNat) : Nat) : Int))
      % 2 ^ 32).toNat
  else (if a.e ≥ 0 then a.m * 2 ^ a.e.toNat else a.m / 2 ^ (-a.e).toNat) % 2 ^ 32

/-- The skew computed by `drift`,
`(unsigned int) (float(iSkewBase) * float(iAudioTime) / float(iMidiTime - m_iTimeDrift))`,
each conversion and operation rounded to single precision. -/
def driftSkew (iSkewBase : Nat) (iAudioTime iMidiTime timeDrift : Int) : Nat :=
  (F32.div (F32.mul (F32.ofInt (iSkewBase : Int)) (F32.ofInt iAudioTime))
    (F32.ofInt (toLong (iMidiTime - timeDrift)))).toUInt

/-- Model of `qtractorMidiEngine::drift`.  `playHead` is
`pSession->playHead()` (nothing without a session), `queueTick` the tick time
of the queue status (nothing when the status cannot be read), `readAhead`
the read-ahead of the output thread. -/
def drift (playHead : Option Nat) (metroCursor : Option MetroCursor)
    (queueTick : Option Nat) (readAhead : Nat) (clock : EngineClock)
    (queue : QueueTempo) : DriftResult :=
  match playHead, metroCursor, queueTick with
  | some iAudioFrame, some cursor, some tickTime =>
    let pNode := cursor.seekFrame iAudioFrame
    let iAudioTime := toLong (pNode.tickFromFrame iAudioFrame)
    let iMidiTime := toLong (clock.timeStart + toLong tickTime)
    let iDeltaMax := toLong
      (toLong (pNode.tickFromFrame ((iAudioFrame + readAhead) % 2 ^ 64)) - iAudioTime)
    let iDeltaTime := toLong (iAudioTime - iMidiTime)
    if iAudioTime > iDeltaMax ∧ iMidiTime > clock.timeDrift ∧ iDeltaTime ≠ 0
        ∧ iDeltaTime > toLong (-iDeltaMax) ∧ iDeltaTime < iDeltaMax then
      let iSkewNext := driftSkew queue.skewBase iAudioTime iMidiTime clock.timeDrift
      { clock := { clock with timeDrift := toLong (clock.timeDrift + iDeltaTime) }
        queue := { queue with skew := iSkewNext }
        skewSet := if iSkewNext ≠ queue.skew then some iSkewNext else none }
    else { clock := clock, queue := queue, skewSet := none }
  | _, _, _ => { clock := clock, queue := queue, skewSet := none }

/-- The drift rule in the words of the specification, on
`delta = audioTick - midiTick`: it fires when `audioTick > deltaMax`,
`midiTick > timeDrift` and `|delta| < deltaMax`. -/
def specDrift (audioTick midiTick deltaMax : Int) (clock : EngineClock)
    (queue : QueueTempo) : DriftResult :=
  if audioTick > deltaMax ∧ midiTick > clock.timeDrift
      ∧ |audioTick - midiTick| < deltaMax then
    { clock := { clock with timeDrift := clock.timeDrift + (audioTick - midiTick) }
      queue := { queue with
        skew := (truncInt ((queue.skewBase : ℚ) * (audioTick : ℚ)
          / ((midiTick - clock.timeDrift : Int) : ℚ))).toNat % 2 ^ 32 }
      skewSet :=
        if (truncInt ((queue.skewBase : ℚ) * (audioTick : ℚ)
            / ((midiTick - clock.timeDrift : Int) : ℚ))).toNat % 2 ^ 32 ≠ queue.skew
        then some ((truncInt ((queue.skewBase : ℚ) * (audioTick : ℚ)
            / ((midiTick - clock.timeDrift : Int) : ℚ))).toNat % 2 ^ 32)
        else none }
  else { clock := clock, queue := queue, skewSet := none }

/-- The quantity `|audioTick - (midiTick - timeDrift)|` of the
specification. -/
def driftError (audioTick midiTick timeDrift : Int) : Int :=
  |audioTick - (midiTick - timeDrift)|

/-- Example input buffers on rational samples: frame `k` of channel `c`
holds `100 * c + k`. -/
def rampInput : Nat → Nat → ℚ := fun c k => 100 * (c : ℚ) + (k : ℚ)

/-- Example insert bus on rational samples: silent sends at byte address 4,
returns holding `10 * c + k`. -/
def rampBus : AudioBus ℚ :=
  { out := fun _ _ => 0
    outAddr := fun _ => 4
    in_ := fun (c k : Nat) => 10 * (c : ℚ) + (k : ℚ) }

/-- The loop scenario used as a worked example: loop `[96000, 144000)` at
48 kHz, 120 bpm and 960 ticks per beat. -/
def loopScenario : Session :=
  { isLooping := true, loopStart := 96000, loopEnd := 144000,
    tickFromFrame := fun f => f * 960 * 120 / (60 * 48000) }

/-- The NOTEON velocity in the words of the specification:
`clamp7(g * v) = min(127, trunc(g * v))`. -/
def specClamp7 (g : ℚ) (v : Nat) : Int := min 127 (truncInt (g * (v : ℚ)))

/-- Example track for the bank and program overrides: bank `0x0180`,
program 5, channel 3, routed to a bus on port 0. -/
def exampleBankTrack : Track :=
  { outputBus := some ⟨0, false, false⟩, midiTag := 7, midiChannel := 3,
    midiBank := 0x0180, midiProgram := 5, hasMonitor := false,
    hasMidiManager := false }

/-- Example Bank-Select-MSB controller event of value 1. -/
def exampleBankEvent : MidiEvent :=
  { type := EventType.CONTROLLER, note := 0, controller := 0, value := 1,
    duration := 0, pitchBend := 0, sysex := [] }

/-! ## Bus patches and direct controllers -/

/-- An entry of `qtractorMidiBus::m_patches`. -/
structure Patch where
  instrumentName : String
  bankSelMethod : Int
  bank : Int
  prog : Int
  deriving DecidableEq, Repr

/-- The parts of a `qtractorMidiBus` read and written by `setPatch`,
`setControllerEx`, `shutOff` and `close`.  `hasEngine` tells whether
`engine()` is non-null, `hasAlsaSeq` whether the engine's `alsaSeq()` is,
`hasMidiManagerOut` whether the output plugin list exists and has a MIDI
manager.  `patches` lists the entries of the `QHash m_patches` in its
iteration order. -/
structure MidiBus where
  hasEngine : Bool
  hasAlsaSeq : Bool
  alsaPort : Int
  hasMidiManagerOut : Bool
  patches : List (Nat × Patch)
  deriving DecidableEq, Repr

/-- What the bus helpers do to their collaborators, in call order: a direct
event from the bus port handed to `snd_seq_event_output_direct`, to the
track's MIDI manager or to the bus's output MIDI manager, and the deletion
of the port. -/
inductive BusCall
  | eventOutputDirect (source : Int) (data : SeqData)
  | trackManagerDirect (source : Int) (data : SeqData)
  | busManagerDirect (source : Int) (data : SeqData)
  | deleteSimplePort (port : Int)
  deriving DecidableEq, Repr

/-- The assignment through `m_patches[key]`: the entry of `key` is created
when missing and overwritten otherwise. -/
def patchesSet : List (Nat × Patch) → Nat → Patch → List (Nat × Patch)
  | [], key, p => [(key, p)]
  | (k, q) :: rest, key, p =>
    if k = key then (k, p) :: rest else (k, q) :: patchesSet rest key p

/-- One direct event of a bus helper: `snd_seq_event_output_direct`, then
the track's MIDI manager and the bus's output MIDI manager when they
exist. -/
def busDirect (bus : MidiBus) (hasTrackManager : Bool) (data : SeqData) : List BusCall :=
  [BusCall.eventOutputDirect bus.alsaPort data]
    ++ (if hasTrackManager then [BusCall.trackManagerDirect bus.alsaPort data] else [])
    ++ (if bus.hasMidiManagerOut then [BusCall.busManagerDirect bus.alsaPort data] else [])

/-- Whether `pTrack` is non-null and its plugin list has a MIDI manager. -/
def trackManager (pTrack : Option Track) : Bool :=
  match pTrack with
  | some t => t.hasMidiManager
  | none => false

/-- Model of `qtractorMidiBus::setControllerEx`; the channel is stored in an
`unsigned char`, the controller number in an `unsigned int`. -/
def MidiBus.setControllerEx (bus : MidiBus) (iChannel : Nat) (iController iValue : Int)
    (pTrack : Option Track) : List BusCall :=
  if !bus.hasEngine then []
  else if !bus.hasAlsaSeq then []
  else
    busDirect bus (trackManager pTrack)
      (SeqData.CONTROLLER (iChannel % 256) (iController % 2 ^ 32).toNat iValue)

/-- Model of `qtractorMidiBus::setController(unsigned short, int, int)`. -/
def MidiBus.setController (bus : MidiBus) (iChannel : Nat) (iController iValue : Int) :
    List BusCall :=
  bus.setControllerEx iChannel iController iValue none

/-- Model of `qtractorMidiBus::shutOff`; `setControllerEx(iChannel, c)` is
the call with value 0 and no track. -/
def MidiBus.shutOff (bus : MidiBus) (bClose : Bool) : List BusCall :=
  if !bus.hasEngine then []
  else if !bus.hasAlsaSeq then []
  else
    bus.patches.flatMap (fun entry =>
      bus.setControllerEx entry.1 ALL_SOUND_OFF 0 none
        ++ bus.setControllerEx entry.1 ALL_NOTES_OFF 0 none
        ++ (if bClose then bus.setControllerEx entry.1 ALL_CONTROLLERS_OFF 0 none
            else []))

/-- Model of `qtractorMidiBus::close`. -/
def MidiBus.close (bus : MidiBus) : MidiBus × List BusCall :=
  if !bus.hasEngine then (bus, [])
  else if !bus.hasAlsaSeq then (bus, [])
  else
    ({ bus with alsaPort := -1 },
      bus.shutOff true ++ [BusCall.deleteSimplePort bus.alsaPort])

/-- Model of `qtractorMidiBus::setPatch`. -/
def MidiBus.setPatch (bus : MidiBus) (iChannel : Nat) (sInstrumentName : String)
    (iBankSelMethod iBank iProg : Int) (pTrack : Option Track) : MidiBus × List BusCall :=
  if iProg < 0 then (bus, [])
  else if !bus.hasEngine then (bus, [])
  else
    let bus1 :=
      if !sInstrumentName.isEmpty then
        { bus with
          patches := patchesSet bus.patches (iChannel &&& 0x0f)
            ⟨sInstrumentName, iBankSelMethod, iBank, iProg⟩ }
      else bus
    if !bus.hasAlsaSeq then (bus1, [])
    else
      (bus1,
        (if iBank ≥ 0 ∧ (iBankSelMethod = 0 ∨ iBankSelMethod = 1) then
          busDirect bus (trackManager pTrack)
            (SeqData.CONTROLLER (iChannel % 256) BANK_SELECT_MSB
              (if iBankSelMethod = 0 then (Int.land iBank 0x3f80) >>> 7
                else Int.land iBank 0x007f))
          else [])
        ++ (if iBank ≥ 0 ∧ (iBankSelMethod = 0 ∨ iBankSelMethod = 2) then
          busDirect bus (trackManager pTrack)
            (SeqData.CONTROLLER (iChannel % 256) BANK_SELECT_LSB (Int.land iBank 0x007f))
          else [])
        ++ busDirect bus (trackManager pTrack)
            (SeqData.PGMCHANGE (iChannel % 256) iProg))

/-- The events handed to `snd_seq_event_output_direct`, in order. -/
def directEvents : List BusCall → List SeqData
  | [] => []
  | BusCall.eventOutputDirect _ d :: rest => d :: directEvents rest
  | _ :: rest => directEvents rest

/-- Example bus: opened on port 4, with an output MIDI manager and patches on
channels 0 and 9. -/
def exampleBus : MidiBus :=
  { hasEngine := true, hasAlsaSeq := true, alsaPort := 4, hasMidiManagerOut := true
    patches := [(0, ⟨"Piano", 0, 0, 0⟩), (9, ⟨"Drums", 0, 128, 1⟩)] }

/-! ## Capture -/

/-- The ALSA event types that `capture` switches on; `OTHER` stands for
every type that falls to `default:`. -/
inductive SeqEventType
  | NOTE | NOTEON | NOTEOFF | KEYPRESS | CONTROLLER | PGMCHANGE | CHANPRESS
  | PITCHBEND | START | STOP | CONTINUE | SONGPOS | CLOCK | SYSEX | OTHER
  deriving DecidableEq, Repr

/-- Modelled from the spec: the fields of an incoming `snd_seq_event_t`
(declared outside the sources) read by `capture`: the type, the destination
port, the tick, the note data, the control data, and the external data of a
SysEx (`extLen` bytes at `data.ext.ptr`; `extMem i` is the byte stored `i`
bytes after that pointer, inside the payload or not). -/
structure CaptureEvent where
  type : SeqEventType
  destPort : Int
  tick : Nat
  channel : Nat
  note : Nat
  velocity : Nat
  duration : Nat
  param : Nat
  value : Int
  extLen : Nat
  extMem : Nat → Nat

/-- The parts of a track read by `capture`; `acceptsChannel` is
`pSession->isTrackMidiChannel(pTrack, iChannel)` and `isTrackMonitor` is
`pSession->isTrackMonitor(pTrack)` (code outside the sources). -/
structure CaptureTrack where
  isMidi : Bool
  isRecord : Bool
  isTrackMonitor : Bool
  acceptsChannel : Nat → Bool
  midiChannel : Nat
  inputBusPort : Option Int
  hasClipRecord : Bool
  hasMonitor : Bool
  outputBus : Option MidiBusOut
  hasMidiManager : Bool

/-- The parts of a bus read by the bus monitoring loop of `capture`. -/
structure CaptureBus where
  alsaPort : Int
  hasMonitorIn : Bool
  hasMidiManagerIn : Bool
  isPassthru : Bool
  hasMidiManagerOut : Bool
  hasMonitorOut : Bool
  deriving DecidableEq, Repr

/-- The engine and session state read and written by `capture`.
`iControlBusPort` is the port of `m_pIControlBus` (nothing when that is
null); `clockTimeStart` is the reading of the static `s_clockTime` at its
last `start()`, in milliseconds. -/
structure CaptureEngine where
  hasSession : Bool
  ticksPerBeat : Nat
  captureQuantize : Nat
  iControlBusPort : Option Int
  hasNotifyObject : Bool
  mmcMode : BusMode
  sppMode : BusMode
  clockMode : BusMode
  clockCount : Nat
  clockTempo : ℚ
  clockTimeStart : Nat
  timeStart : Int
  isRecording : Bool
  isPlaying : Bool
  isPunching : Bool
  punchInTime : Nat
  punchOutTime : Nat
  tracks : List CaptureTrack
  buses : List CaptureBus

/-- What `capture` does to its collaborators, in call order.  The `post`
calls are the events posted to the notify object; `addEvent` appends to the
record clip of the track with the given index in the session's track list. -/
inductive CaptureCall
  | postControl (channel data1 data2 : Nat)
  | postSpp (type : SeqEventType) (value : Int)
  | postClock (tempo : ℚ)
  | postMmc (sysex : List Nat)
  | addEvent (track : Nat) (tick : Nat) (type : EventType) (data1 data2 duration : Nat)
      (sysex : Option (List Nat))
  | trackMonitorEnqueue (track : Nat) (type : EventType) (data2 : Nat)
  | thruOutput (port : Int) (channel : Nat)
  | monitorOutEnqueue (port : Int) (type : EventType) (data2 : Nat)
  | trackManagerDirect (track : Nat)
  | monitorInEnqueue (port : Int) (type : EventType) (data2 : Nat)
  | busManagerInDirect (port : Int)
  | busManagerOutDirect (port : Int)
  deriving DecidableEq, Repr

/-- The locals of `capture` after its `switch`: `type`, `iChannel`, `data1`,
`data2`, `duration`, and the SysEx payload when `pSysex` is set. -/
structure Captured where
  type : EventType
  channel : Nat
  data1 : Nat
  data2 : Nat
  duration : Nat
  sysex : Option (List Nat)
  deriving DecidableEq, Repr

/-- The result of the `switch` of `capture`: the engine, the notifications
posted, the payload indices read by the MMC test, and the locals when the
`switch` is left by `break` (nothing when it is left by `return`). -/
structure Classified where
  engine : CaptureEngine
  calls : List CaptureCall
  sysexReads : List Nat
  captured : Option Captured

/-- The test `m_pIControlBus && m_pIControlBus->alsaPort() == iAlsaPort`. -/
def onControlPort (eng : CaptureEngine) (iAlsaPort : Int) : Bool :=
  match eng.iControlBusPort with
  | some p => decide (p = iAlsaPort)
  | none => false

/-- The first `n` bytes at the SysEx pointer. -/
def sysexBytes (ev : CaptureEvent) (n : Nat) : List Nat :=
  (List.range n).map ev.extMem

/-- The test `::fabs(fTempo - m_fClockTempo) / m_fClockTempo > 0.01f`; in
`float` a division of a non-zero value by zero is infinite and `0 / 0` is
not a number. -/
def clockDiffers (fTempo clockTempo : ℚ) : Bool :=
  if clockTempo = 0 then decide (fTempo ≠ 0)
  else decide (|fTempo - clockTempo| / clockTempo > 1 / 100)

/-- The `case SND_SEQ_EVENT_CLOCK:` of `capture`; `now` is the reading of the
clock in milliseconds when the pulse arrives, so that `s_clockTime.elapsed()`
is `now - clockTimeStart`. -/
def captureClock (eng : CaptureEngine) (iAlsaPort : Int) (now : Nat) :
    CaptureEngine × List CaptureCall :=
  if eng.clockMode.hasInput && onControlPort eng iAlsaPort then
    if eng.clockCount + 1 = 1 then
      ({ eng with clockCount := eng.clockCount + 1, clockTimeStart := now }, [])
    else if eng.clockCount + 1 > 72 then
      let fTempo : ℚ :=
        (truncInt (180000 / (((now : Int) - (eng.clockTimeStart : Int) : Int) : ℚ)) : Int)
      if clockDiffers fTempo eng.clockTempo then
        ({ eng with clockCount := 0, clockTempo := fTempo },
          if eng.hasNotifyObject then [CaptureCall.postClock fTempo] else [])
      else ({ eng with clockCount := 0 }, [])
    else ({ eng with clockCount := eng.clockCount + 1 }, [])
  else (eng, [])

/-- The `switch (pEv->type)` of `capture`. -/
def captureClassify (eng : CaptureEngine) (ev : CaptureEvent) (now : Nat) : Classified :=
  match ev.type with
  | .NOTE | .NOTEON =>
    ⟨eng, [], [],
      some ⟨if ev.velocity % 256 = 0 then EventType.NOTEOFF else EventType.NOTEON,
        ev.channel, ev.note % 256, ev.velocity % 256, ev.duration, none⟩⟩
  | .NOTEOFF =>
    ⟨eng, [], [],
      some ⟨EventType.NOTEOFF, ev.channel, ev.note % 256, ev.velocity % 256,
        ev.duration, none⟩⟩
  | .KEYPRESS =>
    ⟨eng, [], [],
      some ⟨EventType.KEYPRESS, ev.channel, ev.param % 256, intToUChar ev.value, 0, none⟩⟩
  | .CONTROLLER =>
    if onControlPort eng ev.destPort then
      if ev.param % 256 > 0x7f ∨ intToUChar ev.value > 0x7f then ⟨eng, [], [], none⟩
      else
        ⟨eng,
          if eng.hasNotifyObject then
            [CaptureCall.postControl ev.channel (ev.param % 256) (intToUChar ev.value)]
          else [],
          [],
          some ⟨EventType.CONTROLLER, ev.channel, ev.param % 256, intToUChar ev.value,
            0, none⟩⟩
    else
      ⟨eng, [], [],
        some ⟨EventType.CONTROLLER, ev.channel, ev.param % 256, intToUChar ev.value,
          0, none⟩⟩
  | .PGMCHANGE =>
    ⟨eng, [], [],
      some ⟨EventType.PGMCHANGE, ev.channel, 0, intToUChar ev.value, 0, none⟩⟩
  | .CHANPRESS =>
    ⟨eng, [], [],
      some ⟨EventType.CHANPRESS, ev.channel, 0, intToUChar ev.value, 0, none⟩⟩
  | .PITCHBEND =>
    ⟨eng, [], [],
      some ⟨EventType.PITCHBEND, ev.channel,
        (((0x2000 + ev.value) % 65536).toNat &&& 0x007f) % 256,
        ((((0x2000 + ev.value) % 65536).toNat &&& 0x3f80) >>> 7) % 256, 0, none⟩⟩
  | .START | .STOP | .CONTINUE | .SONGPOS =>
    ⟨eng,
      if eng.sppMode.hasInput && onControlPort eng ev.destPort && eng.hasNotifyObject then
        [CaptureCall.postSpp ev.type ev.value]
      else [],
      [], none⟩
  | .CLOCK =>
    ⟨(captureClock eng ev.destPort now).1, (captureClock eng ev.destPort now).2, [], none⟩
  | .SYSEX =>
    if !eng.mmcMode.hasInput then
      ⟨eng, [], [],
        some ⟨EventType.SYSEX, 0, 0, 0, 0, some (sysexBytes ev (ev.extLen % 65536))⟩⟩
    else if ev.extMem 1 ≠ 0x7f then
      ⟨eng, [], [1],
        some ⟨EventType.SYSEX, 0, 0, 0, 0, some (sysexBytes ev (ev.extLen % 65536))⟩⟩
    else if ev.extMem 3 = 0x06 ∧ onControlPort eng ev.destPort = true then
      ⟨eng,
        if eng.hasNotifyObject then [CaptureCall.postMmc (sysexBytes ev ev.extLen)] else [],
        [1, 3], none⟩
    else
      ⟨eng, [], [1, 3],
        some ⟨EventType.SYSEX, 0, 0, 0, 0, some (sysexBytes ev (ev.extLen % 65536))⟩⟩
  | .OTHER => ⟨eng, [], [], none⟩

/-- The body of the track loop of `capture` for the track of index `i`. -/
def captureTrack (eng : CaptureEngine) (iAlsaPort : Int) (tick : Nat) (c : Captured)
    (i : Nat) (t : CaptureTrack) : List CaptureCall :=
  if t.isMidi && (t.isRecord || t.isTrackMonitor) && t.acceptsChannel c.channel then
    match t.inputBusPort with
    | none => []
    | some p =>
      if p = iAlsaPort then
        (if t.isRecord && (eng.isRecording && eng.isPlaying) then
          if t.hasClipRecord && (!eng.isPunching
              || (decide (toULong ((tick : Int) + eng.timeStart) ≥ eng.punchInTime)
                && decide (toULong ((tick : Int) + eng.timeStart) < eng.punchOutTime))) then
            [CaptureCall.addEvent i tick c.type c.data1 c.data2 c.duration c.sysex]
          else []
        else [])
        ++ (if t.hasMonitor then [CaptureCall.trackMonitorEnqueue i c.type c.data2] else [])
        ++ (if t.isTrackMonitor then
          match t.outputBus with
          | none => []
          | some ob =>
            if ob.hasMonitorOut then
              [CaptureCall.thruOutput ob.alsaPort t.midiChannel,
               CaptureCall.monitorOutEnqueue ob.alsaPort c.type c.data2]
              ++ (if t.hasMidiManager then [CaptureCall.trackManagerDirect i] else [])
            else []
        else [])
      else []
  else []

/-- The track loop of `capture`, over the tracks from index `i` on. -/
def captureTracks (eng : CaptureEngine) (iAlsaPort : Int) (tick : Nat) (c : Captured) :
    Nat → List CaptureTrack → List CaptureCall
  | _, [] => []
  | i, t :: rest =>
    captureTrack eng iAlsaPort tick c i t ++ captureTracks eng iAlsaPort tick c (i + 1) rest

/-- The body of the bus monitoring loop of `capture`. -/
def captureBus (iAlsaPort : Int) (channel : Nat) (c : Captured) (b : CaptureBus) :
    List CaptureCall :=
  if b.alsaPort = iAlsaPort then
    (if b.hasMonitorIn then [CaptureCall.monitorInEnqueue b.alsaPort c.type c.data2] else [])
    ++ (if b.hasMidiManagerIn then [CaptureCall.busManagerInDirect b.alsaPort] else [])
    ++ (if b.isPassthru then
      (if b.hasMidiManagerOut then [CaptureCall.busManagerOutDirect b.alsaPort] else [])
      ++ (if b.hasMonitorOut then
        [CaptureCall.thruOutput b.alsaPort channel,
         CaptureCall.monitorOutEnqueue b.alsaPort c.type c.data2]
        else [])
      else [])
  else []

/-- What one `capture` call leaves: the engine, the calls made, and the SysEx
payload indices read. -/
structure CaptureResult where
  engine : CaptureEngine
  calls : List CaptureCall
  sysexReads : List Nat

/-- Model of `qtractorMidiEngine::capture`.  There is no result when the
capture quantization divides by zero. -/
def capture (eng : CaptureEngine) (ev : CaptureEvent) (now : Nat) : Option CaptureResult :=
  if !eng.hasSession then some ⟨eng, [], []⟩
  else
    match captureQuantizeTick eng.ticksPerBeat eng.captureQuantize ev.tick with
    | none => none
    | some tick =>
      let cl := captureClassify eng ev now
      match cl.captured with
      | none => some ⟨cl.engine, cl.calls, cl.sysexReads⟩
      | some c =>
        some ⟨cl.engine,
          cl.calls ++ captureTracks eng ev.destPort tick c 0 eng.tracks
            ++ eng.buses.flatMap (captureBus ev.destPort ev.channel c),
          cl.sysexReads⟩

/-- Successive `capture` calls on events arriving at the given clock
readings. -/
def captureAll : CaptureEngine → List (CaptureEvent × Nat) →
    Option (CaptureEngine × List CaptureCall)
  | eng, [] => some (eng, [])
  | eng, (ev, now) :: rest =>
    match capture eng ev now with
    | none => none
    | some r =>
      match captureAll r.engine rest with
      | none => none
      | some (e, calls) => some (e, r.calls ++ calls)

/-- Whether a call touches a record buffer, a monitor, a plugin manager or
the MIDI-thru output, i.e. is not a notification. -/
def CaptureCall.isForward : CaptureCall → Bool
  | .postControl _ _ _ => false
  | .postSpp _ _ => false
  | .postClock _ => false
  | .postMmc _ => false
  | _ => true

/-- Example track: a MIDI track armed for recording on channel 0 of the bus
on port 1, with a record clip and a monitor. -/
def exampleCaptureTrack : CaptureTrack :=
  { isMidi := true, isRecord := true, isTrackMonitor := false
    acceptsChannel := fun ch => decide (ch = 0), midiChannel := 0
    inputBusPort := some 1, hasClipRecord := true, hasMonitor := true
    outputBus := none, hasMidiManager := false }

/-- Example engine: the constructor values (no notify object, MMC and SPP
duplex, no clock mode, clock tempo 120, no capture quantization) with a
session that is recording and playing, the control-input bus on port 1, the
example track and an input bus on port 1. -/
def exampleCaptureEngine : CaptureEngine :=
  { hasSession := true, ticksPerBeat := 960, captureQuantize := 0
    iControlBusPort := some 1, hasNotifyObject := false
    mmcMode := BusMode.Duplex, sppMode := BusMode.Duplex, clockMode := BusMode.None
    clockCount := 0, clockTempo := 120, clockTimeStart := 0, timeStart := 0
    isRecording := true, isPlaying := true, isPunching := false
    punchInTime := 0, punchOutTime := 0
    tracks := [exampleCaptureTrack]
    buses := [⟨1, true, false, false, false, false⟩] }

/-- The example engine with a notify object registered. -/
def exampleNotifyEngine : CaptureEngine :=
  { exampleCaptureEngine with hasNotifyObject := true }

/-- The example engine with a notify object and MIDI clock input. -/
def exampleClockInEngine : CaptureEngine :=
  { exampleCaptureEngine with hasNotifyObject := true, clockMode := BusMode.Input }

/-- An event of the given type on port 1 with everything else zero. -/
def blankEvent (type : SeqEventType) : CaptureEvent :=
  { type := type, destPort := 1, tick := 0, channel := 0, note := 0, velocity := 0
    duration := 0, param := 0, value := 0, extLen := 0, extMem := fun _ => 0 }

/-- The SysEx `F0 7F 7F 06 02 F7` (MMC PLAY) arriving on port 1. -/
def mmcPlayEvent : CaptureEvent :=
  { blankEvent SeqEventType.SYSEX with
    extLen := 6
    extMem := fun i => [0xf0, 0x7f, 0x7f, 0x06, 0x02, 0xf7].getD i 0 }

/-- A CONTROLLER event on port 1, channel 0: controller 7 with value 200. -/
def wideControllerEvent : CaptureEvent :=
  { blankEvent SeqEventType.CONTROLLER with param := 7, value := 200, tick := 480 }

/-- A SysEx of a single byte `F0` arriving on port 1; the memory after the
payload holds zeros. -/
def shortSysexEvent : CaptureEvent :=
  { blankEvent SeqEventType.SYSEX with
    extLen := 1
    extMem := fun i => [0xf0].getD i 0 }

/-- The clock pulses number `k + 1`, `k + 2`, ... of a run of `n` pulses ten
milliseconds apart, pulse `j` arriving at `10 * (j - 1)` ms. -/
def clockPulses : Nat → Nat → List (CaptureEvent × Nat)
  | 0, _ => []
  | n + 1, k => (blankEvent SeqEventType.CLOCK, 10 * k) :: clockPulses n (k + 1)

/-- The conditions under which a CLOCK event arriving on `port` is counted:
a session, a capture quantization that does not divide by zero, MIDI clock
input enabled, and `port` the port of the control-input bus. -/
def ClockReady (eng : CaptureEngine) (port : Int) : Prop :=
  eng.hasSession = true ∧ eng.captureQuantize ≤ eng.ticksPerBeat
    ∧ eng.clockMode.hasInput = true ∧ onControlPort eng port = true

/-! ## MIDI file export -/

/-- The members of a clip event read and written by `fileExport`. -/
structure ExportEvent where
  time : Nat
  type : EventType
  velocity : Nat
  duration : Nat
  deriving DecidableEq, Repr

/-- The parts of a MIDI clip read by `fileExport`; `gain t` stands for
`pMidiClip->gain(pSession->frameFromTick(t) - pClip->clipStart())` (code
outside the sources), and `events` lists the events of the clip sequence in
list order. -/
structure ExportClip where
  clipStart : Nat
  clipLength : Nat
  gain : Nat → ℚ
  events : List ExportEvent

/-- The parts of a track read by `fileExport`. -/
structure ExportTrack where
  isMidi : Bool
  isMute : Bool
  isSolo : Bool
  outputBusPort : Option Int
  midiChannel : Nat
  clips : List ExportClip

/-- The engine, session and file system state read by `fileExport`:
`buses` are the ports of the engine's buses, `defaultFormat` is
`qtractorMidiClip::defaultFormat()`, `fileOpens` and `headerWrites` are the
results of `file.open` and `file.writeHeader` (code outside the sources). -/
structure ExportSession where
  isPlaying : Bool
  hasSession : Bool
  sessionLength : Nat
  ticksPerBeat : Nat
  soloTracks : Bool
  tickFromFrame : Nat → Nat
  tracks : List ExportTrack
  buses : List Int
  defaultFormat : Nat
  fileOpens : Bool
  headerWrites : Bool

/-- What `fileExport` does to the file, in call order. -/
inductive ExportCall
  | fileOpen
  | writeHeader (format tracks ticksPerBeat : Nat)
  | writeTracks (seqs : List (List ExportEvent))
  | fileClose
  deriving DecidableEq, Repr

/-- The copy of one event made by `fileExport`: the time is
`iTimeOffset + pEvent->time()` with `iTimeOffset = iTimeClip - iTimeStart`,
all in `unsigned long`; a NOTEON gets the velocity
`(unsigned char) (fGain * float(velocity)) & 0x7f` and a duration cut at
`iTimeEnd`. -/
def exportEvent (iTimeStart iTimeEnd iTimeClip : Nat) (gain : Nat → ℚ)
    (e : ExportEvent) : ExportEvent :=
  { e with
    time := (toULong ((iTimeClip : Int) - (iTimeStart : Int)) + e.time) % 2 ^ 64
    velocity :=
      if e.type = EventType.NOTEON then
        intToUChar (truncInt (gain ((iTimeClip + e.time) % 2 ^ 64) * (e.velocity : ℚ)))
          &&& 0x7f
      else e.velocity
    duration :=
      if e.type = EventType.NOTEON
          ∧ ((iTimeClip + e.time) % 2 ^ 64 + e.duration) % 2 ^ 64 > iTimeEnd then
        toULong ((iTimeEnd : Int) - (((iTimeClip + e.time) % 2 ^ 64 : Nat) : Int))
      else e.duration }

/-- The two event loops of `fileExport` on one clip: skip the events before
`iTimeStart`, then copy events up to the first one at or after `iTimeEnd`. -/
def exportClipEvents (iTimeStart iTimeEnd iTimeClip : Nat) (gain : Nat → ℚ)
    (events : List ExportEvent) : List ExportEvent :=
  ((events.dropWhile (fun e => decide ((iTimeClip + e.time) % 2 ^ 64 < iTimeStart))).takeWhile
      (fun e => decide ((iTimeClip + e.time) % 2 ^ 64 < iTimeEnd))).map
    (exportEvent iTimeStart iTimeEnd iTimeClip gain)

/-- The two clip loops of `fileExport` on one track: skip the clips that end
before `iExportStart`, then export clips up to the first one that starts at
or after `iExportEnd`. -/
def exportTrackEvents (s : ExportSession) (iExportStart iExportEnd : Nat)
    (t : ExportTrack) : List ExportEvent :=
  ((t.clips.dropWhile
      (fun c => decide ((c.clipStart + c.clipLength) % 2 ^ 64 < iExportStart))).takeWhile
      (fun c => decide (c.clipStart < iExportEnd))).flatMap
    (fun c =>
      exportClipEvents (s.tickFromFrame iExportStart) (s.tickFromFrame iExportEnd)
        (s.tickFromFrame c.clipStart) c.gain c.events)

/-- The tracks that the track loop of `fileExport` does not skip. -/
def exportEligible (s : ExportSession) (port : Int) (t : ExportTrack) : Bool :=
  t.isMidi && !(t.isMute || (s.soloTracks && !t.isSolo))
    && (match t.outputBusPort with
        | some p => decide (p = port)
        | none => false)

/-- Model of `qtractorMidiEngine::fileExport`: the result and the file calls
made.  `pExportBus` is the port of the bus given (nothing for a null
pointer).  A sequence is the list of the events inserted into it, in
insertion order. -/
def fileExport (s : ExportSession) (iExportStart iExportEnd : Nat)
    (pExportBus : Option Int) : Bool × List ExportCall :=
  if s.isPlaying then (false, [])
  else if !s.hasSession then (false, [])
  else
    let iExportEnd1 := if iExportStart ≥ iExportEnd then s.sessionLength else iExportEnd
    if iExportStart ≥ iExportEnd1 then (false, [])
    else
      match (match pExportBus with
             | some p => some p
             | none => s.buses.head?) with
      | none => (false, [])
      | some port =>
        let eligible := s.tracks.filter (exportEligible s port)
        let iTracks := if s.defaultFormat = 0 then 1 else (eligible.length + 1) % 65536
        if s.defaultFormat ≠ 0 ∧ iTracks < 1 then (false, [])
        else
          let seqs : List (List ExportEvent) :=
            if s.defaultFormat = 0 then
              (List.range 16).map (fun ch =>
                (eligible.filter (fun t => decide (t.midiChannel &&& 0x0f = ch))).flatMap
                  (exportTrackEvents s iExportStart iExportEnd1))
            else
              [] :: (eligible.map (exportTrackEvents s iExportStart iExportEnd1)).take
                (iTracks - 1)
          if s.fileOpens then
            (true,
              [ExportCall.fileOpen, ExportCall.writeHeader s.defaultFormat iTracks
                  (s.ticksPerBeat % 65536)]
              ++ (if s.headerWrites then [ExportCall.writeTracks seqs] else [])
              ++ [ExportCall.fileClose])
          else (false, [ExportCall.fileOpen])

/-- Example session for the export: stopped, 1000 frames long, one bus on
port 0, no track, SMF format 0, a file that opens. -/
def exampleExportSession : ExportSession :=
  { isPlaying := false, hasSession := true, sessionLength := 1000, ticksPerBeat := 960
    soloTracks := false, tickFromFrame := fun f => f, tracks := [], buses := [0]
    defaultFormat := 0, fileOpens := true, headerWrites := true }

/-- Example clip events: a note of duration 100 at each of the times 0, 50,
150 and 400. -/
def exampleExportEvents : List ExportEvent :=
  [⟨0, EventType.NOTEON, 100, 100⟩, ⟨50, EventType.NOTEON, 100, 100⟩,
   ⟨150, EventType.NOTEON, 100, 100⟩, ⟨400, EventType.NOTEON, 100, 100⟩]

/-- The example engine with capture quantization to sixteenths
(`960 / 4 = 240` ticks). -/
def exampleQuantizeEngine : CaptureEngine :=
  { exampleCaptureEngine with captureQuantize := 4 }

/-- A note-on of note 60, velocity 64 at tick 1000 on port 1, channel 0. -/
def exampleNoteEvent : CaptureEvent :=
  { blankEvent SeqEventType.NOTEON with tick := 1000, note := 60, velocity := 64 }

/-- Example session for the export of clip events: stopped, one bus on port
0, SMF format 1, ticks equal to frames, and one MIDI track routed to port 0
whose single clip starts at frame 60 and holds the example events. -/
def exampleClipSession : ExportSession :=
  { exampleExportSession with
    defaultFormat := 1
    tracks :=
      [{ isMidi := true, isMute := false, isSolo := false, outputBusPort := some 0
         midiChannel := 0
         clips := [{ clipStart := 60, clipLength := 500, gain := fun _ => 1
                     events := exampleExportEvents }] }] }

/-! ## Theorems -/

theorem toLong_of_lt {n : Nat} (h : n < 2 ^ 63) : toLong (n : Int) = n := by
  unfold toLong
  have h1 : ((n : Int) + 2 ^ 63) % 2 ^ 64 = (n : Int) + 2 ^ 63 := by
    apply Int.emod_eq_of_lt <;> omega
  omega

theorem enqueueTick_eq (iTime : Nat) (timeStart : Int)
    (hT : iTime < 2 ^ 63) (hlo : -(2 ^ 63) ≤ timeStart) (_hhi : timeStart < 2 ^ 63) :
    (enqueueTick iTime timeStart : Int) = max 0 ((iTime : Int) - timeStart) := by
  unfold enqueueTick
  rw [toLong_of_lt hT]
  split
  · rename_i h
    unfold toULong
    have h1 : ((iTime : Int) - timeStart) % 2 ^ 64 = (iTime : Int) - timeStart := by
      apply Int.emod_eq_of_lt <;> omega
    rw [h1]
    omega
  · rename_i h
    omega

/-- C1: for an event enqueued on a track with an output bus at absolute tick
`iTime` with `0 ≤ iTime < 2 ^ 63` and any `long` value of `timeStart`
(negative ones included), `enqueue` pumps exactly one backend event, and it
is scheduled on the engine queue at tick `max 0 (iTime - timeStart)`. -/
theorem C1_enqueue_schedule_tick (alsaQueue timeStart : Int) (track : Track)
    (bus : MidiBusOut) (ev : MidiEvent) (iTime : Nat) (fGain : ℚ)
    (hbus : track.outputBus = some bus)
    (hT : iTime < 2 ^ 63)
    (hlo : -(2 ^ 63) ≤ timeStart) (hhi : timeStart < 2 ^ 63) :
    ∃ sev rest,
      enqueue alsaQueue timeStart track ev iTime fGain
        = EnqueueCall.eventOutput sev :: rest
      ∧ (sev.tick : Int) = max 0 ((iTime : Int) - timeStart)
      ∧ sev.queue = alsaQueue
      ∧ ∀ c ∈ rest, ∀ e, c ≠ EnqueueCall.eventOutput e := by
  refine ⟨enqueueEvent alsaQueue timeStart track bus ev iTime fGain,
    enqueueNotify track bus ev
      (enqueueEvent alsaQueue timeStart track bus ev iTime fGain), ?_, ?_, rfl, ?_⟩
  · simp only [enqueue, hbus]
  · have h := enqueueTick_eq iTime timeStart hT hlo hhi
    simp only [enqueueEvent]
    exact h
  · intro c hc e
    simp only [enqueueNotify, List.mem_append, List.mem_ite_nil_right,
      List.mem_singleton] at hc
    rcases hc with ((h | h) | h) | h <;> (rw [h.2]; simp)

/-- Witness for C1: tick 100 with the queue rewound to `timeStart = -50`. -/
theorem C1_enqueue_schedule_tick_witness :
    ∃ sev rest,
      enqueue 1 (-50)
          ⟨some ⟨0, true, false⟩, 7, 3, -1, -1, true, false⟩
          ⟨EventType.NOTEON, 60, 0, 100, 240, 0, []⟩ 100 1
        = EnqueueCall.eventOutput sev :: rest
      ∧ (sev.tick : Int) = max 0 (((100 : Nat) : Int) - (-50))
      ∧ sev.queue = 1
      ∧ ∀ c ∈ rest, ∀ e, c ≠ EnqueueCall.eventOutput e :=
  C1_enqueue_schedule_tick 1 (-50)
    ⟨some ⟨0, true, false⟩, 7, 3, -1, -1, true, false⟩ ⟨0, true, false⟩
    ⟨EventType.NOTEON, 60, 0, 100, 240, 0, []⟩ 100 1 rfl
    (by norm_num) (by norm_num) (by norm_num)

theorem quantize_step_fixed (q k : Nat) (hq : 0 < q) :
    q * ((q * k + q / 2) / q) = q * k := by
  have h : (q * k + q / 2) / q = k := by
    rw [Nat.mul_add_div hq, Nat.div_eq_of_lt (Nat.div_lt_self hq (by norm_num))]
    rfl
  rw [h]

theorem captureQuantizeTick_eq (ticksPerBeat captureQuantize tick : Nat)
    (hq : 1 ≤ ticksPerBeat / captureQuantize)
    (hno : tick + ticksPerBeat / captureQuantize / 2 < 2 ^ 64) :
    captureQuantizeTick ticksPerBeat captureQuantize tick
      = some (ticksPerBeat / captureQuantize
          * ((tick + ticksPerBeat / captureQuantize / 2)
              / (ticksPerBeat / captureQuantize))) := by
  have hcq : captureQuantize > 0 := by
    rcases Nat.eq_zero_or_pos captureQuantize with h | h
    · rw [h, Nat.div_zero] at hq
      omega
    · exact h
  have hq0 : ticksPerBeat / captureQuantize ≠ 0 := by omega
  have hle : ticksPerBeat / captureQuantize
      * ((tick + ticksPerBeat / captureQuantize / 2)
          / (ticksPerBeat / captureQuantize))
      ≤ tick + ticksPerBeat / captureQuantize / 2 := Nat.mul_div_le _ _
  simp only [captureQuantizeTick, hcq, if_true, hq0, if_false,
    Nat.shiftRight_eq_div_pow, pow_one, Nat.mod_eq_of_lt hno]
  rw [Nat.mod_eq_of_lt (lt_of_le_of_lt hle hno)]

/-- C2: capture quantization is idempotent.  For a quantum
`q = ticksPerBeat / captureQuantize ≥ 1` and a tick for which neither
application overflows `unsigned long`, the quantization step
`tick ↦ q * ((tick + q / 2) / q)` applied to an already quantized tick gives
that same tick. -/
theorem C2_capture_quantize_idempotent (ticksPerBeat captureQuantize tick : Nat)
    (hq : 1 ≤ ticksPerBeat / captureQuantize)
    (hno : tick + ticksPerBeat / captureQuantize / 2 < 2 ^ 64)
    (hno2 : ticksPerBeat / captureQuantize
        * ((tick + ticksPerBeat / captureQuantize / 2)
            / (ticksPerBeat / captureQuantize))
        + ticksPerBeat / captureQuantize / 2 < 2 ^ 64) :
    ∃ t, captureQuantizeTick ticksPerBeat captureQuantize tick = some t
      ∧ t = ticksPerBeat / captureQuantize
          * ((tick + ticksPerBeat / captureQuantize / 2)
              / (ticksPerBeat / captureQuantize))
      ∧ captureQuantizeTick ticksPerBeat captureQuantize t = some t := by
  refine ⟨_, captureQuantizeTick_eq ticksPerBeat captureQuantize tick hq hno, rfl, ?_⟩
  rw [captureQuantizeTick_eq ticksPerBeat captureQuantize _ hq hno2,
    quantize_step_fixed _ _ (by omega)]

/-- Witness for C2: 960 ticks per beat quantized to sixteenths (`q = 240`),
tick 1000 snaps to 960 and stays there. -/
theorem C2_capture_quantize_idempotent_witness :
    ∃ t, captureQuantizeTick 960 4 1000 = some t
      ∧ t = 960 / 4 * ((1000 + 960 / 4 / 2) / (960 / 4))
      ∧ captureQuantizeTick 960 4 t = some t :=
  C2_capture_quantize_idempotent 960 4 1000 (by norm_num) (by norm_num) (by norm_num)

theorem toLong_toULong_sub (x d : Int)
    (hlo : -(2 ^ 63) ≤ x - d) (hhi : x - d < 2 ^ 63) :
    toLong (x - toLong (toULong d)) = x - d := by
  unfold toLong toULong
  omega

theorem loopSplit_from_loopStart (ls le : Nat) (hl : ls < le) :
    ∀ (fuel r : Nat), r / (le - ls) ≤ fuel → ls + r < 2 ^ 64 →
      loopSplit ls le fuel ls (ls + r)
        = some (ls, ls + r % (le - ls),
            (List.replicate (r / (le - ls))
              [OutputCall.processMetro ls le, OutputCall.sessionProcess ls le,
               OutputCall.cursorSeek ls, OutputCall.restartLoop]).flatten) := by
  intro fuel
  induction fuel with
  | zero =>
    intro r hr hb
    have hr0 : r / (le - ls) = 0 := Nat.le_zero.1 hr
    have hlt : r < le - ls := (Nat.div_eq_zero_iff (by omega : 0 < le - ls)).1 hr0
    have hnot : ¬ (ls + r ≥ le) := by omega
    simp only [loopSplit, hnot, if_false, hr0, Nat.mod_eq_of_lt hlt,
      List.replicate_zero, List.flatten_nil]
  | succ fuel ih =>
    intro r hr hb
    by_cases hge : ls + r ≥ le
    · have hLr : le - ls ≤ r := by omega
      have hdiv : r / (le - ls) = (r - (le - ls)) / (le - ls) + 1 :=
        Nat.div_eq_sub_div (by omega) hLr
      have hmod : r % (le - ls) = (r - (le - ls)) % (le - ls) :=
        Nat.mod_eq_sub_mod hLr
      have hnext : (ls + (ls + r - le)) % 2 ^ 64 = ls + (r - (le - ls)) := by
        rw [Nat.mod_eq_of_lt (by omega)]
        omega
      have hrec := ih (r - (le - ls)) (by rw [hdiv] at hr; omega) (by omega)
      simp only [loopSplit, hge, if_true, hnext, hrec, hdiv, hmod,
        List.replicate_succ, List.flatten_cons]
    · have hlt : r < le - ls := by omega
      have hr0 : r / (le - ls) = 0 := Nat.div_eq_of_lt hlt
      simp only [loopSplit, hge, if_false, hr0, Nat.mod_eq_of_lt hlt,
        List.replicate_zero, List.flatten_nil]



theorem process_looping (fuel : Nat) (session : Session) (a m : SessionCursor)
    (readAhead driftCheck : Nat)
    (hloop : session.isLooping = true)
    (hl : session.loopStart < session.loopEnd)
    (hsync : ¬ (m.frameTime > (a.frameTime + readAhead) % 2 ^ 64))
    (hstart : m.frame < session.loopEnd)
    (hcross : session.loopEnd ≤ m.frame + readAhead)
    (hno : m.frame + readAhead < 2 ^ 64)
    (hfuel : readAhead < fuel) :
    process fuel session true (some a) (some m) readAhead driftCheck
      = some
        { midiCursor := some
            ⟨session.loopStart
              + (m.frame + readAhead - session.loopEnd)
                  % (session.loopEnd - session.loopStart),
             (m.frameTime + readAhead) % 2 ^ 64⟩
          driftCheck :=
            if (driftCheck + 1) % 2 ^ 32 > 8 then 0 else (driftCheck + 1) % 2 ^ 32
          calls :=
            wrapCalls session m.frame
              ++ (List.replicate
                    ((m.frame + readAhead - session.loopEnd)
                      / (session.loopEnd - session.loopStart))
                    (wrapCalls session session.loopStart)).flatten
              ++ [OutputCall.processMetro session.loopStart
                    (session.loopStart
                      + (m.frame + readAhead - session.loopEnd)
                          % (session.loopEnd - session.loopStart)),
                  OutputCall.sessionProcess session.loopStart
                    (session.loopStart
                      + (m.frame + readAhead - session.loopEnd)
                          % (session.loopEnd - session.loopStart)),
                  OutputCall.cursorSeek
                    (session.loopStart
                      + (m.frame + readAhead - session.loopEnd)
                          % (session.loopEnd - session.loopStart)),
                  OutputCall.cursorProcess readAhead,
                  OutputCall.flush]
              ++ (if (driftCheck + 1) % 2 ^ 32 > 8 then [OutputCall.drift] else []) } := by
  obtain ⟨f, rfl⟩ : ∃ f, fuel = f + 1 := ⟨fuel - 1, by omega⟩
  have hEnd : (m.frame + readAhead) % 2 ^ 64 = m.frame + readAhead :=
    Nat.mod_eq_of_lt hno
  have hnext : (session.loopStart + (m.frame + readAhead - session.loopEnd)) % 2 ^ 64
      = session.loopStart + (m.frame + readAhead - session.loopEnd) :=
    Nat.mod_eq_of_lt (by omega)
  have hdivle : (m.frame + readAhead - session.loopEnd)
      / (session.loopEnd - session.loopStart) ≤ f :=
    le_trans (Nat.div_le_self _ _) (by omega)
  have hrec := loopSplit_from_loopStart session.loopStart session.loopEnd hl f
    (m.frame + readAhead - session.loopEnd) hdivle (by omega)
  have hmodlt : (m.frame + readAhead - session.loopEnd)
      % (session.loopEnd - session.loopStart)
      < session.loopEnd - session.loopStart := Nat.mod_lt _ (by omega)
  have hfin : ¬ (session.loopStart
      + (m.frame + readAhead - session.loopEnd)
          % (session.loopEnd - session.loopStart) ≥ session.loopEnd) := by omega
  have hge : m.frame + readAhead ≥ session.loopEnd := hcross
  simp only [process, midiCursorSync, hsync, hloop, hstart, hEnd, loopSplit, hge,
    hnext, hrec, hl, hfin, wrapCalls, SessionCursor.seek, SessionCursor.process,
    Bool.not_true, Bool.false_eq_true, if_false, if_true, decide_True, decide_False,
    Bool.and_true, Bool.and_false, Bool.true_and, List.append_assoc,
    List.cons_append, List.nil_append]

theorem renderedFrames_append (xs ys : List OutputCall) :
    renderedFrames (xs ++ ys) = renderedFrames xs + renderedFrames ys := by
  induction xs with
  | nil => simp [renderedFrames]
  | cons c rest ih => cases c <;> simp [renderedFrames, ih, Nat.add_assoc]

theorem metroFrames_append (xs ys : List OutputCall) :
    metroFrames (xs ++ ys) = metroFrames xs + metroFrames ys := by
  induction xs with
  | nil => simp [metroFrames]
  | cons c rest ih => cases c <;> simp [metroFrames, ih, Nat.add_assoc]

theorem renderedFrames_replicate (k : Nat) (blk : List OutputCall) :
    renderedFrames (List.replicate k blk).flatten = k * renderedFrames blk := by
  induction k with
  | zero => simp [renderedFrames]
  | succ k ih =>
    rw [List.replicate_succ, List.flatten_cons, renderedFrames_append, ih]
    ring

theorem metroFrames_replicate (k : Nat) (blk : List OutputCall) :
    metroFrames (List.replicate k blk).flatten = k * metroFrames blk := by
  induction k with
  | zero => simp [metroFrames]
  | succ k ih =>
    rw [List.replicate_succ, List.flatten_cons, metroFrames_append, ih]
    ring

theorem count_restartLoop_replicate (k : Nat) (session : Session) (s : Nat) :
    (List.replicate k (wrapCalls session s)).flatten.count OutputCall.restartLoop = k := by
  induction k with
  | zero => simp
  | succ k ih =>
    rw [List.replicate_succ, List.flatten_cons, List.count_append, ih]
    simp [wrapCalls, List.count_cons]
    omega

theorem renderedFrames_wrapCalls (session : Session) (s : Nat) :
    renderedFrames (wrapCalls session s) = session.loopEnd - s := by
  simp [wrapCalls, renderedFrames]

theorem metroFrames_wrapCalls (session : Session) (s : Nat) :
    metroFrames (wrapCalls session s) = session.loopEnd - s := by
  simp [wrapCalls, metroFrames]

theorem renderedFrames_final (s e n : Nat) (c : Prop) [Decidable c] :
    renderedFrames
      ([OutputCall.processMetro s e, OutputCall.sessionProcess s e,
        OutputCall.cursorSeek e, OutputCall.cursorProcess n, OutputCall.flush]
        ++ (if c then [OutputCall.drift] else [])) = e - s := by
  split <;> simp [renderedFrames]

theorem metroFrames_final (s e n : Nat) (c : Prop) [Decidable c] :
    metroFrames
      ([OutputCall.processMetro s e, OutputCall.sessionProcess s e,
        OutputCall.cursorSeek e, OutputCall.cursorProcess n, OutputCall.flush]
        ++ (if c then [OutputCall.drift] else [])) = e - s := by
  split <;> simp [metroFrames]

/-- C3: in a looping session with `loopStart < loopEnd`, for a window
`[fStart, fStart + readAhead)` that starts before `loopEnd` and reaches it,
one output cycle returns, and the lengths of the windows it renders (the
pre-wrap pieces up to `loopEnd` and the final regular range) add up to
exactly `readAhead`; the same holds for the windows handed to the metronome,
and every rendered window is a forward range ending at or before `loopEnd`. -/
theorem C3_loop_wrap_preserves_window_length (fuel : Nat) (session : Session)
    (a m : SessionCursor) (readAhead driftCheck : Nat)
    (hloop : session.isLooping = true)
    (hl : session.loopStart < session.loopEnd)
    (hsync : ¬ (m.frameTime > (a.frameTime + readAhead) % 2 ^ 64))
    (hstart : m.frame < session.loopEnd)
    (hcross : session.loopEnd ≤ m.frame + readAhead)
    (hno : m.frame + readAhead < 2 ^ 64)
    (hfuel : readAhead < fuel) :
    ∃ res, process fuel session true (some a) (some m) readAhead driftCheck = some res
      ∧ renderedFrames res.calls = readAhead
      ∧ metroFrames res.calls = readAhead
      ∧ ∀ s e, OutputCall.sessionProcess s e ∈ res.calls →
          s ≤ e ∧ e ≤ session.loopEnd := by
  refine ⟨_, process_looping fuel session a m readAhead driftCheck hloop hl hsync
    hstart hcross hno hfuel, ?_, ?_, ?_⟩
  · have hdm := Nat.div_add_mod (m.frame + readAhead - session.loopEnd)
      (session.loopEnd - session.loopStart)
    rw [Nat.mul_comm] at hdm
    simp only [List.append_assoc]
    rw [renderedFrames_append, renderedFrames_append, renderedFrames_replicate,
      renderedFrames_wrapCalls, renderedFrames_wrapCalls, renderedFrames_final,
      Nat.add_sub_cancel_left]
    omega
  · have hdm := Nat.div_add_mod (m.frame + readAhead - session.loopEnd)
      (session.loopEnd - session.loopStart)
    rw [Nat.mul_comm] at hdm
    simp only [List.append_assoc]
    rw [metroFrames_append, metroFrames_append, metroFrames_replicate,
      metroFrames_wrapCalls, metroFrames_wrapCalls, metroFrames_final,
      Nat.add_sub_cancel_left]
    omega
  · intro s e hmem
    have hmodlt : (m.frame + readAhead - session.loopEnd)
        % (session.loopEnd - session.loopStart)
        < session.loopEnd - session.loopStart := Nat.mod_lt _ (by omega)
    simp only [List.mem_append, List.mem_flatten, List.mem_replicate, wrapCalls,
      List.mem_cons, List.mem_singleton, OutputCall.sessionProcess.injEq,
      List.mem_ite_nil_right, reduceCtorEq, false_or, or_false, false_and,
      and_false, List.not_mem_nil] at hmem
    rcases hmem with (⟨h1, h2⟩ | ⟨l, ⟨_, rfl⟩, hl2⟩) | ⟨h1, h2⟩
    · omega
    · simp only [List.mem_cons, List.mem_singleton, OutputCall.sessionProcess.injEq,
        reduceCtorEq, false_or, or_false, List.not_mem_nil] at hl2
      omega
    · omega

/-- Witness for C3: loop `[96000, 144000)`, read-ahead 60000, window starting
at frame 120000. -/
theorem C3_loop_wrap_preserves_window_length_witness :
    ∃ res, process 60001
        loopScenario
        true (some ⟨120000, 0⟩) (some ⟨120000, 0⟩) 60000 0 = some res
      ∧ renderedFrames res.calls = 60000
      ∧ metroFrames res.calls = 60000
      ∧ ∀ s e, OutputCall.sessionProcess s e ∈ res.calls → s ≤ e ∧ e ≤ 144000 :=
  C3_loop_wrap_preserves_window_length 60001
    loopScenario
    ⟨120000, 0⟩ ⟨120000, 0⟩ 60000 0 rfl (by decide) (by decide) (by decide)
    (by decide) (by decide) (by decide)

/-- C4: in a looping session with `loopStart < loopEnd`, a cycle whose window
starts before `loopEnd` and reaches it makes its calls in this order: one
wrap block from the window start, `k` further wrap blocks from `loopStart`,
then the regular range.  Each wrap block is metronome and clip rendering up
to `loopEnd`, the cursor reseat, and one `restartLoop`, so `restartLoop` is
called once per wrap, after the pre-wrap window is rendered and before the
next window is.  With loop `[96000, 144000)`, read-ahead 60000 and a window
starting at frame 120000 the cycle renders `[120000, 144000)`, calls
`restartLoop` once, then renders `[96000, 132000)`. -/
theorem C4_loop_wrap_restartLoop_once (fuel : Nat) (session : Session)
    (a m : SessionCursor) (readAhead driftCheck : Nat)
    (hloop : session.isLooping = true)
    (hl : session.loopStart < session.loopEnd)
    (hsync : ¬ (m.frameTime > (a.frameTime + readAhead) % 2 ^ 64))
    (hstart : m.frame < session.loopEnd)
    (hcross : session.loopEnd ≤ m.frame + readAhead)
    (hno : m.frame + readAhead < 2 ^ 64)
    (hfuel : readAhead < fuel) :
    (∃ res k fEnd,
      process fuel session true (some a) (some m) readAhead driftCheck = some res
      ∧ res.calls
          = wrapCalls session m.frame
            ++ (List.replicate k (wrapCalls session session.loopStart)).flatten
            ++ [OutputCall.processMetro session.loopStart fEnd,
                OutputCall.sessionProcess session.loopStart fEnd,
                OutputCall.cursorSeek fEnd,
                OutputCall.cursorProcess readAhead,
                OutputCall.flush]
            ++ (if (driftCheck + 1) % 2 ^ 32 > 8 then [OutputCall.drift] else [])
      ∧ fEnd < session.loopEnd
      ∧ res.calls.count OutputCall.restartLoop = k + 1)
    ∧ ∀ f, 60000 < f →
        (process f
          loopScenario
          true (some ⟨120000, 0⟩) (some ⟨120000, 0⟩) 60000 0).map
            ProcessResult.calls
          = some
            [OutputCall.processMetro 120000 144000,
             OutputCall.sessionProcess 120000 144000,
             OutputCall.cursorSeek 96000,
             OutputCall.restartLoop,
             OutputCall.processMetro 96000 132000,
             OutputCall.sessionProcess 96000 132000,
             OutputCall.cursorSeek 132000,
             OutputCall.cursorProcess 60000,
             OutputCall.flush] := by
  constructor
  · refine ⟨_, _, _, process_looping fuel session a m readAhead driftCheck hloop hl
      hsync hstart hcross hno hfuel, rfl, ?_, ?_⟩
    · have hmodlt : (m.frame + readAhead - session.loopEnd)
          % (session.loopEnd - session.loopStart)
          < session.loopEnd - session.loopStart := Nat.mod_lt _ (by omega)
      omega
    · simp only [List.count_append, count_restartLoop_replicate]
      split <;> simp [wrapCalls, List.count_cons] <;> omega
  · intro f hf
    rw [process_looping f loopScenario ⟨120000, 0⟩ ⟨120000, 0⟩ 60000 0 rfl
      (by decide) (by decide) (by decide) (by decide) (by decide) hf]
    decide

/-- Witness for C4: the scenario loop `[96000, 144000)`, read-ahead 60000,
window starting at frame 120000. -/
theorem C4_loop_wrap_restartLoop_once_witness :
    ∃ res k fEnd,
      process 60001
        loopScenario
        true (some ⟨120000, 0⟩) (some ⟨120000, 0⟩) 60000 0 = some res
      ∧ res.calls
          = wrapCalls loopScenario 120000
            ++ (List.replicate k
                (wrapCalls loopScenario 96000)).flatten
            ++ [OutputCall.processMetro 96000 fEnd,
                OutputCall.sessionProcess 96000 fEnd,
                OutputCall.cursorSeek fEnd,
                OutputCall.cursorProcess 60000,
                OutputCall.flush]
            ++ (if (0 + 1) % 2 ^ 32 > 8 then [OutputCall.drift] else [])
      ∧ fEnd < 144000
      ∧ res.calls.count OutputCall.restartLoop = k + 1 :=
  (C4_loop_wrap_restartLoop_once 60001
    loopScenario
    ⟨120000, 0⟩ ⟨120000, 0⟩ 60000 0 rfl (by decide) (by decide) (by decide)
    (by decide) (by decide) (by decide)).1

/-- C5: `restartLoop` on a looping session decreases `timeStart` by exactly
`tickFromFrame loopEnd - tickFromFrame loopStart` (whenever the new value is
a `long`) and sets `timeDrift` to 0; on a session that is not looping, and
without a session, it leaves `timeStart` and `timeDrift` unchanged. -/
theorem C5_restartLoop_rewinds_timeStart (s : Session) (e : EngineClock)
    (hrange : s.isLooping = true →
      -(2 ^ 63) ≤ e.timeStart
          - ((s.tickFromFrame s.loopEnd : Int) - (s.tickFromFrame s.loopStart : Int))
      ∧ e.timeStart
          - ((s.tickFromFrame s.loopEnd : Int) - (s.tickFromFrame s.loopStart : Int))
        < 2 ^ 63) :
    restartLoop (some s) e
        = (if s.isLooping then
            { timeStart := e.timeStart
                - ((s.tickFromFrame s.loopEnd : Int)
                    - (s.tickFromFrame s.loopStart : Int))
              timeDrift := 0 }
          else e)
      ∧ restartLoop none e = e := by
  refine ⟨?_, rfl⟩
  unfold restartLoop
  by_cases h : s.isLooping = true
  · obtain ⟨h1, h2⟩ := hrange h
    simp only [h, if_true]
    rw [toLong_toULong_sub _ _ h1 h2]
  · simp only [h, if_false]
    simp

/-- Witness for C5: a one-bar loop at 960 ticks per beat, 120 bpm, 48 kHz. -/
theorem C5_restartLoop_rewinds_timeStart_witness :
    restartLoop
        (some { isLooping := true, loopStart := 96000, loopEnd := 144000,
                tickFromFrame := fun f => f * 960 * 120 / (60 * 48000) })
        ⟨100, 7⟩
      = ⟨-1820, 0⟩ := by
  have h := (C5_restartLoop_rewinds_timeStart
    { isLooping := true, loopStart := 96000, loopEnd := 144000,
      tickFromFrame := fun f => f * 960 * 120 / (60 * 48000) }
    ⟨100, 7⟩ (by intro _; norm_num)).1
  rw [h]
  decide

theorem mmcLocateData_eq (n : Nat) (hn : n < 3600 * 30 * 128) :
    mmcLocateData n
      = [0x01, n / 108000, n % 108000 / 1800, n % 1800 / 30, n % 30, 0x00] := by
  have e1 : toUChar (n / (3600 * 30)) = n / 108000 := by
    unfold toUChar; omega
  have e2 : toULong ((n : Int) - (3600 * 30) * ((n / 108000 : Nat) : Int))
      = n % 108000 := by
    unfold toULong; omega
  have e3 : toUChar (n % 108000 / (60 * 30)) = n % 108000 / 1800 := by
    unfold toUChar; omega
  have e4 : toULong (((n % 108000 : Nat) : Int)
      - (60 * 30) * ((n % 108000 / 1800 : Nat) : Int)) = n % 1800 := by
    unfold toULong; omega
  have e5 : toUChar (n % 1800 / 30) = n % 1800 / 30 := by
    unfold toUChar; omega
  have e6 : toULong (((n % 1800 : Nat) : Int) - 30 * ((n % 1800 / 30 : Nat) : Int))
      = n % 30 := by
    unfold toULong; omega
  have e7 : toUChar (n % 30) = n % 30 := by
    unfold toUChar; omega
  simp only [mmcLocateData, e1, e2, e3, e4, e5, e6, e7]

/-- C6: for every frame count `n` in `[0, 3600 * 30 * 128)`, `sendMmcLocate n`
hands `sendMmcCommand` the LOCATE command with 6 data bytes `[0x01, h, m, s,
f, 0x00]` where `h < 128`, `m < 60`, `s < 60`, `f < 30` and
`h * 108000 + m * 1800 + s * 30 + f = n`; for `n = 27000` the data is
`[0x01, 0x00, 0x0F, 0x00, 0x00, 0x00]`. -/
theorem C6_sendMmcLocate_timecode (eng : MmcControl) (LOCATE n : Nat)
    (hn : n < 3600 * 30 * 128) :
    (∃ h m s f,
      sendMmcLocate eng LOCATE n
        = sendMmcCommand eng LOCATE (some [0x01, h, m, s, f, 0x00]) 6
      ∧ mmcLocateData n = [0x01, h, m, s, f, 0x00]
      ∧ h < 128 ∧ m < 60 ∧ s < 60 ∧ f < 30
      ∧ h * 108000 + m * 1800 + s * 30 + f = n)
    ∧ sendMmcLocate eng LOCATE 27000
        = sendMmcCommand eng LOCATE (some [0x01, 0x00, 0x0F, 0x00, 0x00, 0x00]) 6 := by
  constructor
  · refine ⟨n / 108000, n % 108000 / 1800, n % 1800 / 30, n % 30, ?_,
      mmcLocateData_eq n hn, ?_, ?_, ?_, ?_, ?_⟩
    · unfold sendMmcLocate
      rw [mmcLocateData_eq n hn]
    all_goals omega
  · unfold sendMmcLocate
    rw [mmcLocateData_eq 27000 (by norm_num)]

/-- Witness for C6: the last frame of the range, 127:59:59:29. -/
theorem C6_sendMmcLocate_timecode_witness :
    ∃ h m s f,
      sendMmcLocate ⟨BusMode.Output, 0x7f, some ⟨0, false, false⟩⟩ 0x44 13823999
        = sendMmcCommand ⟨BusMode.Output, 0x7f, some ⟨0, false, false⟩⟩ 0x44
            (some [0x01, h, m, s, f, 0x00]) 6
      ∧ mmcLocateData 13823999 = [0x01, h, m, s, f, 0x00]
      ∧ h < 128 ∧ m < 60 ∧ s < 60 ∧ f < 30
      ∧ h * 108000 + m * 1800 + s * 30 + f = 13823999 :=
  (C6_sendMmcLocate_timecode ⟨BusMode.Output, 0x7f, some ⟨0, false, false⟩⟩ 0x44
    13823999 (by norm_num)).1

/-- C7: with MMC output enabled and a control-output bus, `sendMmcCommand` for
a command byte `cmd` and a data block of `n ≤ 255` bytes hands the bus
exactly `F0 7F <mmcDevice> 06 <cmd>`, then (only when `n > 0`) the length
byte `n` and the `n` data bytes, then `F7`; the number of bytes written
equals the allocated size `6 + (n > 0 ? n + 1 : 0)`.  Without a data pointer
the message has no data part.  With MMC output disabled, or without a
control-output bus, nothing is sent. -/
theorem C7_sendMmcCommand_message (eng : MmcControl) (bus : MidiBusOut)
    (cmd : Nat) (data : List Nat)
    (hmode : eng.mmcMode.hasOutput = true)
    (hbus : eng.oControlBus = some bus)
    (hcmd : cmd < 256)
    (hlen : data.length ≤ 255) :
    sendMmcCommand eng cmd (some data) data.length
        = some
          { bus := bus
            allocated := 6 + (if data.length > 0 then data.length + 1 else 0)
            pSysex := [0xf0, 0x7f, eng.mmcDevice, 0x06, cmd]
              ++ (if data.length > 0 then data.length :: data else [])
              ++ [0xf7]
            iSysex := 6 + (if data.length > 0 then data.length + 1 else 0) }
      ∧ ([0xf0, 0x7f, eng.mmcDevice, 0x06, cmd]
              ++ (if data.length > 0 then data.length :: data else [])
              ++ [0xf7]).length
          = 6 + (if data.length > 0 then data.length + 1 else 0)
      ∧ sendMmcCommand eng cmd none 0
          = some
            { bus := bus, allocated := 6
              pSysex := [0xf0, 0x7f, eng.mmcDevice, 0x06, cmd, 0xf7], iSysex := 6 }
      ∧ ∀ (off : MmcControl) (c : Nat) (d : Option (List Nat)) (k : Nat),
          off.mmcMode.hasOutput = false ∨ off.oControlBus = none →
            sendMmcCommand off c d k = none := by
  have hc : toUChar cmd = cmd := Nat.mod_eq_of_lt hcmd
  refine ⟨?_, ?_, ?_, ?_⟩
  · by_cases h0 : data.length > 0
    · have h1 : toUShort (6 + (1 + data.length)) = 6 + (data.length + 1) := by
        unfold toUShort; omega
      have h2 : toUChar data.length = data.length := by
        unfold toUChar; omega
      have h3 : toUShort (data.length + 1 + 1 + 5) = 6 + (data.length + 1) := by
        unfold toUShort; omega
      simp [sendMmcCommand, hmode, hbus, hc, h0, h1, h2, h3]
    · have hnil : data = [] := by
        cases data with
        | nil => rfl
        | cons x xs => simp at h0
      subst hnil
      simp [sendMmcCommand, hmode, hbus, hc, toUShort]
  · by_cases h0 : data.length > 0
    · simp [h0]; omega
    · simp [h0]
  · simp [sendMmcCommand, hmode, hbus, hc, toUShort]
  · intro off c d k h
    rcases h with h | h
    · simp [sendMmcCommand, h]
    · by_cases hm : off.mmcMode.hasOutput = true
      · simp [sendMmcCommand, hm, h]
      · simp [sendMmcCommand, hm]

/-- Witness for C7: MMC LOCATE to 00:15:00:00 on device `0x7f`. -/
theorem C7_sendMmcCommand_message_witness :
    sendMmcCommand ⟨BusMode.Duplex, 0x7f, some ⟨3, false, false⟩⟩ 0x44
        (some [0x01, 0x00, 0x0f, 0x00, 0x00, 0x00]) 6
      = some
        { bus := ⟨3, false, false⟩, allocated := 13
          pSysex := [0xf0, 0x7f, 0x7f, 0x06, 0x44, 0x06,
                     0x01, 0x00, 0x0f, 0x00, 0x00, 0x00, 0xf7]
          iSysex := 13 } :=
  (C7_sendMmcCommand_message ⟨BusMode.Duplex, 0x7f, some ⟨3, false, false⟩⟩
    ⟨3, false, false⟩ 0x44 [0x01, 0x00, 0x0f, 0x00, 0x00, 0x00] rfl rfl
    (by norm_num) (by decide)).1

theorem intToUChar_natCast (x : Nat) (h : x < 256) : intToUChar (x : Int) = x := by
  unfold intToUChar
  omega

theorem specBitMask_eq_pow (t : Nat) :
    ∃ k, k ≤ 6 ∧ specBitMask t = 2 ^ k := by
  unfold specBitMask
  by_cases h : t < 2
  · exact ⟨t + 5, by omega, by simp [h, Nat.one_shiftLeft]⟩
  · exact ⟨(t - 2) % 7, by omega, by simp [h, Nat.one_shiftLeft]⟩

theorem specBitMask_lt (t : Nat) : specBitMask t < 0x80 := by
  obtain ⟨k, hk, he⟩ := specBitMask_eq_pow t
  rw [he]
  calc 2 ^ k ≤ 2 ^ 6 := Nat.pow_le_pow_right (by norm_num) hk
    _ < 0x80 := by norm_num

theorem spec_group_mask_injective (t u : Nat)
    (hg : specGroupIndex t = specGroupIndex u)
    (hm : specBitMask t = specBitMask u) : t = u := by
  unfold specGroupIndex at hg
  unfold specBitMask at hm
  rw [Nat.one_shiftLeft, Nat.one_shiftLeft] at hm
  have hk := Nat.pow_right_injective (le_refl 2) hm
  by_cases ht : t < 2 <;> by_cases hu : u < 2 <;>
    simp only [ht, hu, if_true, if_false] at hg hk <;> omega

theorem shiftLeftOne_natCast (k : Nat) (hk : k < 31) :
    shiftLeftOne (k : Int) = some (((1 <<< k : Nat)) : Int) := by
  unfold shiftLeftOne
  rw [if_pos ⟨by omega, by omega⟩, Int.toNat_ofNat]

theorem mmcMaskedWriteData_eq (scmd t : Nat) (bOn : Bool)
    (hs : scmd < 256) (ht : t < 1787) :
    mmcMaskedWriteData scmd (t : Int) bOn
      = some [scmd, specGroupIndex t, specBitMask t,
          if bOn then specBitMask t else 0] := by
  have hmask : specBitMask t < 256 := lt_trans (specBitMask_lt t) (by norm_num)
  have hsc : toUChar scmd = scmd := Nat.mod_eq_of_lt hs
  have hz : intToUChar 0 = 0 := by decide
  have hzc : intToUChar ((0 : Nat) : Int) = 0 := by decide
  unfold mmcMaskedWriteData
  by_cases h2 : t < 2
  · have hi : (t : Int) < 2 := by omega
    have hadd : (t : Int) + 5 = ((t + 5 : Nat) : Int) := by omega
    have hsh : shiftLeftOne (((t + 5 : Nat)) : Int)
        = some ((specBitMask t : Nat) : Int) := by
      rw [shiftLeftOne_natCast _ (by omega)]
      unfold specBitMask
      rw [if_pos h2]
    have hg : specGroupIndex t = 0 := by
      unfold specGroupIndex
      rw [if_pos h2]
    rw [if_pos hi, if_pos hi, hadd, hsh, hg]
    cases bOn
    · simp only [hsc, hz, intToUChar_natCast _ hmask, Bool.false_eq_true, if_false]
    · simp only [hsc, hz, intToUChar_natCast _ hmask, if_true]
  · have hi : ¬ ((t : Int) < 2) := by omega
    have hsub : (t : Int) - 2 = ((t - 2 : Nat) : Int) := by omega
    have hmod : ((t : Int) - 2).tmod 7 = (((t - 2) % 7 : Nat) : Int) := by
      rw [hsub, Int.ofNat_tmod]
      rfl
    have hdiv : 1 + ((t : Int) - 2).tdiv 7 = ((1 + (t - 2) / 7 : Nat) : Int) := by
      rw [hsub, Nat.cast_add, Int.ofNat_tdiv]
      rfl
    have hsh : shiftLeftOne ((((t - 2) % 7 : Nat)) : Int)
        = some ((specBitMask t : Nat) : Int) := by
      rw [shiftLeftOne_natCast _ (by omega)]
      unfold specBitMask
      rw [if_neg h2]
    have hgl : 1 + (t - 2) / 7 < 256 := by omega
    have hg : specGroupIndex t = 1 + (t - 2) / 7 := by
      unfold specGroupIndex
      rw [if_neg h2]
    rw [if_neg hi, if_neg hi, hmod, hdiv, hsh, hg]
    cases bOn
    · simp only [hsc, hz, intToUChar_natCast _ hmask, intToUChar_natCast _ hgl,
        Bool.false_eq_true, if_false]
    · simp only [hsc, hz, intToUChar_natCast _ hmask, intToUChar_natCast _ hgl,
        if_true]

/-- C8, as stated, fails: for track 1787 the group index `1 + (1787 - 2) / 7`
is 256, the group byte written is 0, and tracks 1787 and 3579 are sent the
same masked-write message. -/
theorem C8_maskedWrite_counterexample :
    specGroupIndex 1787 = 256
    ∧ mmcMaskedWriteData 0x4f 1787 true = some [0x4f, 0, 1, 1]
    ∧ mmcMaskedWriteData 0x4f 1787 true
        ≠ some [0x4f, specGroupIndex 1787, specBitMask 1787, specBitMask 1787]
    ∧ (1787 : Int) ≠ 3579
    ∧ sendMmcMaskedWrite ⟨BusMode.Output, 0x7f, some ⟨0, false, false⟩⟩ 0x41 0x4f
          1787 true
        = sendMmcMaskedWrite ⟨BusMode.Output, 0x7f, some ⟨0, false, false⟩⟩ 0x41 0x4f
          3579 true := by
  decide

/-- C8, amended: for every track index `0 ≤ t < 1787` (the tracks whose group
index fits the data byte), sub-command byte `scmd` and flag `on`,
`sendMmcMaskedWrite` emits the MASKED_WRITE data `[scmd, g, mask, on ? mask :
0]` with `g = (t < 2 ? 0 : 1 + (t - 2) / 7)` and
`mask = 1 << (t < 2 ? t + 5 : (t - 2) mod 7)`; the mask is a single bit below
`0x80`, distinct tracks yield distinct `(g, mask)` pairs, and distinct tracks
below 1787 are sent distinct data. -/
theorem C8_maskedWrite_layout (eng : MmcControl) (MASKED_WRITE scmd t : Nat)
    (bOn : Bool) (hs : scmd < 256) (ht : t < 1787) :
    sendMmcMaskedWrite eng MASKED_WRITE scmd (t : Int) bOn
        = some (sendMmcCommand eng MASKED_WRITE
            (some [scmd, specGroupIndex t, specBitMask t,
              if bOn then specBitMask t else 0]) 4)
      ∧ (∃ k, k ≤ 6 ∧ specBitMask t = 2 ^ k)
      ∧ specBitMask t < 0x80
      ∧ (∀ u : Nat, u ≠ t →
          (specGroupIndex u, specBitMask u) ≠ (specGroupIndex t, specBitMask t))
      ∧ ∀ u : Nat, u < 1787 → u ≠ t →
          mmcMaskedWriteData scmd (u : Int) bOn ≠ mmcMaskedWriteData scmd (t : Int) bOn := by
  refine ⟨?_, specBitMask_eq_pow t, specBitMask_lt t, ?_, ?_⟩
  · simp only [sendMmcMaskedWrite, mmcMaskedWriteData_eq scmd t bOn hs ht]
  · intro u hu heq
    have h1 := congrArg Prod.fst heq
    have h2 := congrArg Prod.snd heq
    exact hu (spec_group_mask_injective u t h1 h2)
  · intro u hlt hu heq
    rw [mmcMaskedWriteData_eq scmd u bOn hs hlt,
      mmcMaskedWriteData_eq scmd t bOn hs ht] at heq
    have hl := Option.some.inj heq
    have h1 : specGroupIndex u = specGroupIndex t := by
      have := congrArg (fun l => l.getD 1 0) hl
      simpa using this
    have h2 : specBitMask u = specBitMask t := by
      have := congrArg (fun l => l.getD 2 0) hl
      simpa using this
    exact hu (spec_group_mask_injective u t h1 h2)

/-- Witness for C8: record-arming track 9, bit 0 of group 2. -/
theorem C8_maskedWrite_layout_witness :
    sendMmcMaskedWrite ⟨BusMode.Output, 0x7f, some ⟨0, false, false⟩⟩ 0x41 0x4f
        ((9 : Nat) : Int) true
      = some (sendMmcCommand ⟨BusMode.Output, 0x7f, some ⟨0, false, false⟩⟩ 0x41
          (some [0x4f, specGroupIndex 9, specBitMask 9,
            if true then specBitMask 9 else 0]) 4) :=
  (C8_maskedWrite_layout ⟨BusMode.Output, 0x7f, some ⟨0, false, false⟩⟩ 0x41 0x4f 9
    true (by norm_num) (by norm_num)).1

theorem scalarLoop_id {α : Type} (step : Nat → (Nat → α) → α) (hstep : ∀ p o, step p o = o p) :
    ∀ (n p : Nat) (o : Nat → α), scalarLoop step p n o = o := by
  intro n
  induction n with
  | zero => intro p o; rfl
  | succ n ih =>
    intro p o
    rw [scalarLoop, hstep, Function.update_eq_self, ih]

theorem alignLoop_id {α : Type} (step : Nat → (Nat → α) → α) (hstep : ∀ p o, step p o = o p)
    (addr : Nat) :
    ∀ (n p : Nat) (o : Nat → α), (alignLoop step addr p n o).2.2 = o := by
  intro n
  induction n with
  | zero => intro p o; rfl
  | succ n ih =>
    intro p o
    rw [alignLoop]
    split
    · rw [hstep, Function.update_eq_self, ih]
    · rfl

theorem vectorLoop_id {α : Type} (lane : Nat → (Nat → α) → α) (hlane : ∀ k o, lane k o = o k) :
    ∀ (n p : Nat) (o : Nat → α), (vectorLoop lane p n o).2.2 = o := by
  intro n
  induction n using Nat.strong_induction_on with
  | _ n ih =>
    intro p o
    match n with
    | 0 => rfl
    | 1 => rfl
    | 2 => rfl
    | 3 => rfl
    | m + 4 =>
      rw [vectorLoop]
      have hsame : (fun k => if p ≤ k ∧ k < p + 4 then lane k o else o k) = o := by
        funext k
        split
        · exact hlane k o
        · rfl
      rw [hsame]
      exact ih m (by omega) (p + 4) o

theorem sseLoops_id {α : Type} (step lane : Nat → (Nat → α) → α)
    (hstep : ∀ p o, step p o = o p) (hlane : ∀ k o, lane k o = o k)
    (addr nframes : Nat) (o : Nat → α) :
    sseLoops step lane addr nframes o = o := by
  unfold sseLoops
  simp only []
  rw [scalarLoop_id step hstep, vectorLoop_id lane hlane, alignLoop_id step hstep]

theorem std_process_send_gain_one {α : Type} [LinearOrderedField α]
    (ppFrames : Nat → Nat → α) (iFrames iChannels : Nat) :
    std_process_send_gain ppFrames iFrames iChannels 1 = ppFrames := by
  funext i
  unfold std_process_send_gain
  split
  · rw [scalarLoop_id _ (fun p o => mul_one (o p))]
  · rfl

theorem sse_process_send_gain_one {α : Type} [LinearOrderedField α]
    (ppFrames : Nat → Nat → α) (addr : Nat → Nat)
    (iFrames iChannels : Nat) :
    sse_process_send_gain ppFrames addr iFrames iChannels 1 = ppFrames := by
  funext i
  unfold sse_process_send_gain
  split
  · rw [sseLoops_id _ _ (fun p o => mul_one (o p)) (fun k o => mul_one (o k))]
  · rfl

theorem process_unity_send_zero_dry {α : Type} [LinearOrderedField α]
    (pl : InsertPlugin α) (bus : AudioBus α)
    (ppIBuffer ppOBuffer : Nat → Nat → α) (oAddr : Nat → Nat) (nframes : Nat)
    (hbus : pl.audioBus = some bus)
    (hgain : pl.sendGain = 1)
    (hdry : pl.dryWet = 0) :
    pl.process ppIBuffer ppOBuffer oAddr nframes
      = (some
          { bus with
            out := fun i =>
              if i < pl.channels then memcpy (bus.out i) (ppIBuffer i) nframes
              else bus.out i },
         fun i =>
          if i < pl.channels then memcpy (ppOBuffer i) (bus.in_ i) nframes
          else ppOBuffer i) := by
  have hthr : ¬ ((0 : α) > 1 / 1000) := by norm_num
  simp only [InsertPlugin.process, hbus, hgain, hdry, hthr, if_false,
    std_process_send_gain_one, sse_process_send_gain_one, ite_self]

/-- C9: with `SendGain = 1` and `DryWet = 0`, for every channel count, frame
count, input and return buffers, alignment and processor selection, `process`
on a plugin that has its bus leaves each output frame equal to the bus
return frame and each bus send frame equal to the input frame. -/
theorem C9_insert_unity_send_zero_dry {α : Type} [LinearOrderedField α]
    (pl : InsertPlugin α) (bus : AudioBus α)
    (ppIBuffer ppOBuffer : Nat → Nat → α) (oAddr : Nat → Nat) (nframes : Nat)
    (hbus : pl.audioBus = some bus)
    (hgain : pl.sendGain = 1)
    (hdry : pl.dryWet = 0) :
    ∃ after,
      (pl.process ppIBuffer ppOBuffer oAddr nframes).1 = some after
      ∧ after.in_ = bus.in_
      ∧ ∀ c, c < pl.channels → ∀ n, n < nframes →
          (pl.process ppIBuffer ppOBuffer oAddr nframes).2 c n = bus.in_ c n
          ∧ after.out c n = ppIBuffer c n := by
  rw [process_unity_send_zero_dry pl bus ppIBuffer ppOBuffer oAddr nframes
    hbus hgain hdry]
  refine ⟨_, rfl, rfl, ?_⟩
  intro c hc n hn
  simp only [memcpy, hc, hn, if_true, and_self]

/-- Witness for C9: a stereo insert on rational samples with the SSE
processors, seven frames, unaligned buffers. -/
theorem C9_insert_unity_send_zero_dry_witness :
    ∃ after,
      ((⟨some rampBus, 2, 1, 0, true⟩ : InsertPlugin ℚ).process
        rampInput (fun _ _ => 7) (fun _ => 8) 7).1 = some after
      ∧ after.in_ = rampBus.in_
      ∧ ∀ c, c < 2 → ∀ n, n < 7 →
          ((⟨some rampBus, 2, 1, 0, true⟩ : InsertPlugin ℚ).process
            rampInput (fun _ _ => 7) (fun _ => 8) 7).2 c n = rampBus.in_ c n
          ∧ after.out c n = rampInput c n :=
  C9_insert_unity_send_zero_dry (⟨some rampBus, 2, 1, 0, true⟩ : InsertPlugin ℚ)
    rampBus rampInput (fun _ _ => 7) (fun _ => 8) 7 rfl rfl rfl

theorem scalarLoop_apply {α : Type} (g : Nat → α → α) :
    ∀ (n p : Nat) (o : Nat → α) (k : Nat),
      scalarLoop (fun q b => g q (b q)) p n o k
        = if p ≤ k ∧ k < p + n then g k (o k) else o k := by
  intro n
  induction n with
  | zero =>
    intro p o k
    have h : ¬ (p ≤ k ∧ k < p + 0) := by omega
    rw [if_neg h]
    rfl
  | succ n ih =>
    intro p o k
    rw [scalarLoop, ih]
    by_cases hk : k = p
    · subst hk
      have h1 : ¬ (k + 1 ≤ k ∧ k < k + 1 + n) := by omega
      have h2 : k ≤ k ∧ k < k + (n + 1) := by omega
      rw [if_neg h1, if_pos h2, Function.update_same]
    · by_cases hr : p + 1 ≤ k ∧ k < p + 1 + n
      · have h2 : p ≤ k ∧ k < p + (n + 1) := by omega
        rw [if_pos hr, if_pos h2, Function.update_noteq hk]
      · have h2 : ¬ (p ≤ k ∧ k < p + (n + 1)) := by omega
        rw [if_neg hr, if_neg h2, Function.update_noteq hk]

theorem std_process_dry_wet_apply {α : Type} [LinearOrderedField α]
    (ppIFrames ppOFrames : Nat → Nat → α) (iFrames iChannels : Nat) (fGain : α)
    (c k : Nat) (hc : c < iChannels) (hk : k < iFrames) :
    std_process_dry_wet ppIFrames ppOFrames iFrames iChannels fGain c k
      = ppOFrames c k + fGain * ppIFrames c k := by
  unfold std_process_dry_wet
  rw [if_pos hc, scalarLoop_apply (fun q x => x + fGain * ppIFrames c q)]
  rw [if_pos ⟨Nat.zero_le k, by omega⟩]

theorem process_std_dry_wet_adds {α : Type} [LinearOrderedField α]
    (pl : InsertPlugin α) (bus : AudioBus α)
    (ppIBuffer ppOBuffer : Nat → Nat → α) (oAddr : Nat → Nat) (nframes : Nat)
    (hbus : pl.audioBus = some bus) (hstd : pl.sse = false) (hdry : pl.dryWet = 1)
    (c k : Nat) (hc : c < pl.channels) (hk : k < nframes) :
    (pl.process ppIBuffer ppOBuffer oAddr nframes).2 c k
      = ppIBuffer c k + bus.in_ c k := by
  have hthr : (1 : α) > 1 / 1000 := by norm_num
  simp only [InsertPlugin.process, hbus, hstd, hdry, hthr, if_true,
    Bool.false_eq_true, if_false]
  rw [std_process_dry_wet_apply _ _ _ _ _ c k hc hk]
  simp only [hc, if_true, memcpy, hk, one_mul]
  exact add_comm _ _

/-- C10 fails on the SSE dry/wet processor.  With `SendGain = 0`,
`DryWet = 1`, one channel, input samples 1 and return samples 1: for one
frame in a 16-byte aligned output buffer `process` leaves the output frame
at 1 (the input alone) where `in + return` is 2; for eight frames in a
buffer at an address that is 8 modulo 16, frames 0, 1, 6 and 7 are left at 1
and only frames 2 to 5 hold 2.  The scalar processor gives 2 on the same
buffers. -/
theorem C10_sse_dry_wet_overwrites_return :
    ((⟨some ⟨fun _ _ => 0, fun _ => 0, fun _ _ => 1⟩, 1, 0, 1, true⟩ :
        InsertPlugin ℚ).process
      (fun _ _ => 1) (fun _ _ => 0) (fun _ => 0) 1).2 0 0 = 1
    ∧ (List.range 8).map
        (((⟨some ⟨fun _ _ => 0, fun _ => 0, fun _ _ => 1⟩, 1, 0, 1, true⟩ :
          InsertPlugin ℚ).process
        (fun _ _ => 1) (fun _ _ => 0) (fun _ => 8) 8).2 0)
        = [1, 1, 2, 2, 2, 2, 1, 1]
    ∧ ((⟨some ⟨fun _ _ => 0, fun _ => 0, fun _ _ => 1⟩, 1, 0, 1, false⟩ :
        InsertPlugin ℚ).process
      (fun _ _ => 1) (fun _ _ => 0) (fun _ => 0) 1).2 0 0 = 2
    ∧ ((1 : ℚ) + 1 ≠ 1) := by
  have hthr : (1 : ℚ) > 1 / 1000 := by norm_num
  refine ⟨?_, ?_, ?_, by norm_num⟩
  · simp only [InsertPlugin.process, hthr, if_true]
    unfold sse_process_dry_wet
    simp [sseLoops, alignLoop, vectorLoop, scalarLoop, memcpy]
  · simp only [InsertPlugin.process, hthr, if_true]
    unfold sse_process_dry_wet
    have h16 : 16 &&& 15 = 0 := by decide
    simp [sseLoops, alignLoop, vectorLoop, scalarLoop, memcpy, List.range,
      List.range.loop, Function.update, h16]
    norm_num
  · rw [process_std_dry_wet_adds _ ⟨fun _ _ => 0, fun _ => 0, fun _ _ => 1⟩ _ _ _ _
      rfl rfl rfl 0 0 (by decide) (by decide)]
    norm_num

theorem beatNote_getD (eng : MetroEngine) (node : TimeScaleNode)
    (iTimeStart iBeat iTime : Nat)
    (hbus : eng.metronome = true → ∃ bus, eng.metroBus = some bus) :
    beatNote eng node iTimeStart iBeat iTime
      = some ((beatNote eng node iTimeStart iBeat iTime).getD []) := by
  unfold beatNote
  by_cases hm : eng.metronome = true
  · obtain ⟨bus, hb⟩ := hbus hm
    by_cases ht : iTime ≥ iTimeStart
    · simp [hm, ht, hb]
    · simp [hm, ht]
  · simp [hm]

theorem metroLoop_segment (eng : MetroEngine) (cursor : MetroCursor)
    (node : TimeScaleNode) (beat0 beatsPerBar : Nat)
    (hseg : SingleSegment cursor node beat0 beatsPerBar) (tS tE : Nat)
    (hbus : eng.metronome = true → ∃ bus, eng.metroBus = some bus) :
    ∀ (n fuel j : Nat),
      (∀ k, k < n → node.tick + (j + k) * node.ticksPerBeat < tE) →
      tE ≤ node.tick + (j + n) * node.ticksPerBeat →
      n ≤ fuel →
      node.tick + (j + n) * node.ticksPerBeat < 2 ^ 64 →
      beat0 + j + n < 2 ^ 32 →
      metroLoop eng cursor tS tE fuel node (beat0 + j)
          (node.tick + j * node.ticksPerBeat)
        = Outcome.ok ((List.range' j n).flatMap (fun k =>
            beatClocks eng node tS tE (node.tick + k * node.ticksPerBeat)
              ++ (beatNote eng node tS (beat0 + k)
                    (node.tick + k * node.ticksPerBeat)).getD [])) := by
  intro n
  induction n with
  | zero =>
    intro fuel j _ hE _ _ _
    have hnot : ¬ (node.tick + j * node.ticksPerBeat < tE) := by
      simp only [Nat.add_zero] at hE
      omega
    cases fuel <;> simp [metroLoop, hnot]
  | succ n ih =>
    intro fuel j hlt hE hfuel hov hbeat
    obtain ⟨f, rfl⟩ : ∃ f, fuel = f + 1 := ⟨fuel - 1, by omega⟩
    have h0 : node.tick + j * node.ticksPerBeat < tE := by
      have := hlt 0 (by omega)
      simpa using this
    have hsucc : node.tick + (j + 1) * node.ticksPerBeat
        = node.tick + j * node.ticksPerBeat + node.ticksPerBeat := by
      rw [Nat.succ_mul]
      omega
    have hmono : node.tick + (j + 1) * node.ticksPerBeat
        ≤ node.tick + (j + (n + 1)) * node.ticksPerBeat := by
      have : (j + 1) * node.ticksPerBeat ≤ (j + (n + 1)) * node.ticksPerBeat :=
        Nat.mul_le_mul_right _ (by omega)
      omega
    have htime : (node.tick + j * node.ticksPerBeat + node.ticksPerBeat) % 2 ^ 64
        = node.tick + (j + 1) * node.ticksPerBeat := by
      rw [← hsucc]
      exact Nat.mod_eq_of_lt (by omega)
    have hb : (beat0 + j + 1) % 2 ^ 32 = beat0 + (j + 1) := by
      rw [Nat.mod_eq_of_lt (by omega)]
      omega
    have hrec := ih f (j + 1)
      (by
        intro k hk
        have := hlt (k + 1) (by omega)
        have he : j + 1 + k = j + (k + 1) := by omega
        rw [he]
        exact this)
      (by
        have he : j + 1 + n = j + (n + 1) := by omega
        rw [he]
        exact hE)
      (by omega)
      (by
        have he : j + 1 + n = j + (n + 1) := by omega
        rw [he]
        exact hov)
      (by omega)
    rw [metroLoop, if_pos h0, beatNote_getD eng node tS (beat0 + j) _ hbus]
    simp only [hseg.2.1, hb, htime, hrec, List.range'_succ, List.flatMap_cons,
      List.append_assoc]

theorem lt_ceilDiv_iff (d q k : Nat) (hq : 0 < q) :
    k < (d + q - 1) / q ↔ k * q < d := by
  rw [Nat.lt_iff_add_one_le, Nat.le_div_iff_mul_le hq, Nat.succ_mul]
  omega

theorem ceilDiv_mono (d e q : Nat) (h : d ≤ e) :
    (d + q - 1) / q ≤ (e + q - 1) / q :=
  Nat.div_le_div_right (by omega)

theorem floorDiv_le_ceilDiv (d q : Nat) : d / q ≤ (d + q - 1) / q := by
  rcases Nat.eq_zero_or_pos q with h | h
  · subst h
    simp
  · exact Nat.div_le_div_right (by omega)

theorem ceilDiv_mul (j q : Nat) (hq : 0 < q) : (j * q + q - 1) / q = j := by
  apply Nat.le_antisymm
  · apply Nat.le_of_lt_succ
    rw [Nat.div_lt_iff_lt_mul hq, Nat.succ_mul]
    omega
  · rw [Nat.le_div_iff_mul_le hq]
    omega

theorem processMetro_segment (fuel : Nat) (eng : MetroEngine) (cursor : MetroCursor)
    (node : TimeScaleNode) (beat0 beatsPerBar : Nat) (metroTempo : ℚ)
    (iFrameStart iFrameEnd : Nat)
    (hcur : eng.metroCursor = some cursor)
    (hseg : SingleSegment cursor node beat0 beatsPerBar)
    (hon : eng.metronome = true ∨ eng.clockMode.hasOutput = true)
    (hbus : eng.metronome = true → ∃ bus, eng.metroBus = some bus)
    (htpb : 0 < node.ticksPerBeat)
    (hframe : node.frame ≤ iFrameStart) (hwin : iFrameStart ≤ iFrameEnd)
    (hfuel : node.tickFromFrame iFrameEnd - node.tick < fuel)
    (hov : node.tickFromFrame iFrameEnd + node.ticksPerBeat < 2 ^ 64)
    (hbeat : beat0 + (node.tickFromFrame iFrameEnd - node.tick) / node.ticksPerBeat + 1
      < 2 ^ 32) :
    processMetro fuel eng metroTempo iFrameStart iFrameEnd
      = Outcome.ok
          ((metroTempoChange eng metroTempo node iFrameStart).1,
           (metroTempoChange eng metroTempo node iFrameStart).2
            ++ (List.range'
                  ((node.tickFromFrame iFrameStart - node.tick) / node.ticksPerBeat)
                  ((node.tickFromFrame iFrameEnd - node.tick + node.ticksPerBeat - 1)
                      / node.ticksPerBeat
                    - (node.tickFromFrame iFrameStart - node.tick)
                      / node.ticksPerBeat)).flatMap (fun k =>
                beatClocks eng node (node.tickFromFrame iFrameStart)
                    (node.tickFromFrame iFrameEnd)
                    (node.tick + k * node.ticksPerBeat)
                  ++ (beatNote eng node (node.tickFromFrame iFrameStart) (beat0 + k)
                        (node.tick + k * node.ticksPerBeat)).getD [])) := by
  obtain ⟨hsf, hsb, hbft, htfb, _, hmono, hge⟩ := hseg
  have hS : node.tick ≤ node.tickFromFrame iFrameStart := hge _ hframe
  have hSE : node.tickFromFrame iFrameStart ≤ node.tickFromFrame iFrameEnd :=
    hmono _ _ hwin
  generalize htS : node.tickFromFrame iFrameStart = tS at *
  generalize htE : node.tickFromFrame iFrameEnd = tE at *
  have hj0E : (tS - node.tick) / node.ticksPerBeat
      ≤ (tE - node.tick) / node.ticksPerBeat := Nat.div_le_div_right (by omega)
  have hj0c : (tS - node.tick) / node.ticksPerBeat
      ≤ (tE - node.tick + node.ticksPerBeat - 1) / node.ticksPerBeat :=
    le_trans hj0E (floorDiv_le_ceilDiv _ _)
  have hcE : (tE - node.tick + node.ticksPerBeat - 1) / node.ticksPerBeat
      ≤ (tE - node.tick) / node.ticksPerBeat + 1 := by
    apply Nat.le_of_not_lt
    intro hlt
    have h1 := (lt_ceilDiv_iff _ _ _ htpb).1 hlt
    have h2 := (Nat.div_lt_iff_lt_mul htpb).1
      (Nat.lt_add_one ((tE - node.tick) / node.ticksPerBeat))
    omega
  have hdivle : (tE - node.tick) / node.ticksPerBeat ≤ tE - node.tick :=
    Nat.div_le_self _ _
  have hiBeat : node.beatFromTick tS % 2 ^ 32
      = beat0 + (tS - node.tick) / node.ticksPerBeat := by
    rw [hbft tS hS]
    exact Nat.mod_eq_of_lt
      (lt_of_le_of_lt (Nat.add_le_add_left hj0E beat0) (by omega))
  have hiTime : node.tickFromBeat (beat0 + (tS - node.tick) / node.ticksPerBeat)
      = node.tick + (tS - node.tick) / node.ticksPerBeat * node.ticksPerBeat := by
    rw [htfb _ (Nat.le_add_right _ _), Nat.add_sub_cancel_left]
  have hEceil : tE ≤ node.tick
      + (tE - node.tick + node.ticksPerBeat - 1) / node.ticksPerBeat
        * node.ticksPerBeat := by
    have := (lt_ceilDiv_iff (tE - node.tick) node.ticksPerBeat
      ((tE - node.tick + node.ticksPerBeat - 1) / node.ticksPerBeat) htpb).not.1
      (Nat.lt_irrefl _)
    omega
  have hcmul : (tE - node.tick + node.ticksPerBeat - 1) / node.ticksPerBeat
        * node.ticksPerBeat
      ≤ (tE - node.tick) + node.ticksPerBeat - 1 := Nat.div_mul_le_self _ _
  have hloop := metroLoop_segment eng cursor node beat0 beatsPerBar
    ⟨hsf, hsb, hbft, htfb, ‹_›, hmono, hge⟩ tS tE hbus
    ((tE - node.tick + node.ticksPerBeat - 1) / node.ticksPerBeat
      - (tS - node.tick) / node.ticksPerBeat)
    fuel ((tS - node.tick) / node.ticksPerBeat)
    (by
      intro k hk
      have hlt : (tS - node.tick) / node.ticksPerBeat + k
          < (tE - node.tick + node.ticksPerBeat - 1) / node.ticksPerBeat := by omega
      have := (lt_ceilDiv_iff _ _ _ htpb).1 hlt
      omega)
    (by
      rw [Nat.add_sub_cancel' hj0c]
      exact hEceil)
    (le_trans (Nat.sub_le _ _) (le_trans hcE (by omega)))
    (by
      rw [Nat.add_sub_cancel' hj0c]
      omega)
    (by
      rw [Nat.add_assoc, Nat.add_sub_cancel' hj0c]
      exact lt_of_le_of_lt (Nat.add_le_add_left hcE beat0) (by omega))
  have hon2 : (!eng.metronome && !eng.clockMode.hasOutput) = false := by
    rcases hon with h | h <;> simp [h]
  simp only [processMetro, hcur, hsf, hon2, Bool.false_eq_true, if_false, htS, htE,
    hiBeat, hiTime, hloop]

theorem noteEvents_append (xs ys : List MetroCall) :
    noteEvents (xs ++ ys) = noteEvents xs ++ noteEvents ys := by
  induction xs with
  | nil => rfl
  | cons c rest ih => cases c <;> simp [noteEvents, ih]

theorem noteEvents_clockLoop (eng : MetroEngine) (tS tE tpc : Nat) :
    ∀ (n t : Nat), noteEvents (clockLoop eng tS tE tpc n t) = [] := by
  intro n
  induction n with
  | zero => intro t; rfl
  | succ n ih =>
    intro t
    rw [clockLoop]
    split
    · rfl
    · rw [noteEvents_append, ih]
      split <;> rfl

theorem noteEvents_beatClocks (eng : MetroEngine) (node : TimeScaleNode)
    (tS tE t : Nat) : noteEvents (beatClocks eng node tS tE t) = [] := by
  unfold beatClocks
  split
  · exact noteEvents_clockLoop eng tS tE _ 24 t
  · rfl

theorem noteEvents_metroTempoChange (eng : MetroEngine) (metroTempo : ℚ)
    (node : TimeScaleNode) (f : Nat) :
    noteEvents (metroTempoChange eng metroTempo node f).2 = [] := by
  unfold metroTempoChange
  split <;> rfl

theorem noteEvents_beatNote (eng : MetroEngine) (node : TimeScaleNode)
    (bus : MidiBusOut) (tS iBeat t : Nat)
    (hm : eng.metronome = true) (hb : eng.metroBus = some bus) :
    noteEvents ((beatNote eng node tS iBeat t).getD [])
      = if tS ≤ t then
          [specMetroNote eng bus.alsaPort (node.beatIsBar iBeat)
            (enqueueTick t eng.timeStart)]
        else [] := by
  unfold beatNote specMetroNote
  by_cases ht : tS ≤ t
  · cases hbar : node.beatIsBar iBeat <;> cases hmon : bus.hasMonitorOut <;>
      simp [hm, hb, ht, hbar, hmon, noteEvents]
  · simp [hm, ht, noteEvents]

theorem filter_ge_range_all (c : Nat) :
    ∀ (n j : Nat), c ≤ j →
      (List.range' j n).filter (fun k => decide (c ≤ k)) = List.range' j n := by
  intro n j hj
  rw [List.filter_eq_self]
  intro k hk
  rw [List.mem_range'_1] at hk
  simp only [decide_eq_true_eq]
  omega

theorem filter_ge_range (c : Nat) :
    ∀ (n j : Nat), j ≤ c →
      (List.range' j n).filter (fun k => decide (c ≤ k)) = List.range' c (j + n - c) := by
  intro n
  induction n with
  | zero =>
    intro j hj
    have h0 : j + 0 - c = 0 := by omega
    rw [h0]
    rfl
  | succ n ih =>
    intro j hj
    rcases Nat.eq_or_lt_of_le hj with h | h
    · subst h
      rw [filter_ge_range_all j (n + 1) j (Nat.le_refl _)]
      congr 1
      omega
    · have hnot : ¬ (c ≤ j) := by omega
      rw [List.range'_succ, List.filter_cons_of_neg (by simpa using hnot),
        ih (j + 1) (by omega)]
      congr 1
      omega

theorem noteEvents_blocks (eng : MetroEngine) (node : TimeScaleNode)
    (bus : MidiBusOut) (beat0 tS tE : Nat)
    (hm : eng.metronome = true) (hb : eng.metroBus = some bus) :
    ∀ (n j : Nat),
      noteEvents ((List.range' j n).flatMap (fun k =>
          beatClocks eng node tS tE (node.tick + k * node.ticksPerBeat)
            ++ (beatNote eng node tS (beat0 + k)
                  (node.tick + k * node.ticksPerBeat)).getD []))
        = ((List.range' j n).filter
            (fun k => decide (tS ≤ node.tick + k * node.ticksPerBeat))).map
            (fun k => specMetroNote eng bus.alsaPort (node.beatIsBar (beat0 + k))
              (enqueueTick (node.tick + k * node.ticksPerBeat) eng.timeStart)) := by
  intro n
  induction n with
  | zero => intro j; rfl
  | succ n ih =>
    intro j
    rw [List.range'_succ, List.flatMap_cons, noteEvents_append, noteEvents_append,
      noteEvents_beatClocks, noteEvents_beatNote eng node bus tS _ _ hm hb, ih (j + 1)]
    by_cases ht : tS ≤ node.tick + j * node.ticksPerBeat
    · rw [if_pos ht, List.filter_cons_of_pos (by simpa using ht)]
      rfl
    · rw [if_neg ht, List.filter_cons_of_neg (by simpa using ht)]
      rfl

theorem processMetro_notes (fuel : Nat) (eng : MetroEngine) (cursor : MetroCursor)
    (node : TimeScaleNode) (beat0 beatsPerBar : Nat) (bus : MidiBusOut)
    (metroTempo : ℚ) (iFrameStart iFrameEnd : Nat)
    (hcur : eng.metroCursor = some cursor)
    (hseg : SingleSegment cursor node beat0 beatsPerBar)
    (hm : eng.metronome = true) (hb : eng.metroBus = some bus)
    (htpb : 0 < node.ticksPerBeat)
    (hframe : node.frame ≤ iFrameStart) (hwin : iFrameStart ≤ iFrameEnd)
    (hfuel : node.tickFromFrame iFrameEnd - node.tick < fuel)
    (hov : node.tickFromFrame iFrameEnd + node.ticksPerBeat < 2 ^ 64)
    (hbeat : beat0 + (node.tickFromFrame iFrameEnd - node.tick) / node.ticksPerBeat + 1
      < 2 ^ 32) :
    ∃ tempo calls,
      processMetro fuel eng metroTempo iFrameStart iFrameEnd = Outcome.ok (tempo, calls)
      ∧ noteEvents calls
          = (List.range' (beatCeil node (node.tickFromFrame iFrameStart))
              (beatCeil node (node.tickFromFrame iFrameEnd)
                - beatCeil node (node.tickFromFrame iFrameStart))).map
              (fun k => specMetroNote eng bus.alsaPort (decide (k % beatsPerBar = 0))
                (enqueueTick (node.tick + k * node.ticksPerBeat) eng.timeStart)) := by
  refine ⟨_, _, processMetro_segment fuel eng cursor node beat0 beatsPerBar metroTempo
    iFrameStart iFrameEnd hcur hseg (Or.inl hm) (fun _ => ⟨bus, hb⟩) htpb hframe hwin
    hfuel hov hbeat, ?_⟩
  obtain ⟨_, _, _, _, hbar, hmono, hge⟩ := hseg
  have hS : node.tick ≤ node.tickFromFrame iFrameStart := hge _ hframe
  have hSE : node.tickFromFrame iFrameStart ≤ node.tickFromFrame iFrameEnd :=
    hmono _ _ hwin
  have hj0c : (node.tickFromFrame iFrameStart - node.tick) / node.ticksPerBeat
      ≤ (node.tickFromFrame iFrameEnd - node.tick + node.ticksPerBeat - 1)
        / node.ticksPerBeat :=
    le_trans (Nat.div_le_div_right (by omega)) (floorDiv_le_ceilDiv _ _)
  have hpred : (fun k => decide
        (node.tickFromFrame iFrameStart ≤ node.tick + k * node.ticksPerBeat))
      = (fun k => decide (beatCeil node (node.tickFromFrame iFrameStart) ≤ k)) := by
    funext k
    have h := lt_ceilDiv_iff (node.tickFromFrame iFrameStart - node.tick)
      node.ticksPerBeat k htpb
    unfold beatCeil
    by_cases hk : k * node.ticksPerBeat < node.tickFromFrame iFrameStart - node.tick
    · have h1 := h.2 hk
      have h2 : ¬ (node.tickFromFrame iFrameStart
          ≤ node.tick + k * node.ticksPerBeat) := by omega
      have h3 : ¬ ((node.tickFromFrame iFrameStart - node.tick
          + node.ticksPerBeat - 1) / node.ticksPerBeat ≤ k) := Nat.not_le.2 h1
      simp only [h2, h3]
    · have h1 := h.not.2 hk
      have h2 : node.tickFromFrame iFrameStart
          ≤ node.tick + k * node.ticksPerBeat := by omega
      have h3 : (node.tickFromFrame iFrameStart - node.tick
          + node.ticksPerBeat - 1) / node.ticksPerBeat ≤ k := Nat.not_lt.1 h1
      simp only [h2, h3]
  have hmapf : (fun k => specMetroNote eng bus.alsaPort (node.beatIsBar (beat0 + k))
        (enqueueTick (node.tick + k * node.ticksPerBeat) eng.timeStart))
      = (fun k => specMetroNote eng bus.alsaPort (decide (k % beatsPerBar = 0))
        (enqueueTick (node.tick + k * node.ticksPerBeat) eng.timeStart)) := by
    funext k
    rw [hbar (beat0 + k) (Nat.le_add_right _ _), Nat.add_sub_cancel_left]
  have hfc : (node.tickFromFrame iFrameStart - node.tick) / node.ticksPerBeat
      ≤ beatCeil node (node.tickFromFrame iFrameStart) := floorDiv_le_ceilDiv _ _
  rw [noteEvents_append, noteEvents_metroTempoChange, List.nil_append,
    noteEvents_blocks eng node bus beat0 _ _ hm hb, hpred, hmapf,
    filter_ge_range _ _ _ hfc, Nat.add_sub_cancel' hj0c]
  rfl

theorem chain_le_getLastD :
    ∀ (fs : List Nat) (f : Nat), List.Chain (fun a b => a ≤ b) f fs →
      ∀ g, g ∈ f :: fs → g ≤ fs.getLastD f := by
  intro fs
  induction fs with
  | nil =>
    intro f _ g hg
    simp only [List.mem_singleton] at hg
    rw [hg]
    exact Nat.le_refl _
  | cons h rest ih =>
    intro f hc g hg
    rw [List.chain_cons] at hc
    rw [List.getLastD_cons]
    rcases List.mem_cons.1 hg with hgf | hgr
    · rw [hgf]
      exact le_trans hc.1 (ih h hc.2 h (List.mem_cons_self _ _))
    · exact ih h hc.2 g hgr

theorem processMetroWindows_notes (fuel : Nat) (eng : MetroEngine)
    (cursor : MetroCursor) (node : TimeScaleNode) (beat0 beatsPerBar : Nat)
    (bus : MidiBusOut) (tMax : Nat)
    (hcur : eng.metroCursor = some cursor)
    (hseg : SingleSegment cursor node beat0 beatsPerBar)
    (hm : eng.metronome = true) (hb : eng.metroBus = some bus)
    (htpb : 0 < node.ticksPerBeat)
    (hfuel : tMax - node.tick < fuel)
    (hov : tMax + node.ticksPerBeat < 2 ^ 64)
    (hbeat : beat0 + (tMax - node.tick) / node.ticksPerBeat + 1 < 2 ^ 32) :
    ∀ (fs : List Nat) (f : Nat) (metroTempo : ℚ),
      node.frame ≤ f → List.Chain (fun a b => a ≤ b) f fs →
      (∀ g, g ∈ f :: fs → node.tickFromFrame g ≤ tMax) →
      ∃ tempo calls,
        processMetroWindows fuel eng metroTempo f fs = Outcome.ok (tempo, calls)
        ∧ beatCeil node (node.tickFromFrame f)
            ≤ beatCeil node (node.tickFromFrame (fs.getLastD f))
        ∧ noteEvents calls
            = (List.range' (beatCeil node (node.tickFromFrame f))
                (beatCeil node (node.tickFromFrame (fs.getLastD f))
                  - beatCeil node (node.tickFromFrame f))).map
                (fun k => specMetroNote eng bus.alsaPort (decide (k % beatsPerBar = 0))
                  (enqueueTick (node.tick + k * node.ticksPerBeat) eng.timeStart)) := by
  intro fs
  induction fs with
  | nil =>
    intro f metroTempo _ _ _
    refine ⟨metroTempo, [], rfl, Nat.le_refl _, ?_⟩
    rw [List.getLastD_nil, Nat.sub_self]
    rfl
  | cons g rest ih =>
    intro f metroTempo hframe hchain hmax
    rw [List.chain_cons] at hchain
    have hgmax : node.tickFromFrame g ≤ tMax :=
      hmax g (List.mem_cons_of_mem _ (List.mem_cons_self _ _))
    have hdiv : (node.tickFromFrame g - node.tick) / node.ticksPerBeat
        ≤ (tMax - node.tick) / node.ticksPerBeat :=
      Nat.div_le_div_right (by omega)
    obtain ⟨t1, c1, h1, hn1⟩ := processMetro_notes fuel eng cursor node beat0
      beatsPerBar bus metroTempo f g hcur hseg hm hb htpb hframe hchain.1
      (by omega) (by omega) (by omega)
    obtain ⟨t2, c2, h2, hle2, hn2⟩ := ih g t1 (le_trans hframe hchain.1) hchain.2
      (fun x hx => hmax x (List.mem_cons_of_mem _ hx))
    have hle1 : beatCeil node (node.tickFromFrame f)
        ≤ beatCeil node (node.tickFromFrame g) := by
      unfold beatCeil
      exact ceilDiv_mono _ _ _ (Nat.sub_le_sub_right (hseg.2.2.2.2.2.1 f g hchain.1) _)
    refine ⟨t2, c1 ++ c2, ?_, ?_, ?_⟩
    · simp only [processMetroWindows, h1, h2]
    · rw [List.getLastD_cons]
      exact le_trans hle1 hle2
    · rw [List.getLastD_cons, noteEvents_append, hn1, hn2, ← List.map_append]
      congr 1
      have e1 : beatCeil node (node.tickFromFrame g)
          = beatCeil node (node.tickFromFrame f)
            + 1 * (beatCeil node (node.tickFromFrame g)
              - beatCeil node (node.tickFromFrame f)) := by omega
      have e2 := List.range'_append (beatCeil node (node.tickFromFrame f))
        (beatCeil node (node.tickFromFrame g) - beatCeil node (node.tickFromFrame f))
        (beatCeil node (node.tickFromFrame (rest.getLastD g))
          - beatCeil node (node.tickFromFrame g)) 1
      rw [← e1] at e2
      rw [e2]
      congr 1
      omega

theorem exampleSegment : SingleSegment exampleCursor exampleNode 0 4 := by
  refine ⟨fun _ => rfl, fun _ => rfl, ?_, ?_, ?_, ?_, ?_⟩
  · intro t _
    simp [exampleNode]
  · intro b _
    simp [exampleNode]
  · intro b _
    simp [exampleNode]
  · intro f g h
    exact Nat.div_le_div_right h
  · intro f _
    exact Nat.zero_le _

/-- C11: with the metronome on and a metronome bus, over consecutive windows
`[f, f₁), [f₁, f₂), …` that tile a bar of one tempo segment (the first window
starts at the tick of the bar's first beat `B`, the last one ends at the tick
of the next bar), the `processMetro` calls return and emit exactly
`beatsPerBar` notes: the first, at the bar's first beat, with the bar
parameters, and one at each of the other `beatsPerBar - 1` beats with the
beat parameters, each beat once and in order. -/
theorem C11_metronome_notes_per_bar (fuel : Nat) (eng : MetroEngine)
    (cursor : MetroCursor) (node : TimeScaleNode) (beat0 beatsPerBar : Nat)
    (bus : MidiBusOut) (metroTempo : ℚ) (B f : Nat) (fs : List Nat)
    (hcur : eng.metroCursor = some cursor)
    (hseg : SingleSegment cursor node beat0 beatsPerBar)
    (hm : eng.metronome = true) (hb : eng.metroBus = some bus)
    (htpb : 0 < node.ticksPerBeat) (_hbpb : 0 < beatsPerBar)
    (hbar : B % beatsPerBar = 0)
    (hframe : node.frame ≤ f) (hchain : List.Chain (fun a b => a ≤ b) f fs)
    (hstart : node.tickFromFrame f = node.tick + B * node.ticksPerBeat)
    (hend : node.tickFromFrame (fs.getLastD f)
      = node.tick + (B + beatsPerBar) * node.ticksPerBeat)
    (hfuel : (B + beatsPerBar) * node.ticksPerBeat < fuel)
    (hov : node.tick + (B + beatsPerBar + 1) * node.ticksPerBeat < 2 ^ 64)
    (hbeat : beat0 + B + beatsPerBar + 1 < 2 ^ 32) :
    ∃ tempo calls,
      processMetroWindows fuel eng metroTempo f fs = Outcome.ok (tempo, calls)
      ∧ noteEvents calls
          = (List.range beatsPerBar).map (fun i =>
              specMetroNote eng bus.alsaPort (decide (i = 0))
                (enqueueTick (node.tick + (B + i) * node.ticksPerBeat) eng.timeStart))
      ∧ (noteEvents calls).length = beatsPerBar := by
  have hmono := hseg.2.2.2.2.2.1
  have hmax : ∀ g, g ∈ f :: fs →
      node.tickFromFrame g ≤ node.tick + (B + beatsPerBar) * node.ticksPerBeat := by
    intro g hg
    rw [← hend]
    exact hmono _ _ (chain_le_getLastD fs f hchain g hg)
  have hq : (node.tick + (B + beatsPerBar) * node.ticksPerBeat - node.tick)
      / node.ticksPerBeat = B + beatsPerBar := by
    rw [Nat.add_sub_cancel_left, Nat.mul_div_cancel _ htpb]
  have hsucc : (B + beatsPerBar + 1) * node.ticksPerBeat
      = (B + beatsPerBar) * node.ticksPerBeat + node.ticksPerBeat := Nat.succ_mul _ _
  obtain ⟨tempo, calls, hrun, _, hnotes⟩ := processMetroWindows_notes fuel eng cursor
    node beat0 beatsPerBar bus (node.tick + (B + beatsPerBar) * node.ticksPerBeat)
    hcur hseg hm hb htpb
    (by rw [Nat.add_sub_cancel_left]; exact hfuel)
    (by omega)
    (by rw [hq]; omega)
    fs f metroTempo hframe hchain hmax
  have hcS : beatCeil node (node.tickFromFrame f) = B := by
    unfold beatCeil
    rw [hstart, Nat.add_sub_cancel_left, ceilDiv_mul _ _ htpb]
  have hcE : beatCeil node (node.tickFromFrame (fs.getLastD f)) = B + beatsPerBar := by
    unfold beatCeil
    rw [hend, Nat.add_sub_cancel_left, ceilDiv_mul _ _ htpb]
  have hlist : noteEvents calls
      = (List.range beatsPerBar).map (fun i =>
          specMetroNote eng bus.alsaPort (decide (i = 0))
            (enqueueTick (node.tick + (B + i) * node.ticksPerBeat) eng.timeStart)) := by
    rw [hnotes, hcS, hcE, Nat.add_sub_cancel_left, List.range'_eq_map_range,
      List.map_map]
    apply List.map_congr_left
    intro i hi
    have hi2 : i < beatsPerBar := List.mem_range.1 hi
    have hmod : (B + i) % beatsPerBar = i := by
      rw [Nat.add_mod, hbar, Nat.zero_add, Nat.mod_mod, Nat.mod_eq_of_lt hi2]
    simp only [Function.comp, hmod]
  refine ⟨tempo, calls, hrun, hlist, ?_⟩
  rw [hlist, List.length_map, List.length_range]

/-- Witness for C11: the second bar of the example segment (beats 4 to 7,
ticks 3840 to 7680, frames 96000 to 192000) tiled by three uneven windows. -/
theorem C11_metronome_notes_per_bar_witness :
    ∃ tempo calls,
      processMetroWindows 8000 exampleMetroEngine 0 96000 [110000, 150000, 192000]
        = Outcome.ok (tempo, calls)
      ∧ noteEvents calls
          = (List.range 4).map (fun i =>
              specMetroNote exampleMetroEngine 2 (decide (i = 0))
                (enqueueTick (exampleNode.tick + (4 + i) * exampleNode.ticksPerBeat)
                  exampleMetroEngine.timeStart))
      ∧ (noteEvents calls).length = 4 :=
  C11_metronome_notes_per_bar 8000 exampleMetroEngine exampleCursor exampleNode 0 4
    ⟨2, false, false⟩ 0 4 96000 [110000, 150000, 192000] rfl exampleSegment rfl rfl
    (by decide) (by decide) (by decide) (by decide)
    (by simp [List.chain_cons]) (by decide) (by decide) (by decide)
    (by decide) (by decide)

/-- C20 fails on the code: after `setMetroBar(76, 96, 48)` and
`setMetroBeat(77, 64, 24)` (the constructor values), `metroBeatNote()`
returns 76 and `metroBeatVelocity()` returns 96, the bar fields, not the
beat values 77 and 64; only `metroBeatDuration()` returns the beat value 24.
For any engine and any beat values the first two accessors return the bar
fields left untouched by `setMetroBeat`. -/
theorem C20_beat_accessors_return_bar_fields :
    ((defaultMetroEngine.setMetroBar 76 96 48).setMetroBeat 77 64 24).metroBeatNote = 76
    ∧ ((defaultMetroEngine.setMetroBar 76 96 48).setMetroBeat 77 64 24).metroBeatVelocity
        = 96
    ∧ ((defaultMetroEngine.setMetroBar 76 96 48).setMetroBeat 77 64 24).metroBeatDuration
        = 24
    ∧ (76 : Int) ≠ 77 ∧ (96 : Int) ≠ 64
    ∧ ∀ (e : MetroEngine) (note velocity : Int) (duration : Nat),
        (e.setMetroBeat note velocity duration).metroBeatNote = e.m_iMetroBarNote
        ∧ (e.setMetroBeat note velocity duration).metroBeatVelocity
            = e.m_iMetroBarVelocity
        ∧ (e.setMetroBeat note velocity duration).metroBeatDuration = duration := by
  refine ⟨rfl, rfl, rfl, by decide, by decide, ?_⟩
  intro e note velocity duration
  exact ⟨rfl, rfl, rfl⟩

theorem toLong_of_range (x : Int) (h1 : -(2 ^ 63) ≤ x) (h2 : x < 2 ^ 63) :
    toLong x = x := by
  unfold toLong
  have h : (x + 2 ^ 63) % 2 ^ 64 = x + 2 ^ 63 := by
    apply Int.emod_eq_of_lt <;> omega
  omega

theorem drift_ranges (A A2 Q : Nat) (ts td : Int)
    (hA : A < 2 ^ 61) (hA2 : A2 < 2 ^ 61) (hQ : Q < 2 ^ 61)
    (hts : |ts| < 2 ^ 61) (htd : |td| < 2 ^ 61) :
    toLong (A : Int) = A ∧ toLong (Q : Int) = Q ∧ toLong (ts + (Q : Int)) = ts + Q
      ∧ toLong (A2 : Int) = A2 ∧ toLong ((A2 : Int) - A) = A2 - A
      ∧ toLong ((A : Int) - (ts + Q)) = A - (ts + Q)
      ∧ toLong (-((A2 : Int) - A)) = -((A2 : Int) - A)
      ∧ toLong (td + ((A : Int) - (ts + Q))) = td + ((A : Int) - (ts + Q))
      ∧ toLong (ts + (Q : Int) - td) = ts + (Q : Int) - td := by
  have hts2 := abs_lt.mp hts
  have htd2 := abs_lt.mp htd
  clear hts htd
  refine ⟨toLong_of_range _ (by omega) (by omega), toLong_of_range _ (by omega) (by omega),
    toLong_of_range _ (by omega) (by omega), toLong_of_range _ (by omega) (by omega),
    toLong_of_range _ (by omega) (by omega), toLong_of_range _ (by omega) (by omega),
    toLong_of_range _ (by omega) (by omega), toLong_of_range _ (by omega) (by omega),
    toLong_of_range _ (by omega) (by omega)⟩

/-- With session, cursor and queue status present and all values within
`2 ^ 61`, `drift` is the rule on exact integers, the firing condition
including `delta ≠ 0`. -/
theorem drift_eq (playHead readAhead tickTime : Nat) (cursor : MetroCursor)
    (clock : EngineClock) (queue : QueueTempo)
    (hF : playHead + readAhead < 2 ^ 64)
    (hA : (cursor.seekFrame playHead).tickFromFrame playHead < 2 ^ 61)
    (hA2 : (cursor.seekFrame playHead).tickFromFrame (playHead + readAhead) < 2 ^ 61)
    (hQ : tickTime < 2 ^ 61)
    (hts : |clock.timeStart| < 2 ^ 61) (htd : |clock.timeDrift| < 2 ^ 61) :
    drift (some playHead) (some cursor) (some tickTime) readAhead clock queue
      = if (((cursor.seekFrame playHead).tickFromFrame playHead : Nat) : Int)
            > (((cursor.seekFrame playHead).tickFromFrame (playHead + readAhead) : Nat) : Int)
              - (((cursor.seekFrame playHead).tickFromFrame playHead : Nat) : Int)
          ∧ clock.timeStart + (tickTime : Int) > clock.timeDrift
          ∧ (((cursor.seekFrame playHead).tickFromFrame playHead : Nat) : Int)
              - (clock.timeStart + (tickTime : Int)) ≠ 0
          ∧ |(((cursor.seekFrame playHead).tickFromFrame playHead : Nat) : Int)
              - (clock.timeStart + (tickTime : Int))|
            < (((cursor.seekFrame playHead).tickFromFrame (playHead + readAhead) : Nat) : Int)
              - (((cursor.seekFrame playHead).tickFromFrame playHead : Nat) : Int) then
          { clock := { clock with
              timeDrift := clock.timeDrift
                + ((((cursor.seekFrame playHead).tickFromFrame playHead : Nat) : Int)
                  - (clock.timeStart + (tickTime : Int))) }
            queue := { queue with
              skew := driftSkew queue.skewBase
                (((cursor.seekFrame playHead).tickFromFrame playHead : Nat) : Int)
                (clock.timeStart + (tickTime : Int)) clock.timeDrift }
            skewSet :=
              if driftSkew queue.skewBase
                (((cursor.seekFrame playHead).tickFromFrame playHead : Nat) : Int)
                (clock.timeStart + (tickTime : Int)) clock.timeDrift ≠ queue.skew
              then some (driftSkew queue.skewBase
                (((cursor.seekFrame playHead).tickFromFrame playHead : Nat) : Int)
                (clock.timeStart + (tickTime : Int)) clock.timeDrift)
              else none }
        else { clock := clock, queue := queue, skewSet := none } := by
  have hmod : (playHead + readAhead) % 2 ^ 64 = playHead + readAhead := Nat.mod_eq_of_lt hF
  simp only [drift, hmod]
  obtain ⟨e1, e2, e3, e4, e5, e6, e7, e8, e9⟩ :=
    drift_ranges _ _ tickTime clock.timeStart clock.timeDrift hA hA2 hQ hts htd
  generalize (cursor.seekFrame playHead).tickFromFrame playHead = A at *
  generalize (cursor.seekFrame playHead).tickFromFrame (playHead + readAhead) = A2 at *
  simp only [e1, e2, e3, e4, e5, e6, e7, e8, e9]
  have hc : ((A : Int) > (A2 : Int) - A ∧ clock.timeStart + (tickTime : Int) > clock.timeDrift
        ∧ (A : Int) - (clock.timeStart + tickTime) ≠ 0
        ∧ (A : Int) - (clock.timeStart + tickTime) > -((A2 : Int) - A)
        ∧ (A : Int) - (clock.timeStart + tickTime) < (A2 : Int) - A)
      ↔ ((A : Int) > (A2 : Int) - A ∧ clock.timeStart + (tickTime : Int) > clock.timeDrift
        ∧ (A : Int) - (clock.timeStart + tickTime) ≠ 0
        ∧ |(A : Int) - (clock.timeStart + tickTime)| < (A2 : Int) - A) := by
    rw [abs_lt]
  by_cases h : ((A : Int) > (A2 : Int) - A ∧ clock.timeStart + (tickTime : Int) > clock.timeDrift
        ∧ (A : Int) - (clock.timeStart + tickTime) ≠ 0
        ∧ |(A : Int) - (clock.timeStart + tickTime)| < (A2 : Int) - A)
  · rw [if_pos (hc.mpr h), if_pos h]
  · rw [if_neg (fun h2 => h (hc.mp h2)), if_neg h]

theorem truncInt_eq (x : ℚ) (z : Int) (h0 : 0 ≤ x) (h1 : (z : ℚ) ≤ x) (h2 : x < (z : ℚ) + 1) :
    truncInt x = z := by
  unfold truncInt
  rw [if_pos h0]
  exact Int.floor_eq_iff.mpr ⟨h1, h2⟩

/-- C13 (counterexample): play-head and queue agree (`delta = 0`) while
`timeDrift = 10`.  The rule of the claim fires and moves the skew from 65536
to 65879; `drift` itself takes no action and leaves the skew at 65536. -/
theorem C13_drift_zero_delta_counterexample :
    drift (some 48000) (some exampleCursor) (some 1920) 24000 ⟨0, 10⟩ ⟨65536, 65536⟩
        = ⟨⟨0, 10⟩, ⟨65536, 65536⟩, none⟩
      ∧ specDrift (exampleNode.tickFromFrame 48000) (0 + 1920)
          (exampleNode.tickFromFrame (48000 + 24000) - exampleNode.tickFromFrame 48000)
          ⟨0, 10⟩ ⟨65536, 65536⟩
        = ⟨⟨0, 10⟩, ⟨65536, 65879⟩, some 65879⟩ := by
  constructor
  · decide
  · have ht : truncInt ((12582912 : ℚ) / 191) = 65879 :=
      truncInt_eq _ 65879 (by norm_num) (by norm_num) (by norm_num)
    have hn : exampleNode.tickFromFrame 48000 = 1920 := by decide
    have hn2 : exampleNode.tickFromFrame (48000 + 24000) = 2880 := by decide
    simp only [specDrift, hn, hn2]
    norm_num [ht]
    decide

/-- C13 (amended): with session, metronome cursor and queue status present
and all tick values within `2 ^ 61`, `drift` fires exactly when
`audioTick > deltaMax`, `midiTick > timeDrift`, `delta ≠ 0` and
`|delta| < deltaMax` (`delta = audioTick - midiTick`): it then computes the
skew `skewBase * audioTick / (midiTick - timeDrift)` in single-precision
`float` arithmetic, truncated to an unsigned integer, hands it to the queue
when it differs from the previous skew, and adds `delta` to `timeDrift`.  In
every other case, and without session, cursor or queue status, nothing
changes. -/
theorem C13_drift_rule (playHead readAhead tickTime : Nat) (cursor : MetroCursor)
    (clock : EngineClock) (queue : QueueTempo) (audioTick midiTick deltaMax : Int)
    (skewNext : Nat)
    (hF : playHead + readAhead < 2 ^ 64)
    (hA : (cursor.seekFrame playHead).tickFromFrame playHead < 2 ^ 61)
    (hA2 : (cursor.seekFrame playHead).tickFromFrame (playHead + readAhead) < 2 ^ 61)
    (hQ : tickTime < 2 ^ 61)
    (hts : |clock.timeStart| < 2 ^ 61) (htd : |clock.timeDrift| < 2 ^ 61)
    (haudio : audioTick = (((cursor.seekFrame playHead).tickFromFrame playHead : Nat) : Int))
    (hmidi : midiTick = clock.timeStart + (tickTime : Int))
    (hmax : deltaMax
      = (((cursor.seekFrame playHead).tickFromFrame (playHead + readAhead) : Nat) : Int)
        - audioTick)
    (hskew : skewNext
      = (F32.div (F32.mul (F32.ofInt (queue.skewBase : Int)) (F32.ofInt audioTick))
          (F32.ofInt (midiTick - clock.timeDrift))).toUInt) :
    drift (some playHead) (some cursor) (some tickTime) readAhead clock queue
        = (if audioTick > deltaMax ∧ midiTick > clock.timeDrift
              ∧ audioTick - midiTick ≠ 0 ∧ |audioTick - midiTick| < deltaMax then
            { clock := { clock with timeDrift := clock.timeDrift + (audioTick - midiTick) }
              queue := { queue with skew := skewNext }
              skewSet := if skewNext ≠ queue.skew then some skewNext else none }
          else { clock := clock, queue := queue, skewSet := none })
      ∧ (∀ mc qt, drift none mc qt readAhead clock queue = ⟨clock, queue, none⟩)
      ∧ (∀ ph qt, drift ph none qt readAhead clock queue = ⟨clock, queue, none⟩)
      ∧ (∀ ph mc, drift ph mc none readAhead clock queue = ⟨clock, queue, none⟩) := by
  refine ⟨?_, ?_, ?_, ?_⟩
  · rw [drift_eq playHead readAhead tickTime cursor clock queue hF hA hA2 hQ hts htd]
    have hd : toLong (midiTick - clock.timeDrift) = midiTick - clock.timeDrift := by
      rw [hmidi]
      exact (drift_ranges _ _ tickTime clock.timeStart clock.timeDrift hA hA2 hQ hts
        htd).2.2.2.2.2.2.2.2
    have hs : skewNext = driftSkew queue.skewBase audioTick midiTick clock.timeDrift := by
      rw [hskew, driftSkew, hd]
    subst haudio hmidi hmax
    rw [hs]
  · intro mc qt
    rfl
  · intro ph qt
    cases ph <;> rfl
  · intro ph mc
    cases ph <;> cases mc <;> rfl

/-- Witness for C13: the play-head at tick 2113, one tick behind the queue at
tick 2114.  The skew handed to the queue is 65505, the single-precision
result, where the exact quotient `65536 * 2113 / 2114` truncates to 65504;
`timeDrift` goes from 0 to -1. -/
theorem C13_drift_rule_witness :
    drift (some 52825) (some exampleCursor) (some 2114) 24000 ⟨0, 0⟩ ⟨65536, 65536⟩
        = (if (2113 : Int) > 960 ∧ (2114 : Int) > (⟨0, 0⟩ : EngineClock).timeDrift
              ∧ (2113 : Int) - 2114 ≠ 0 ∧ |(2113 : Int) - 2114| < 960 then
            { clock := { (⟨0, 0⟩ : EngineClock) with
                timeDrift := (⟨0, 0⟩ : EngineClock).timeDrift + (2113 - 2114) }
              queue := { (⟨65536, 65536⟩ : QueueTempo) with skew := 65505 }
              skewSet := if 65505 ≠ (⟨65536, 65536⟩ : QueueTempo).skew
                then some 65505 else none }
          else { clock := ⟨0, 0⟩, queue := ⟨65536, 65536⟩, skewSet := none })
      ∧ (∀ mc qt, drift none mc qt 24000 ⟨0, 0⟩ ⟨65536, 65536⟩
          = ⟨⟨0, 0⟩, ⟨65536, 65536⟩, none⟩)
      ∧ (∀ ph qt, drift ph none qt 24000 ⟨0, 0⟩ ⟨65536, 65536⟩
          = ⟨⟨0, 0⟩, ⟨65536, 65536⟩, none⟩)
      ∧ (∀ ph mc, drift ph mc none 24000 ⟨0, 0⟩ ⟨65536, 65536⟩
          = ⟨⟨0, 0⟩, ⟨65536, 65536⟩, none⟩) :=
  C13_drift_rule 52825 24000 2114 exampleCursor ⟨0, 0⟩ ⟨65536, 65536⟩ 2113 2114 960 65505
    (by decide) (by decide) (by decide) (by decide) (by norm_num) (by norm_num)
    (by decide) (by decide) (by decide) (by decide)

/-- C14 (counterexample): with `timeDrift = 0`, the play-head at tick 1925 and
the queue at tick 1920, the value `|audioTick - (midiTick - timeDrift)|` is 5
before the step and 10 after it. -/
theorem C14_drift_error_grows_counterexample :
    driftError (exampleNode.tickFromFrame 48125) (0 + 1920) 0 = 5
      ∧ driftError (exampleNode.tickFromFrame 48125) (0 + 1920)
          (drift (some 48125) (some exampleCursor) (some 1920) 24000 ⟨0, 0⟩
            ⟨65536, 65536⟩).clock.timeDrift = 10 := by
  constructor <;> decide

/-- C14 (amended): a `drift` step that does not fire leaves
`|audioTick - (midiTick - timeDrift)|` unchanged; a step that fires takes it
from `|delta + timeDrift|` to `|2 * delta + timeDrift|`, so the value after
the step is no larger than before exactly when the step does not fire or
`delta * (3 * delta + 2 * timeDrift) ≤ 0`. -/
theorem C14_drift_error_step (playHead readAhead tickTime : Nat) (cursor : MetroCursor)
    (clock : EngineClock) (queue : QueueTempo) (audioTick midiTick deltaMax delta : Int)
    (hF : playHead + readAhead < 2 ^ 64)
    (hA : (cursor.seekFrame playHead).tickFromFrame playHead < 2 ^ 61)
    (hA2 : (cursor.seekFrame playHead).tickFromFrame (playHead + readAhead) < 2 ^ 61)
    (hQ : tickTime < 2 ^ 61)
    (hts : |clock.timeStart| < 2 ^ 61) (htd : |clock.timeDrift| < 2 ^ 61)
    (haudio : audioTick = (((cursor.seekFrame playHead).tickFromFrame playHead : Nat) : Int))
    (hmidi : midiTick = clock.timeStart + (tickTime : Int))
    (hmax : deltaMax
      = (((cursor.seekFrame playHead).tickFromFrame (playHead + readAhead) : Nat) : Int)
        - audioTick)
    (hdelta : delta = audioTick - midiTick) :
    driftError audioTick midiTick clock.timeDrift = |delta + clock.timeDrift|
      ∧ driftError audioTick midiTick
          (drift (some playHead) (some cursor) (some tickTime) readAhead clock
            queue).clock.timeDrift
        = (if audioTick > deltaMax ∧ midiTick > clock.timeDrift ∧ delta ≠ 0
              ∧ |delta| < deltaMax
            then |2 * delta + clock.timeDrift| else |delta + clock.timeDrift|)
      ∧ (driftError audioTick midiTick
            (drift (some playHead) (some cursor) (some tickTime) readAhead clock
              queue).clock.timeDrift
          ≤ driftError audioTick midiTick clock.timeDrift
        ↔ ¬ (audioTick > deltaMax ∧ midiTick > clock.timeDrift ∧ delta ≠ 0
              ∧ |delta| < deltaMax)
          ∨ delta * (3 * delta + 2 * clock.timeDrift) ≤ 0) := by
  rw [drift_eq playHead readAhead tickTime cursor clock queue hF hA hA2 hQ hts htd]
  subst haudio hmidi hmax hdelta
  generalize (((cursor.seekFrame playHead).tickFromFrame playHead : Nat) : Int) = A
  generalize (((cursor.seekFrame playHead).tickFromFrame (playHead + readAhead) : Nat) : Int)
    = A2
  generalize clock.timeStart + (tickTime : Int) = M
  generalize hD : clock.timeDrift = D
  have hb : driftError A M D = |A - M + D| := by
    unfold driftError
    congr 1
    ring
  have hsq : |2 * (A - M) + D| ≤ |A - M + D| ↔ (A - M) * (3 * (A - M) + 2 * D) ≤ 0 := by
    rw [← sq_le_sq]
    constructor <;> intro h <;> nlinarith
  by_cases hc : A > A2 - A ∧ M > D ∧ A - M ≠ 0 ∧ |A - M| < A2 - A
  · rw [if_pos hc, if_pos hc]
    have ha : driftError A M (D + (A - M)) = |2 * (A - M) + D| := by
      unfold driftError
      congr 1
      ring
    refine ⟨hb, ha, ?_⟩
    rw [ha, hb, hsq]
    constructor
    · intro h
      exact Or.inr h
    · rintro (h | h)
      · exact absurd hc h
      · exact h
  · rw [if_neg hc, if_neg hc]
    refine ⟨hb, ?_, ?_⟩
    · show driftError A M clock.timeDrift = _
      rw [hD]
      exact hb
    · show driftError A M clock.timeDrift ≤ _ ↔ _
      rw [hD]
      constructor
      · intro _
        exact Or.inl hc
      · intro _
        exact le_refl _

/-- Witness for C14: the firing step of the counterexample, 5 before and 10
after. -/
theorem C14_drift_error_step_witness :
    driftError 1925 1920 (⟨0, 0⟩ : EngineClock).timeDrift
        = |(5 : Int) + (⟨0, 0⟩ : EngineClock).timeDrift|
      ∧ driftError 1925 1920
          (drift (some 48125) (some exampleCursor) (some 1920) 24000 ⟨0, 0⟩
            ⟨65536, 65536⟩).clock.timeDrift
        = (if (1925 : Int) > 960 ∧ (1920 : Int) > (⟨0, 0⟩ : EngineClock).timeDrift
              ∧ (5 : Int) ≠ 0 ∧ |(5 : Int)| < 960
            then |2 * (5 : Int) + (⟨0, 0⟩ : EngineClock).timeDrift|
            else |(5 : Int) + (⟨0, 0⟩ : EngineClock).timeDrift|)
      ∧ (driftError 1925 1920
            (drift (some 48125) (some exampleCursor) (some 1920) 24000 ⟨0, 0⟩
              ⟨65536, 65536⟩).clock.timeDrift
          ≤ driftError 1925 1920 (⟨0, 0⟩ : EngineClock).timeDrift
        ↔ ¬ ((1925 : Int) > 960 ∧ (1920 : Int) > (⟨0, 0⟩ : EngineClock).timeDrift
              ∧ (5 : Int) ≠ 0 ∧ |(5 : Int)| < 960)
          ∨ (5 : Int) * (3 * 5 + 2 * (⟨0, 0⟩ : EngineClock).timeDrift) ≤ 0) :=
  C14_drift_error_step 48125 24000 1920 exampleCursor ⟨0, 0⟩ ⟨65536, 65536⟩ 1925 1920 960 5
    (by decide) (by decide) (by decide) (by decide) (by norm_num) (by norm_num)
    (by decide) (by decide) (by decide) (by decide)

/-- C21 fails: `enqueue` masks the scaled velocity with `0x7f` instead of
clamping it.  A NOTEON of value 100 at gain 3/2 leaves with velocity
`150 & 0x7f = 22`, where `min(127, trunc(g * v))` is 127; at gain 32/25 and
value 100 the velocity is 0. -/
theorem C21_noteon_velocity_wraps :
    enqueue 1 0 ⟨some ⟨0, false, false⟩, 7, 3, -1, -1, false, false⟩
        ⟨EventType.NOTEON, 60, 0, 100, 240, 0, []⟩ 100 (3 / 2)
      = [EnqueueCall.eventOutput ⟨7, 0, 1, 100, SeqData.NOTE 3 60 22 240⟩]
    ∧ specClamp7 (3 / 2) 100 = 127
    ∧ enqueueData ⟨some ⟨0, false, false⟩, 7, 3, -1, -1, false, false⟩
        ⟨EventType.NOTEON, 60, 0, 100, 240, 0, []⟩ (32 / 25)
      = SeqData.NOTE 3 60 0 240
    ∧ specClamp7 (32 / 25) 100 = 127 := by
  have h1 : truncInt ((3 / 2 : ℚ) * ((100 : Nat) : ℚ)) = 150 :=
    truncInt_eq _ 150 (by norm_num) (by norm_num) (by norm_num)
  have h2 : truncInt ((32 / 25 : ℚ) * ((100 : Nat) : ℚ)) = 128 :=
    truncInt_eq _ 128 (by norm_num) (by norm_num) (by norm_num)
  have ht : enqueueTick 100 0 = 100 := by decide
  refine ⟨?_, ?_, ?_, ?_⟩
  · simp only [enqueue, enqueueEvent, enqueueNotify, enqueueData, h1, ht]
    decide
  · simp only [specClamp7, h1]
    decide
  · simp only [enqueueData, h2]
    decide
  · simp only [specClamp7, h2]
    decide

theorem bank_recombine (n : Nat) (h : n < 16384) :
    ((n &&& 0x3f80) >>> 7) * 128 + (n &&& 0x7f) = n := by
  have h1 : n &&& 0x7f = n % 128 := Nat.and_pow_two_sub_one_eq_mod n 7
  have h2 : (n &&& 0x3f80) >>> 7 = (n >>> 7) &&& 0x7f := by
    apply Nat.eq_of_testBit_eq
    intro i
    have hb : Nat.testBit (0x7f <<< 7) (7 + i) = Nat.testBit 0x7f i := by
      rw [Nat.testBit_shiftLeft]
      simp
    have hm : (0x7f <<< 7 : Nat) = 16256 := by decide
    rw [hm] at hb
    simp [Nat.testBit_shiftRight, Nat.testBit_and, hb]
  have h3 : (n >>> 7) &&& 0x7f = (n >>> 7) % 128 := Nat.and_pow_two_sub_one_eq_mod _ 7
  rw [h1, h2, h3, Nat.shiftRight_eq_div_pow]
  omega

theorem int_bank_recombine (b : Int) (h0 : 0 ≤ b) (h1 : b < 16384) :
    ((Int.land b 0x3f80) >>> 7) * 128 + Int.land b 0x007f = b := by
  obtain ⟨n, rfl⟩ := Int.eq_ofNat_of_zero_le h0
  have hn : n < 16384 := by omega
  have e1 : Int.land (n : Int) 0x3f80 = ((n &&& 0x3f80 : Nat) : Int) := rfl
  have e2 : Int.land (n : Int) 0x007f = ((n &&& 0x7f : Nat) : Int) := rfl
  have e3 : (((n &&& 0x3f80 : Nat) : Int) >>> 7) = (((n &&& 0x3f80) >>> 7 : Nat) : Int) := rfl
  rw [e1, e2, e3]
  exact_mod_cast bank_recombine n hn

/-- C25: for a CONTROLLER event on a track with `midiBank = b`, `enqueue`
sends `(b & 0x3f80) >> 7` for Bank-Select-MSB and `b & 0x7f` for
Bank-Select-LSB when `b ≥ 0` (the two recombine to `b` for
`0 ≤ b < 16384`), and the event's own value for every other controller or
when `b < 0`; for a PGMCHANGE event it sends the track's `midiProgram` when
that is `≥ 0` and the event's own value otherwise. -/
theorem C25_controller_program_override (alsaQueue timeStart : Int) (track : Track)
    (bus : MidiBusOut) (ev : MidiEvent) (iTime : Nat) (fGain : ℚ)
    (hbus : track.outputBus = some bus) :
    ∃ sev rest,
      enqueue alsaQueue timeStart track ev iTime fGain = EnqueueCall.eventOutput sev :: rest
      ∧ (ev.type = EventType.CONTROLLER →
          (track.midiBank ≥ 0 → ev.controller = 0x00 →
            sev.data = SeqData.CONTROLLER track.midiChannel 0x00
              ((Int.land track.midiBank 0x3f80) >>> 7))
          ∧ (track.midiBank ≥ 0 → ev.controller = 0x20 →
            sev.data = SeqData.CONTROLLER track.midiChannel 0x20
              (Int.land track.midiBank 0x007f))
          ∧ (track.midiBank ≥ 0 → ev.controller ≠ 0x00 → ev.controller ≠ 0x20 →
            sev.data = SeqData.CONTROLLER track.midiChannel ev.controller ev.value)
          ∧ (track.midiBank < 0 →
            sev.data = SeqData.CONTROLLER track.midiChannel ev.controller ev.value))
      ∧ (0 ≤ track.midiBank → track.midiBank < 16384 →
          ((Int.land track.midiBank 0x3f80) >>> 7) * 128 + Int.land track.midiBank 0x007f
            = track.midiBank)
      ∧ (ev.type = EventType.PGMCHANGE →
          (track.midiProgram ≥ 0 →
            sev.data = SeqData.PGMCHANGE track.midiChannel track.midiProgram)
          ∧ (track.midiProgram < 0 →
            sev.data = SeqData.PGMCHANGE track.midiChannel ev.value)) := by
  refine ⟨enqueueEvent alsaQueue timeStart track bus ev iTime fGain,
    enqueueNotify track bus ev (enqueueEvent alsaQueue timeStart track bus ev iTime fGain),
    ?_, ?_, ?_, ?_⟩
  · simp only [enqueue, hbus]
  · intro ht
    refine ⟨?_, ?_, ?_, ?_⟩
    · intro hb hc
      simp only [enqueueEvent, enqueueData, ht, hc, BANK_SELECT_MSB, hb, if_true]
    · intro hb hc
      have hne : ¬ ((0x20 : Nat) = 0x00) := by decide
      simp only [enqueueEvent, enqueueData, ht, hc, BANK_SELECT_MSB, BANK_SELECT_LSB, hb,
        hne, if_true, if_false]
    · intro hb h0 h1
      simp only [enqueueEvent, enqueueData, ht, BANK_SELECT_MSB, BANK_SELECT_LSB, hb,
        h0, h1, if_true, if_false]
    · intro hb
      have hnb : ¬ (track.midiBank ≥ 0) := by omega
      simp only [enqueueEvent, enqueueData, ht, hnb, if_false]
  · intro h0 h1
    exact int_bank_recombine _ h0 h1
  · intro ht
    refine ⟨?_, ?_⟩
    · intro hp
      simp only [enqueueEvent, enqueueData, ht, hp, if_true]
    · intro hp
      have hnp : ¬ (track.midiProgram ≥ 0) := by omega
      simp only [enqueueEvent, enqueueData, ht, hnp, if_false]

/-- Witness for C25: a Bank-Select-MSB event on a track with bank `0x0180`
and program 5. -/
theorem C25_controller_program_override_witness :
    ∃ sev rest,
      enqueue 1 0 exampleBankTrack exampleBankEvent 100 1
        = EnqueueCall.eventOutput sev :: rest
      ∧ (exampleBankEvent.type = EventType.CONTROLLER →
          (exampleBankTrack.midiBank ≥ 0 → exampleBankEvent.controller = 0x00 →
            sev.data = SeqData.CONTROLLER exampleBankTrack.midiChannel 0x00
              ((Int.land exampleBankTrack.midiBank 0x3f80) >>> 7))
          ∧ (exampleBankTrack.midiBank ≥ 0 → exampleBankEvent.controller = 0x20 →
            sev.data = SeqData.CONTROLLER exampleBankTrack.midiChannel 0x20
              (Int.land exampleBankTrack.midiBank 0x007f))
          ∧ (exampleBankTrack.midiBank ≥ 0 → exampleBankEvent.controller ≠ 0x00 →
              exampleBankEvent.controller ≠ 0x20 →
            sev.data = SeqData.CONTROLLER exampleBankTrack.midiChannel
              exampleBankEvent.controller exampleBankEvent.value)
          ∧ (exampleBankTrack.midiBank < 0 →
            sev.data = SeqData.CONTROLLER exampleBankTrack.midiChannel
              exampleBankEvent.controller exampleBankEvent.value))
      ∧ (0 ≤ exampleBankTrack.midiBank → exampleBankTrack.midiBank < 16384 →
          ((Int.land exampleBankTrack.midiBank 0x3f80) >>> 7) * 128
              + Int.land exampleBankTrack.midiBank 0x007f
            = exampleBankTrack.midiBank)
      ∧ (exampleBankEvent.type = EventType.PGMCHANGE →
          (exampleBankTrack.midiProgram ≥ 0 →
            sev.data = SeqData.PGMCHANGE exampleBankTrack.midiChannel
              exampleBankTrack.midiProgram)
          ∧ (exampleBankTrack.midiProgram < 0 →
            sev.data = SeqData.PGMCHANGE exampleBankTrack.midiChannel
              exampleBankEvent.value)) :=
  C25_controller_program_override 1 0 exampleBankTrack ⟨0, false, false⟩
    exampleBankEvent 100 1 rfl

/-- With a quantum `q = ticksPerBeat / captureQuantize ≥ 1` and no overflow
of `tick + q / 2`, the quantized tick is a multiple of `q`, lies
within `q / 2` of `tick`, is at least as near to `tick` as any other multiple
of `q`, and an exact tie (`tick` at the midpoint) is rounded up. -/
theorem captureQuantizeTick_nearest (ticksPerBeat captureQuantize tick : Nat)
    (hq : 1 ≤ ticksPerBeat / captureQuantize)
    (hno : tick + ticksPerBeat / captureQuantize / 2 < 2 ^ 64) :
    ∃ r, captureQuantizeTick ticksPerBeat captureQuantize tick = some r
      ∧ (ticksPerBeat / captureQuantize) ∣ r
      ∧ 2 * |(r : Int) - (tick : Int)| ≤ ((ticksPerBeat / captureQuantize : Nat) : Int)
      ∧ (∀ m : Nat, (ticksPerBeat / captureQuantize) ∣ m →
          |(r : Int) - (tick : Int)| ≤ |(m : Int) - (tick : Int)|)
      ∧ (2 * (tick % (ticksPerBeat / captureQuantize)) = ticksPerBeat / captureQuantize →
          r = tick + ticksPerBeat / captureQuantize / 2) := by
  refine ⟨_, captureQuantizeTick_eq ticksPerBeat captureQuantize tick hq hno, ?_, ?_, ?_, ?_⟩
  · exact Dvd.intro _ rfl
  all_goals generalize ticksPerBeat / captureQuantize = q at hq hno ⊢
  · have h1 : q * ((tick + q / 2) / q) ≤ tick + q / 2 := Nat.mul_div_le _ _
    have h2 : tick + q / 2 < q * ((tick + q / 2) / q + 1) :=
      Nat.lt_mul_div_succ _ (by omega)
    rw [Nat.mul_add, Nat.mul_one] at h2
    generalize q * ((tick + q / 2) / q) = R at h1 h2 ⊢
    have hb : |(R : Int) - (tick : Int)| ≤ ((q / 2 : Nat) : Int) := by
      rw [abs_le]
      constructor <;> omega
    omega
  · intro m hm
    obtain ⟨j, rfl⟩ := hm
    have h1 : q * ((tick + q / 2) / q) ≤ tick + q / 2 := Nat.mul_div_le _ _
    have h2 : tick + q / 2 < q * ((tick + q / 2) / q + 1) :=
      Nat.lt_mul_div_succ _ (by omega)
    rw [Nat.mul_add, Nat.mul_one] at h2
    generalize hk : (tick + q / 2) / q = k at h1 h2 ⊢
    have hb : |((q * k : Nat) : Int) - (tick : Int)| ≤ ((q / 2 : Nat) : Int) := by
      rw [abs_le]
      constructor <;> omega
    rcases Nat.lt_trichotomy j k with hjk | hjk | hjk
    · have h3 : q * (j + 1) ≤ q * k := Nat.mul_le_mul_left q hjk
      rw [Nat.mul_add, Nat.mul_one] at h3
      refine le_trans hb (le_abs.mpr (Or.inr ?_))
      omega
    · rw [hjk]
    · have h3 : q * (k + 1) ≤ q * j := Nat.mul_le_mul_left q hjk
      rw [Nat.mul_add, Nat.mul_one] at h3
      refine le_trans hb (le_abs.mpr (Or.inl ?_))
      omega
  · intro htie
    have hdm : q * (tick / q) + tick % q = tick := Nat.div_add_mod tick q
    have hsum : tick + q / 2 = q * (tick / q + 1) := by
      rw [Nat.mul_add, Nat.mul_one]
      omega
    rw [hsum, Nat.mul_div_cancel_left _ (by omega : 0 < q)]

/-- C28 fails: `capture` only checks `m_iCaptureQuantize > 0`, and
`setCaptureQuantize` stores any value.  With 96 ticks per beat and a capture
quantization of 192 the quantum `96 / 192` is 0, and the quantization
divides by it: no tick results, whatever the event tick. -/
theorem C28_capture_quantum_zero :
    (1 ≤ 96 ∧ 192 > 0 ∧ 96 / 192 = 0)
      ∧ ∀ tick, captureQuantizeTick 96 192 tick = none := by
  refine ⟨by decide, ?_⟩
  intro tick
  rfl

theorem loopSplit_nocross (ls le fuel s0 e0 : Nat) (h : e0 < le) :
    loopSplit ls le fuel s0 e0 = some (s0, e0, []) := by
  have hn : ¬ (e0 ≥ le) := by omega
  cases fuel <;> simp only [loopSplit, hn, if_false]

theorem loopSplit_cross (ls le : Nat) (hl : ls < le) (f s0 e0 : Nat)
    (hge : le ≤ e0) (hb : e0 < 2 ^ 64) (hf : (e0 - le) / (le - ls) ≤ f) :
    loopSplit ls le (f + 1) s0 e0
      = some (ls, ls + (e0 - le) % (le - ls),
          [OutputCall.processMetro s0 le, OutputCall.sessionProcess s0 le,
           OutputCall.cursorSeek ls, OutputCall.restartLoop]
          ++ (List.replicate ((e0 - le) / (le - ls))
              [OutputCall.processMetro ls le, OutputCall.sessionProcess ls le,
               OutputCall.cursorSeek ls, OutputCall.restartLoop]).flatten) := by
  have hnext : (ls + (e0 - le)) % 2 ^ 64 = ls + (e0 - le) := Nat.mod_eq_of_lt (by omega)
  have hrec := loopSplit_from_loopStart ls le hl f (e0 - le) hf (by omega)
  have hge2 : e0 ≥ le := hge
  simp only [loopSplit, hge2, if_true, hnext, hrec]

theorem count_restartLoop_blocks (k ls le : Nat) :
    (List.replicate k
      [OutputCall.processMetro ls le, OutputCall.sessionProcess ls le,
       OutputCall.cursorSeek ls, OutputCall.restartLoop]).flatten.count
        OutputCall.restartLoop = k := by
  induction k with
  | zero => simp
  | succ k ih =>
    rw [List.replicate_succ, List.flatten_cons, List.count_append, ih]
    simp [List.count_cons]
    omega

/-- C30: in a looping session with `loopStart < loopEnd`, for every
read-ahead and every window start below `loopEnd`, the loop-split loop of
`process` ends (any fuel above the read-ahead is enough), each of its
iterations lowering the window end by `loopEnd - loopStart`; it ends with
the window end below `loopEnd`, so the later loop-boundary adjustment does
not fire and the cursor is left at that window end, below `loopEnd`. -/
theorem C30_loop_split_terminates (fuel : Nat) (session : Session)
    (a m : SessionCursor) (readAhead driftCheck : Nat)
    (hloop : session.isLooping = true)
    (hl : session.loopStart < session.loopEnd)
    (hle : session.loopEnd < 2 ^ 64)
    (hra : readAhead < 2 ^ 32)
    (hsync : ¬ (m.frameTime > (a.frameTime + readAhead) % 2 ^ 64))
    (hstart : m.frame < session.loopEnd)
    (hfuel : readAhead < fuel) :
    ∃ fStart fEnd calls res,
      loopSplit session.loopStart session.loopEnd fuel m.frame
          ((m.frame + readAhead) % 2 ^ 64) = some (fStart, fEnd, calls)
      ∧ fEnd < session.loopEnd
      ∧ fEnd + calls.count OutputCall.restartLoop * (session.loopEnd - session.loopStart)
          = (m.frame + readAhead) % 2 ^ 64
      ∧ process fuel session true (some a) (some m) readAhead driftCheck = some res
      ∧ res.midiCursor = some ⟨fEnd, (m.frameTime + readAhead) % 2 ^ 64⟩
      ∧ OutputCall.cursorSeek fEnd ∈ res.calls := by
  by_cases hcross : session.loopEnd ≤ (m.frame + readAhead) % 2 ^ 64
  · have hno : m.frame + readAhead < 2 ^ 64 := by
      by_contra hov
      have : (m.frame + readAhead) % 2 ^ 64 = m.frame + readAhead - 2 ^ 64 := by
        rw [Nat.mod_eq_sub_mod (by omega), Nat.mod_eq_of_lt (by omega)]
      omega
    have hEnd : (m.frame + readAhead) % 2 ^ 64 = m.frame + readAhead :=
      Nat.mod_eq_of_lt hno
    rw [hEnd] at hcross ⊢
    obtain ⟨f, rfl⟩ : ∃ f, fuel = f + 1 := ⟨fuel - 1, by omega⟩
    have hdivle : (m.frame + readAhead - session.loopEnd)
        / (session.loopEnd - session.loopStart) ≤ f :=
      le_trans (Nat.div_le_self _ _) (by omega)
    have hmodlt : (m.frame + readAhead - session.loopEnd)
        % (session.loopEnd - session.loopStart)
        < session.loopEnd - session.loopStart := Nat.mod_lt _ (by omega)
    refine ⟨_, _, _, _,
      loopSplit_cross session.loopStart session.loopEnd hl f m.frame _ hcross hno hdivle,
      by omega, ?_,
      process_looping (f + 1) session a m readAhead driftCheck hloop hl hsync hstart
        hcross hno hfuel, rfl, ?_⟩
    · rw [List.count_append, count_restartLoop_blocks]
      have hc : [OutputCall.processMetro m.frame session.loopEnd,
          OutputCall.sessionProcess m.frame session.loopEnd,
          OutputCall.cursorSeek session.loopStart,
          OutputCall.restartLoop].count OutputCall.restartLoop = 1 := by
        simp [List.count_cons]
      rw [hc]
      have hdm := Nat.div_add_mod (m.frame + readAhead - session.loopEnd)
        (session.loopEnd - session.loopStart)
      rw [Nat.add_mul, Nat.one_mul, Nat.mul_comm]
      omega
    · simp
  · have hlt : (m.frame + readAhead) % 2 ^ 64 < session.loopEnd := by omega
    have hnge : ¬ ((m.frame + readAhead) % 2 ^ 64 ≥ session.loopEnd) := by omega
    refine ⟨m.frame, (m.frame + readAhead) % 2 ^ 64, [],
      { midiCursor := some ⟨(m.frame + readAhead) % 2 ^ 64,
          (m.frameTime + readAhead) % 2 ^ 64⟩
        driftCheck :=
          if (driftCheck + 1) % 2 ^ 32 > 8 then 0 else (driftCheck + 1) % 2 ^ 32
        calls := [] ++ [OutputCall.processMetro m.frame ((m.frame + readAhead) % 2 ^ 64),
            OutputCall.sessionProcess m.frame ((m.frame + readAhead) % 2 ^ 64),
            OutputCall.cursorSeek ((m.frame + readAhead) % 2 ^ 64),
            OutputCall.cursorProcess readAhead,
            OutputCall.flush]
          ++ (if (driftCheck + 1) % 2 ^ 32 > 8 then [OutputCall.drift] else []) },
      loopSplit_nocross _ _ fuel m.frame _ hlt, hlt, by simp, ?_, rfl, ?_⟩
    · simp only [process, midiCursorSync, hsync, hloop, hstart,
        loopSplit_nocross _ _ fuel m.frame _ hlt, hnge,
        SessionCursor.seek, SessionCursor.process,
        Bool.not_true, Bool.false_eq_true, if_false, if_true, decide_True, decide_False,
        Bool.and_true, Bool.and_false, Bool.true_and]
    · simp

/-- Witness for C30: the loop scenario with the cursor 2000 frames before the
loop end and a read-ahead of 100000 frames (more than two loop lengths). -/
theorem C30_loop_split_terminates_witness :
    ∃ fStart fEnd calls res,
      loopSplit loopScenario.loopStart loopScenario.loopEnd 100001
          (⟨142000, 0⟩ : SessionCursor).frame
          (((⟨142000, 0⟩ : SessionCursor).frame + 100000) % 2 ^ 64)
        = some (fStart, fEnd, calls)
      ∧ fEnd < loopScenario.loopEnd
      ∧ fEnd + calls.count OutputCall.restartLoop
            * (loopScenario.loopEnd - loopScenario.loopStart)
          = ((⟨142000, 0⟩ : SessionCursor).frame + 100000) % 2 ^ 64
      ∧ process 100001 loopScenario true (some ⟨142000, 0⟩) (some ⟨142000, 0⟩) 100000 0
          = some res
      ∧ res.midiCursor
          = some ⟨fEnd, ((⟨142000, 0⟩ : SessionCursor).frameTime + 100000) % 2 ^ 64⟩
      ∧ OutputCall.cursorSeek fEnd ∈ res.calls :=
  C30_loop_split_terminates 100001 loopScenario ⟨142000, 0⟩ ⟨142000, 0⟩ 100000 0
    rfl (by decide) (by decide) (by decide) (by decide) (by decide) (by decide)

/-- C24 fails: the SSE dry/wet processor is not equivalent to the scalar one.
On one channel of five frames in a 16-byte aligned output buffer, with input
samples 1, output samples 1 and gain 2, the scalar processor leaves
`out + gain * in = 3` in every frame, while the SSE processor leaves 3 in the
four vector frames and `gain * in = 2` in the trailing frame; in an output
buffer at an address that is 12 modulo 16 the leading frame is left at 2 as
well. -/
theorem C24_sse_dry_wet_differs_from_std :
    (List.range 5).map
        (std_process_dry_wet (fun _ _ => (1 : ℚ)) (fun _ _ => 1) 5 1 2 0)
      = [3, 3, 3, 3, 3]
    ∧ (List.range 5).map
        (sse_process_dry_wet (fun _ _ => (1 : ℚ)) (fun _ _ => 1) (fun _ => 0) 5 1 2 0)
      = [3, 3, 3, 3, 2]
    ∧ (List.range 5).map
        (sse_process_dry_wet (fun _ _ => (1 : ℚ)) (fun _ _ => 1) (fun _ => 12) 5 1 2 0)
      = [2, 3, 3, 3, 3] := by
  have h12 : 12 &&& 15 = 12 := by decide
  have h16 : 16 &&& 15 = 0 := by decide
  refine ⟨?_, ?_, ?_⟩
  · unfold std_process_dry_wet
    simp [scalarLoop, List.range_succ, Function.update]
    norm_num
  · unfold sse_process_dry_wet
    simp [sseLoops, alignLoop, vectorLoop, scalarLoop, List.range_succ, Function.update]
    norm_num
  · unfold sse_process_dry_wet
    simp [sseLoops, alignLoop, vectorLoop, scalarLoop, List.range_succ, Function.update,
      h12, h16]
    norm_num

theorem directEvents_append (xs ys : List BusCall) :
    directEvents (xs ++ ys) = directEvents xs ++ directEvents ys := by
  induction xs with
  | nil => rfl
  | cons c rest ih => cases c <;> simp [directEvents, ih]

theorem directEvents_busDirect (bus : MidiBus) (b : Bool) (d : SeqData) :
    directEvents (busDirect bus b d) = [d] := by
  unfold busDirect
  cases b <;> cases bus.hasMidiManagerOut <;> rfl

theorem directEvents_flatMap {α : Type} (l : List α) (f : α → List BusCall) :
    directEvents (l.flatMap f) = l.flatMap (fun x => directEvents (f x)) := by
  induction l with
  | nil => rfl
  | cons x rest ih => simp [List.flatMap_cons, directEvents_append, ih]

theorem directEvents_setControllerEx (bus : MidiBus) (iChannel : Nat)
    (iController iValue : Int) (pTrack : Option Track)
    (he : bus.hasEngine = true) (hs : bus.hasAlsaSeq = true) :
    directEvents (bus.setControllerEx iChannel iController iValue pTrack)
      = [SeqData.CONTROLLER (iChannel % 256) (iController % 2 ^ 32).toNat iValue] := by
  simp only [MidiBus.setControllerEx, he, hs, Bool.not_true, Bool.false_eq_true, if_false,
    directEvents_busDirect]

/-- C16: on an opened engine, for every channel, program `≥ 0`, bank `≥ 0`
and bank-select method, `setPatch` hands to `snd_seq_event_output_direct`, in
this order: Bank-Select-MSB (controller 0) when the method is 0 (MSB+LSB) or
1 (MSB only), Bank-Select-LSB (controller 32) when the method is 0 or 2 (LSB
only), then the Program Change; with method 0 the values are
`(bank & 0x3f80) >> 7` and `bank & 0x7f`.  Nothing sent before enters: after
`setController(3, BANK_SELECT_MSB, 1)`, `setPatch(3, bank 0x0180, program 5,
method 0)` sends controller 0 = 3, controller 32 = 0, program 5. -/
theorem C16_setPatch_bank_program (bus : MidiBus) (iChannel : Nat) (sInstrumentName : String)
    (iBankSelMethod iBank iProg : Int) (pTrack : Option Track)
    (he : bus.hasEngine = true) (hs : bus.hasAlsaSeq = true)
    (hp : 0 ≤ iProg) (hb : 0 ≤ iBank) :
    directEvents (bus.setPatch iChannel sInstrumentName iBankSelMethod iBank iProg pTrack).2
        = (if iBankSelMethod = 0 ∨ iBankSelMethod = 1 then
            [SeqData.CONTROLLER (iChannel % 256) 0x00
              (if iBankSelMethod = 0 then (Int.land iBank 0x3f80) >>> 7
                else Int.land iBank 0x007f)]
            else [])
          ++ (if iBankSelMethod = 0 ∨ iBankSelMethod = 2 then
            [SeqData.CONTROLLER (iChannel % 256) 0x20 (Int.land iBank 0x007f)]
            else [])
          ++ [SeqData.PGMCHANGE (iChannel % 256) iProg]
      ∧ (iBankSelMethod = 0 →
          directEvents
              (bus.setPatch iChannel sInstrumentName iBankSelMethod iBank iProg pTrack).2
            = [SeqData.CONTROLLER (iChannel % 256) 0x00 ((Int.land iBank 0x3f80) >>> 7),
               SeqData.CONTROLLER (iChannel % 256) 0x20 (Int.land iBank 0x007f),
               SeqData.PGMCHANGE (iChannel % 256) iProg])
      ∧ directEvents (bus.setController 3 BANK_SELECT_MSB 1
            ++ (bus.setPatch 3 sInstrumentName 0 0x0180 5 pTrack).2)
          = [SeqData.CONTROLLER 3 0x00 1, SeqData.CONTROLLER 3 0x00 3,
             SeqData.CONTROLLER 3 0x20 0, SeqData.PGMCHANGE 3 5] := by
  have hnp : ¬ (iProg < 0) := by omega
  have hgen : ∀ (ch : Nat) (m b p : Int), 0 ≤ p → 0 ≤ b →
      directEvents (bus.setPatch ch sInstrumentName m b p pTrack).2
        = (if m = 0 ∨ m = 1 then
            [SeqData.CONTROLLER (ch % 256) 0x00
              (if m = 0 then (Int.land b 0x3f80) >>> 7 else Int.land b 0x007f)]
            else [])
          ++ (if m = 0 ∨ m = 2 then
            [SeqData.CONTROLLER (ch % 256) 0x20 (Int.land b 0x007f)]
            else [])
          ++ [SeqData.PGMCHANGE (ch % 256) p] := by
    intro ch m b p hp0 hb0
    have hnp0 : ¬ (p < 0) := by omega
    have hb1 : b ≥ 0 := hb0
    simp only [MidiBus.setPatch, hnp0, he, hs, Bool.not_true, Bool.false_eq_true, if_false,
      hb1, true_and, directEvents_append, BANK_SELECT_MSB, BANK_SELECT_LSB]
    rw [directEvents_busDirect]
    by_cases h01 : m = 0 ∨ m = 1 <;> by_cases h02 : m = 0 ∨ m = 2 <;>
      simp only [h01, h02, if_true, if_false, directEvents_busDirect] <;> rfl
  refine ⟨hgen iChannel iBankSelMethod iBank iProg hp hb, ?_, ?_⟩
  · intro hm
    rw [hgen iChannel iBankSelMethod iBank iProg hp hb, hm]
    simp
  · rw [directEvents_append, hgen 3 0 0x0180 5 (by decide) (by decide)]
    simp only [MidiBus.setController, directEvents_setControllerEx bus 3 _ 1 none he hs,
      BANK_SELECT_MSB]
    decide

/-- Witness for C16: the example bus, channel 3, bank `0x0180`, program 5,
method 0. -/
theorem C16_setPatch_bank_program_witness :
    directEvents (exampleBus.setPatch 3 "" 0 0x0180 5 none).2
        = (if (0 : Int) = 0 ∨ (0 : Int) = 1 then
            [SeqData.CONTROLLER (3 % 256) 0x00
              (if (0 : Int) = 0 then (Int.land 0x0180 0x3f80) >>> 7
                else Int.land 0x0180 0x007f)]
            else [])
          ++ (if (0 : Int) = 0 ∨ (0 : Int) = 2 then
            [SeqData.CONTROLLER (3 % 256) 0x20 (Int.land 0x0180 0x007f)]
            else [])
          ++ [SeqData.PGMCHANGE (3 % 256) 5]
      ∧ ((0 : Int) = 0 →
          directEvents (exampleBus.setPatch 3 "" 0 0x0180 5 none).2
            = [SeqData.CONTROLLER (3 % 256) 0x00 ((Int.land 0x0180 0x3f80) >>> 7),
               SeqData.CONTROLLER (3 % 256) 0x20 (Int.land 0x0180 0x007f),
               SeqData.PGMCHANGE (3 % 256) 5])
      ∧ directEvents (exampleBus.setController 3 BANK_SELECT_MSB 1
            ++ (exampleBus.setPatch 3 "" 0 0x0180 5 none).2)
          = [SeqData.CONTROLLER 3 0x00 1, SeqData.CONTROLLER 3 0x00 3,
             SeqData.CONTROLLER 3 0x20 0, SeqData.PGMCHANGE 3 5] :=
  C16_setPatch_bank_program exampleBus 3 "" 0 0x0180 5 none rfl rfl (by decide) (by decide)

/-- C22: on an opened bus, `close` sends, for each channel of the patch map
in turn and for no other, the controllers All-Sound-Off (0x78), All-Notes-Off
(0x7b) and All-Controllers-Off (0x79), in that order, then deletes the port;
`shutOff(false)` sends only the first two per channel.  `shutOff` is a
`const` method that changes no bus state, and `close` leaves the patch map as
it was, so the sweep made twice sends the same events twice. -/
theorem C22_shutOff_sweep (bus : MidiBus)
    (he : bus.hasEngine = true) (hs : bus.hasAlsaSeq = true) :
    directEvents bus.close.2
        = bus.patches.flatMap (fun entry =>
            [SeqData.CONTROLLER (entry.1 % 256) 0x78 0,
             SeqData.CONTROLLER (entry.1 % 256) 0x7b 0,
             SeqData.CONTROLLER (entry.1 % 256) 0x79 0])
      ∧ directEvents (bus.shutOff false)
        = bus.patches.flatMap (fun entry =>
            [SeqData.CONTROLLER (entry.1 % 256) 0x78 0,
             SeqData.CONTROLLER (entry.1 % 256) 0x7b 0])
      ∧ bus.close.1.patches = bus.patches
      ∧ directEvents (bus.shutOff false ++ bus.shutOff false)
        = directEvents (bus.shutOff false) ++ directEvents (bus.shutOff false) := by
  have h78 : (((ALL_SOUND_OFF : Nat) : Int) % 2 ^ 32).toNat = 0x78 := by decide
  have h7b : (((ALL_NOTES_OFF : Nat) : Int) % 2 ^ 32).toNat = 0x7b := by decide
  have h79 : (((ALL_CONTROLLERS_OFF : Nat) : Int) % 2 ^ 32).toNat = 0x79 := by decide
  refine ⟨?_, ?_, ?_, ?_⟩
  · simp only [MidiBus.close, MidiBus.shutOff, he, hs, Bool.not_true, Bool.false_eq_true,
      if_false, if_true, directEvents_append, directEvents_flatMap,
      directEvents_setControllerEx bus _ _ _ none he hs, h78, h7b, h79, directEvents,
      List.append_nil, List.singleton_append]
    rfl
  · simp only [MidiBus.shutOff, he, hs, Bool.not_true, Bool.false_eq_true,
      if_false, directEvents_append, directEvents_flatMap,
      directEvents_setControllerEx bus _ _ _ none he hs, h78, h7b, directEvents,
      List.append_nil, List.singleton_append]
  · simp only [MidiBus.close, he, hs, Bool.not_true, Bool.false_eq_true, if_false]
  · exact directEvents_append _ _

/-- Witness for C22: the example bus with patches on channels 0 and 9. -/
theorem C22_shutOff_sweep_witness :
    directEvents exampleBus.close.2
        = exampleBus.patches.flatMap (fun entry =>
            [SeqData.CONTROLLER (entry.1 % 256) 0x78 0,
             SeqData.CONTROLLER (entry.1 % 256) 0x7b 0,
             SeqData.CONTROLLER (entry.1 % 256) 0x79 0])
      ∧ directEvents (exampleBus.shutOff false)
        = exampleBus.patches.flatMap (fun entry =>
            [SeqData.CONTROLLER (entry.1 % 256) 0x78 0,
             SeqData.CONTROLLER (entry.1 % 256) 0x7b 0])
      ∧ exampleBus.close.1.patches = exampleBus.patches
      ∧ directEvents (exampleBus.shutOff false ++ exampleBus.shutOff false)
        = directEvents (exampleBus.shutOff false)
          ++ directEvents (exampleBus.shutOff false) :=
  C22_shutOff_sweep exampleBus rfl rfl

theorem captureQuantizeTick_some (ticksPerBeat captureQuantize tick : Nat)
    (h : captureQuantize ≤ ticksPerBeat) :
    ∃ t, captureQuantizeTick ticksPerBeat captureQuantize tick = some t := by
  unfold captureQuantizeTick
  by_cases hc : captureQuantize > 0
  · have hq : ¬ (ticksPerBeat / captureQuantize = 0) := by
      have : 1 ≤ ticksPerBeat / captureQuantize := (Nat.one_le_div_iff hc).mpr h
      omega
    simp only [hc, if_true, hq, if_false]
    exact ⟨_, rfl⟩
  · simp only [hc, if_false]
    exact ⟨_, rfl⟩

/-- A `capture` call whose `switch` is left by `return`. -/
theorem capture_of_return (eng : CaptureEngine) (ev : CaptureEvent) (now : Nat)
    (hs : eng.hasSession = true) (hq : eng.captureQuantize ≤ eng.ticksPerBeat)
    (hret : (captureClassify eng ev now).captured = none) :
    capture eng ev now
      = some ⟨(captureClassify eng ev now).engine, (captureClassify eng ev now).calls,
          (captureClassify eng ev now).sysexReads⟩ := by
  obtain ⟨t, ht⟩ := captureQuantizeTick_some eng.ticksPerBeat eng.captureQuantize ev.tick hq
  simp only [capture, hs, Bool.not_true, Bool.false_eq_true, if_false, ht, hret]

/-- C15 (counterexample): the engine as constructed has no notify object;
the SysEx `F0 7F 7F 06 02 F7` arriving on its control-input port, with MMC
input enabled, is trapped but no MMC notification is posted. -/
theorem C15_mmc_without_notify_counterexample :
    exampleCaptureEngine.mmcMode.hasInput = true
      ∧ onControlPort exampleCaptureEngine mmcPlayEvent.destPort = true
      ∧ mmcPlayEvent.extMem 1 = 0x7f ∧ mmcPlayEvent.extMem 3 = 0x06
      ∧ (capture exampleCaptureEngine mmcPlayEvent 0).map (fun r => r.calls) = some [] := by
  refine ⟨by decide, by decide, by decide, by decide, ?_⟩
  rw [capture_of_return _ _ _ rfl (by decide) (by decide)]
  decide

/-- C15 (amended): with a session, MMC input enabled and a valid capture
quantization, a SysEx arriving on the control-input bus port whose bytes 1
and 3 are `0x7f` and `0x06` makes `capture` post exactly one MMC
notification carrying the payload when a notify object is registered, and
none otherwise; in both cases it returns without appending to a record
buffer, updating a monitor or sending MIDI-thru output, and leaves the
engine as it was. -/
theorem C15_mmc_sysex_trapped (eng : CaptureEngine) (ev : CaptureEvent) (now : Nat)
    (hs : eng.hasSession = true) (hq : eng.captureQuantize ≤ eng.ticksPerBeat)
    (hmmc : eng.mmcMode.hasInput = true)
    (hport : onControlPort eng ev.destPort = true)
    (htype : ev.type = SeqEventType.SYSEX)
    (h1 : ev.extMem 1 = 0x7f) (h3 : ev.extMem 3 = 0x06) :
    ∃ r, capture eng ev now = some r
      ∧ r.calls
        = (if eng.hasNotifyObject then [CaptureCall.postMmc (sysexBytes ev ev.extLen)]
            else [])
      ∧ (∀ c ∈ r.calls, c.isForward = false)
      ∧ r.engine = eng := by
  have hn1 : ¬ (ev.extMem 1 ≠ 0x7f) := by
    rw [h1]
    exact fun h => h rfl
  have hcl : captureClassify eng ev now
      = ⟨eng, if eng.hasNotifyObject then [CaptureCall.postMmc (sysexBytes ev ev.extLen)]
          else [], [1, 3], none⟩ := by
    simp only [captureClassify, htype, hmmc, Bool.not_true, Bool.false_eq_true, if_false,
      hn1, h3, hport, and_self, if_true]
  refine ⟨_, capture_of_return eng ev now hs hq (by rw [hcl]), ?_, ?_, ?_⟩
  · rw [hcl]
  · rw [hcl]
    intro c hc
    cases hno : eng.hasNotifyObject
    · rw [hno] at hc
      simp at hc
    · rw [hno] at hc
      simp only [if_true, List.mem_singleton] at hc
      rw [hc]
      rfl
  · rw [hcl]

/-- Witness for C15: the MMC PLAY SysEx on the engine with a notify object
registered. -/
theorem C15_mmc_sysex_trapped_witness :
    ∃ r, capture exampleNotifyEngine mmcPlayEvent 0 = some r
      ∧ r.calls
        = (if exampleNotifyEngine.hasNotifyObject then
            [CaptureCall.postMmc (sysexBytes mmcPlayEvent mmcPlayEvent.extLen)]
            else [])
      ∧ (∀ c ∈ r.calls, c.isForward = false)
      ∧ r.engine = exampleNotifyEngine :=
  C15_mmc_sysex_trapped exampleNotifyEngine mmcPlayEvent 0 rfl (by decide) (by decide)
    (by decide) rfl (by decide) (by decide)

/-- C17 (counterexample): controller 7 with value 200 arrives on the
control-input port, on the port and channel of a track that is armed and
recording.  `capture` makes no call at all: the event is not appended to the
record buffer and no monitor is updated.  The same event with value 100 is
posted, appended and monitored. -/
theorem C17_wide_controller_dropped_counterexample :
    (exampleCaptureTrack.isMidi = true ∧ exampleCaptureTrack.isRecord = true
        ∧ exampleCaptureTrack.inputBusPort = some wideControllerEvent.destPort
        ∧ exampleCaptureTrack.acceptsChannel wideControllerEvent.channel = true
        ∧ exampleNotifyEngine.isRecording = true ∧ exampleNotifyEngine.isPlaying = true)
      ∧ (capture exampleNotifyEngine wideControllerEvent 0).map (fun r => r.calls)
          = some []
      ∧ (capture exampleNotifyEngine { wideControllerEvent with value := 100 } 0).map
            (fun r => r.calls)
          = some [CaptureCall.postControl 0 7 100,
              CaptureCall.addEvent 0 480 EventType.CONTROLLER 7 100 0 none,
              CaptureCall.trackMonitorEnqueue 0 EventType.CONTROLLER 100,
              CaptureCall.monitorInEnqueue 1 EventType.CONTROLLER 100] := by
  refine ⟨by decide, ?_, ?_⟩
  · rw [capture_of_return _ _ _ rfl (by decide) (by decide)]
    decide
  · decide

/-- C17 (amended): with a session and a valid capture quantization, a
CONTROLLER event arriving on the control-input bus port whose controller
number or value, as stored in an `unsigned char`, exceeds `0x7f` makes
`capture` return at once: no Controller notification is posted, nothing is
appended to a record buffer, no monitor is updated, and the engine is left
as it was. -/
theorem C17_wide_controller_dropped (eng : CaptureEngine) (ev : CaptureEvent) (now : Nat)
    (hs : eng.hasSession = true) (hq : eng.captureQuantize ≤ eng.ticksPerBeat)
    (hport : onControlPort eng ev.destPort = true)
    (htype : ev.type = SeqEventType.CONTROLLER)
    (hwide : ev.param % 256 > 0x7f ∨ intToUChar ev.value > 0x7f) :
    ∃ r, capture eng ev now = some r ∧ r.calls = [] ∧ r.engine = eng := by
  have hcl : captureClassify eng ev now = ⟨eng, [], [], none⟩ := by
    simp only [captureClassify, htype, hport, if_true, hwide]
  exact ⟨_, capture_of_return eng ev now hs hq (by rw [hcl]), by rw [hcl], by rw [hcl]⟩

/-- Witness for C17: controller 7 with value 200 on the control-input port. -/
theorem C17_wide_controller_dropped_witness :
    ∃ r, capture exampleNotifyEngine wideControllerEvent 0 = some r
      ∧ r.calls = [] ∧ r.engine = exampleNotifyEngine :=
  C17_wide_controller_dropped exampleNotifyEngine wideControllerEvent 0 rfl (by decide)
    (by decide) rfl (by decide)

/-- C29 fails: the MMC test of `capture` reads `pSysex[1]` (and `pSysex[3]`
after a match) without looking at `ext.len`.  For a SysEx whose payload is
the single byte `F0`, with MMC input enabled, it reads the byte at index 1,
past the one-byte payload; for an empty payload likewise. -/
theorem C29_sysex_read_past_payload :
    exampleNotifyEngine.mmcMode.hasInput = true
      ∧ shortSysexEvent.extLen = 1
      ∧ (capture exampleNotifyEngine shortSysexEvent 0).map (fun r => r.sysexReads)
          = some [1]
      ∧ (blankEvent SeqEventType.SYSEX).extLen = 0
      ∧ (capture exampleNotifyEngine (blankEvent SeqEventType.SYSEX) 0).map
            (fun r => r.sysexReads)
          = some [1] := by
  decide

theorem capture_clock (eng : CaptureEngine) (ev : CaptureEvent) (now : Nat)
    (hr : ClockReady eng ev.destPort) (ht : ev.type = SeqEventType.CLOCK) :
    capture eng ev now
      = some ⟨(captureClock eng ev.destPort now).1, (captureClock eng ev.destPort now).2,
          []⟩ := by
  have hret : (captureClassify eng ev now).captured = none := by
    simp only [captureClassify, ht]
  rw [capture_of_return eng ev now hr.1 hr.2.1 hret]
  simp only [captureClassify, ht]

theorem captureClock_first (eng : CaptureEngine) (port : Int) (now : Nat)
    (hr : ClockReady eng port) (h0 : eng.clockCount = 0) :
    captureClock eng port now
      = ({ eng with clockCount := 1, clockTimeStart := now }, []) := by
  simp only [captureClock, hr.2.2.1, hr.2.2.2, Bool.and_self, if_true, h0]

theorem captureClock_mid (eng : CaptureEngine) (port : Int) (now : Nat)
    (hr : ClockReady eng port) (h1 : 1 ≤ eng.clockCount) (h2 : eng.clockCount < 72) :
    captureClock eng port now = ({ eng with clockCount := eng.clockCount + 1 }, []) := by
  have hne : ¬ (eng.clockCount + 1 = 1) := by omega
  have hle : ¬ (eng.clockCount + 1 > 72) := by omega
  simp only [captureClock, hr.2.2.1, hr.2.2.2, Bool.and_self, if_true, hne, hle, if_false]

theorem captureClock_last (eng : CaptureEngine) (port : Int) (now : Nat)
    (hr : ClockReady eng port) (h1 : 72 ≤ eng.clockCount) :
    captureClock eng port now
      = if clockDiffers
            ((truncInt (180000 / (((now : Int) - (eng.clockTimeStart : Int) : Int) : ℚ))
              : Int) : ℚ) eng.clockTempo then
          ({ eng with
              clockCount := 0
              clockTempo := ((truncInt (180000
                / (((now : Int) - (eng.clockTimeStart : Int) : Int) : ℚ)) : Int) : ℚ) },
            if eng.hasNotifyObject then
              [CaptureCall.postClock ((truncInt (180000
                / (((now : Int) - (eng.clockTimeStart : Int) : Int) : ℚ)) : Int) : ℚ)]
            else [])
        else ({ eng with clockCount := 0 }, []) := by
  have hne : ¬ (eng.clockCount + 1 = 1) := by omega
  have hgt : eng.clockCount + 1 > 72 := by omega
  simp only [captureClock, hr.2.2.1, hr.2.2.2, Bool.and_self, if_true, hne, hgt, if_false]

theorem captureAll_cons (eng : CaptureEngine) (ev : CaptureEvent) (now : Nat)
    (rest : List (CaptureEvent × Nat)) :
    captureAll eng ((ev, now) :: rest)
      = match capture eng ev now with
        | none => none
        | some r =>
          match captureAll r.engine rest with
          | none => none
          | some (e, calls) => some (e, r.calls ++ calls) := rfl

theorem captureAll_append (xs ys : List (CaptureEvent × Nat)) :
    ∀ (eng e1 e2 : CaptureEngine) (c1 c2 : List CaptureCall),
      captureAll eng xs = some (e1, c1) → captureAll e1 ys = some (e2, c2) →
      captureAll eng (xs ++ ys) = some (e2, c1 ++ c2) := by
  induction xs with
  | nil =>
    intro eng e1 e2 c1 c2 h1 h2
    simp only [captureAll, Option.some.injEq, Prod.mk.injEq] at h1
    obtain ⟨rfl, rfl⟩ := h1
    simpa using h2
  | cons x rest ih =>
    intro eng e1 e2 c1 c2 h1 h2
    obtain ⟨ev, now⟩ := x
    rw [List.cons_append, captureAll_cons]
    rw [captureAll_cons] at h1
    cases hc : capture eng ev now with
    | none => simp [hc] at h1
    | some r =>
      simp only [hc] at h1 ⊢
      cases hr : captureAll r.engine rest with
      | none => simp [hr] at h1
      | some p =>
        obtain ⟨e, calls⟩ := p
        simp only [hr, Option.some.injEq, Prod.mk.injEq] at h1
        obtain ⟨rfl, rfl⟩ := h1
        rw [ih r.engine e e2 calls c2 hr h2]
        simp only [List.append_assoc]

theorem captureAll_clock_mid (ev : CaptureEvent) (ht : ev.type = SeqEventType.CLOCK) :
    ∀ (times : List Nat) (eng : CaptureEngine), ClockReady eng ev.destPort →
      1 ≤ eng.clockCount → eng.clockCount + times.length ≤ 72 →
      captureAll eng (times.map (fun t => (ev, t)))
        = some ({ eng with clockCount := eng.clockCount + times.length }, []) := by
  intro times
  induction times with
  | nil =>
    intro eng _ _ _
    rfl
  | cons t rest ih =>
    intro eng hr h1 h2
    simp only [List.length_cons] at h2
    have hr2 : ClockReady { eng with clockCount := eng.clockCount + 1 } ev.destPort := hr
    simp only [List.map_cons, captureAll_cons, capture_clock eng ev t hr ht,
      captureClock_mid eng ev.destPort t hr h1 (by omega),
      ih { eng with clockCount := eng.clockCount + 1 } hr2 (by simp) (by simpa using by omega),
      List.append_nil, List.length_cons]
    have : eng.clockCount + 1 + rest.length = eng.clockCount + (rest.length + 1) := by omega
    rw [this]

theorem captureAll_clock_group (eng : CaptureEngine) (ev : CaptureEvent) (t1 t73 : Nat)
    (mids : List Nat) (hr : ClockReady eng ev.destPort)
    (ht : ev.type = SeqEventType.CLOCK) (h0 : eng.clockCount = 0)
    (hlen : mids.length = 71) :
    captureAll eng ((ev, t1) :: mids.map (fun t => (ev, t)))
        = some ({ eng with clockCount := 72, clockTimeStart := t1 }, [])
      ∧ captureAll eng (((ev, t1) :: mids.map (fun t => (ev, t))) ++ [(ev, t73)])
        = some
          ((captureClock { eng with clockCount := 72, clockTimeStart := t1 }
              ev.destPort t73).1,
           (captureClock { eng with clockCount := 72, clockTimeStart := t1 }
              ev.destPort t73).2) := by
  have hr1 : ClockReady { eng with clockCount := 1, clockTimeStart := t1 } ev.destPort := hr
  have hr72 : ClockReady { eng with clockCount := 72, clockTimeStart := t1 } ev.destPort := hr
  have hmid := captureAll_clock_mid ev ht mids
    { eng with clockCount := 1, clockTimeStart := t1 } hr1 (le_refl 1)
    (by simp only [hlen]; decide)
  have hfirst : captureAll eng ((ev, t1) :: mids.map (fun t => (ev, t)))
      = some ({ eng with clockCount := 72, clockTimeStart := t1 }, []) := by
    rw [captureAll_cons, capture_clock eng ev t1 hr ht,
      captureClock_first eng ev.destPort t1 hr h0]
    simp only [hmid, hlen, List.append_nil]
  refine ⟨hfirst, ?_⟩
  have hlast : captureAll { eng with clockCount := 72, clockTimeStart := t1 } [(ev, t73)]
      = some
          ((captureClock { eng with clockCount := 72, clockTimeStart := t1 }
              ev.destPort t73).1,
           (captureClock { eng with clockCount := 72, clockTimeStart := t1 }
              ev.destPort t73).2) := by
    rw [captureAll_cons, capture_clock _ ev t73 hr72 ht]
    simp only [captureAll, List.append_nil]
  have happ := captureAll_append _ _ _ _ _ _ _ hfirst hlast
  simpa using happ

/-- C26 (counterexample): from a fresh count, 72 clock pulses ten
milliseconds apart leave the count at 72, the tracked tempo at 120 and no
notification, although the estimate at the 72nd pulse, `180000 / 710 = 253`,
differs from 120 by more than 1 %.  The estimate is made by the 73rd pulse:
`180000 / 720 = 250`. -/
theorem C26_no_estimate_at_pulse_72_counterexample :
    (captureAll exampleClockInEngine (clockPulses 72 0)).map
        (fun r => (r.1.clockCount, r.1.clockTempo, r.2)) = some (72, 120, [])
      ∧ truncInt (180000 / 710) = 253
      ∧ clockDiffers 253 exampleClockInEngine.clockTempo = true
      ∧ (captureAll exampleClockInEngine (clockPulses 73 0)).map
            (fun r => (r.1.clockCount, r.1.clockTempo, r.2))
          = some (0, 250, [CaptureCall.postClock 250]) := by
  have hr : ClockReady exampleClockInEngine (blankEvent SeqEventType.CLOCK).destPort :=
    ⟨rfl, by decide, rfl, rfl⟩
  have hg := captureAll_clock_group exampleClockInEngine (blankEvent SeqEventType.CLOCK)
    0 720 ((List.range 71).map (fun k => 10 * (k + 1))) hr rfl rfl (by simp)
  have h72 : clockPulses 72 0
      = (blankEvent SeqEventType.CLOCK, 0)
          :: ((List.range 71).map (fun k => 10 * (k + 1))).map
              (fun t => (blankEvent SeqEventType.CLOCK, t)) := by
    rfl
  have h73 : clockPulses 73 0
      = ((blankEvent SeqEventType.CLOCK, 0)
          :: ((List.range 71).map (fun k => 10 * (k + 1))).map
              (fun t => (blankEvent SeqEventType.CLOCK, t)))
          ++ [(blankEvent SeqEventType.CLOCK, 720)] := by
    rfl
  have ht : truncInt ((180000 : ℚ) / 720) = 250 :=
    truncInt_eq _ 250 (by norm_num) (by norm_num) (by norm_num)
  have hd : clockDiffers 250 120 = true := by
    simp only [clockDiffers]
    norm_num
  refine ⟨?_, truncInt_eq _ 253 (by norm_num) (by norm_num) (by norm_num), ?_, ?_⟩
  · rw [h72, hg.1]
    rfl
  · simp only [clockDiffers, exampleClockInEngine, exampleCaptureEngine]
    norm_num
  · rw [h73, hg.2, captureClock_last
      { exampleClockInEngine with clockCount := 72, clockTimeStart := 0 } _ 720 hr
      (le_refl 72)]
    have he : ((truncInt (180000 / ((((720 : Nat) : Int) - ((0 : Nat) : Int) : Int) : ℚ))
        : Int) : ℚ) = 250 := by
      have : ((((720 : Nat) : Int) - ((0 : Nat) : Int) : Int) : ℚ) = 720 := by norm_num
      rw [this, ht]
      norm_num
    simp only [he]
    have hd2 : clockDiffers 250 exampleClockInEngine.clockTempo = true := hd
    simp only [hd2, if_true]
    rfl

/-- C26 (amended): with clock input enabled on the control-input bus, from a
fresh count the first 72 CLOCK pulses only count (the first one starts the
timer) and change neither the tracked tempo nor post anything; the 73rd
pulse computes the estimate `180000 / elapsedMillis` truncated to an integer,
the time being measured from the first pulse (72 clock intervals, 3
beats), and restarts the count.  The tracked tempo is updated, and a tempo
notification posted when a notify object is registered, only when the
estimate differs from the tracked value by more than 1 %. -/
theorem C26_clock_tempo_estimate (eng : CaptureEngine) (ev : CaptureEvent) (t1 t73 : Nat)
    (mids : List Nat) (estimate : ℚ)
    (hr : ClockReady eng ev.destPort) (ht : ev.type = SeqEventType.CLOCK)
    (h0 : eng.clockCount = 0) (hlen : mids.length = 71) (_htime : t1 < t73)
    (hest : estimate
      = ((truncInt (180000 / (((t73 : Int) - (t1 : Int) : Int) : ℚ)) : Int) : ℚ)) :
    captureAll eng ((ev, t1) :: mids.map (fun t => (ev, t)))
        = some ({ eng with clockCount := 72, clockTimeStart := t1 }, [])
      ∧ captureAll eng (((ev, t1) :: mids.map (fun t => (ev, t))) ++ [(ev, t73)])
        = some
          (if clockDiffers estimate eng.clockTempo then
            ({ eng with clockCount := 0, clockTimeStart := t1, clockTempo := estimate },
              if eng.hasNotifyObject then [CaptureCall.postClock estimate] else [])
          else ({ eng with clockCount := 0, clockTimeStart := t1 }, []))
      ∧ (0 < eng.clockTempo →
          (clockDiffers estimate eng.clockTempo = true
            ↔ |estimate - eng.clockTempo| > eng.clockTempo / 100)) := by
  have hg := captureAll_clock_group eng ev t1 t73 mids hr ht h0 hlen
  have hr72 : ClockReady { eng with clockCount := 72, clockTimeStart := t1 } ev.destPort := hr
  refine ⟨hg.1, ?_, ?_⟩
  · rw [hg.2, captureClock_last { eng with clockCount := 72, clockTimeStart := t1 }
      ev.destPort t73 hr72 (le_refl 72)]
    simp only [← hest]
  · intro hpos
    have hne : ¬ (eng.clockTempo = 0) := ne_of_gt hpos
    simp only [clockDiffers, hne, if_false, decide_eq_true_eq, gt_iff_lt]
    rw [lt_div_iff₀ hpos, div_lt_iff₀ (by norm_num : (0 : ℚ) < 100)]
    constructor <;> intro h <;> linarith

/-- Witness for C26: 73 pulses ten milliseconds apart on the example engine
with clock input; the estimate is `180000 / 720 = 250`. -/
theorem C26_clock_tempo_estimate_witness :
    captureAll exampleClockInEngine
          ((blankEvent SeqEventType.CLOCK, 0)
            :: ((List.range 71).map (fun k => 10 * (k + 1))).map
                (fun t => (blankEvent SeqEventType.CLOCK, t)))
        = some ({ exampleClockInEngine with clockCount := 72, clockTimeStart := 0 }, [])
      ∧ captureAll exampleClockInEngine
          (((blankEvent SeqEventType.CLOCK, 0)
            :: ((List.range 71).map (fun k => 10 * (k + 1))).map
                (fun t => (blankEvent SeqEventType.CLOCK, t)))
            ++ [(blankEvent SeqEventType.CLOCK, 720)])
        = some
          (if clockDiffers 250 exampleClockInEngine.clockTempo then
            ({ exampleClockInEngine with
                clockCount := 0, clockTimeStart := 0, clockTempo := 250 },
              if exampleClockInEngine.hasNotifyObject then [CaptureCall.postClock 250]
              else [])
          else ({ exampleClockInEngine with clockCount := 0, clockTimeStart := 0 }, []))
      ∧ (0 < exampleClockInEngine.clockTempo →
          (clockDiffers 250 exampleClockInEngine.clockTempo = true
            ↔ |250 - exampleClockInEngine.clockTempo|
                > exampleClockInEngine.clockTempo / 100)) :=
  C26_clock_tempo_estimate exampleClockInEngine (blankEvent SeqEventType.CLOCK) 0 720
    ((List.range 71).map (fun k => 10 * (k + 1))) 250
    ⟨rfl, by decide, rfl, rfl⟩ rfl rfl (by simp) (by decide)
    (by
      have ht : truncInt ((180000 : ℚ) / 720) = 250 :=
        truncInt_eq _ 250 (by norm_num) (by norm_num) (by norm_num)
      have h720 : ((((720 : Nat) : Int) - ((0 : Nat) : Int) : Int) : ℚ) = 720 := by norm_num
      rw [h720, ht]
      norm_num)

/-- C18 (counterexample): the request `[0, 0)` on a stopped session of
1000 frames with a bus and a file that opens.  The empty range is replaced
by `[0, sessionLength)`: the file is opened and written and the result is
`true`. -/
theorem C18_empty_range_falls_back_counterexample :
    (0 : Nat) ≥ 0
      ∧ fileExport exampleExportSession 0 0 none
        = (true,
            [ExportCall.fileOpen, ExportCall.writeHeader 0 1 960,
             ExportCall.writeTracks (List.replicate 16 []), ExportCall.fileClose]) := by
  decide

/-- C18 (amended): a request with `iExportStart ≥ iExportEnd` is the request
from `iExportStart` to the session length; `fileExport` returns `false`, and
touches no file, when `iExportStart` is at or past the session length as
well. -/
theorem C18_empty_range_after_fallback (s : ExportSession) (iExportStart iExportEnd : Nat)
    (pExportBus : Option Int) (hempty : iExportStart ≥ iExportEnd) :
    fileExport s iExportStart iExportEnd pExportBus
        = fileExport s iExportStart s.sessionLength pExportBus
      ∧ (iExportStart ≥ s.sessionLength →
          fileExport s iExportStart iExportEnd pExportBus = (false, [])) := by
  constructor
  · unfold fileExport
    by_cases hlen : iExportStart ≥ s.sessionLength
    · simp only [hempty, hlen, if_true]
    · simp only [hempty, hlen, if_true, if_false]
  · intro hlen
    unfold fileExport
    cases s.isPlaying <;> cases s.hasSession <;>
      simp only [hempty, hlen, if_true, Bool.false_eq_true, if_false, Bool.not_true,
        Bool.not_false]

/-- Witness for C18: the request `[1000, 0)` on the example session of 1000
frames. -/
theorem C18_empty_range_after_fallback_witness :
    fileExport exampleExportSession 1000 0 none
        = fileExport exampleExportSession 1000 exampleExportSession.sessionLength none
      ∧ (1000 ≥ exampleExportSession.sessionLength →
          fileExport exampleExportSession 1000 0 none = (false, [])) :=
  C18_empty_range_after_fallback exampleExportSession 1000 0 none (by decide)

theorem dropWhile_eq_filter_of_sorted {α : Type} (key : α → Nat) (a : Nat) :
    ∀ (l : List α), l.Pairwise (fun x y => key x ≤ key y) →
      l.dropWhile (fun x => decide (key x < a)) = l.filter (fun x => decide (a ≤ key x)) := by
  intro l
  induction l with
  | nil => intro _; rfl
  | cons x rest ih =>
    intro h
    rw [List.pairwise_cons] at h
    by_cases hx : key x < a
    · have hnx : ¬ (a ≤ key x) := by omega
      simp only [List.dropWhile_cons, hx, decide_True, if_true, List.filter_cons, hnx,
        decide_False, Bool.false_eq_true, if_false]
      exact ih h.2
    · have hax : a ≤ key x := by omega
      have hall : rest.filter (fun y => decide (a ≤ key y)) = rest := by
        rw [List.filter_eq_self]
        intro y hy
        have := h.1 y hy
        simp only [decide_eq_true_eq]
        omega
      simp only [List.dropWhile_cons, hx, decide_False, Bool.false_eq_true, if_false,
        List.filter_cons, hax, decide_True, if_true, hall]

theorem takeWhile_eq_filter_of_sorted {α : Type} (key : α → Nat) (b : Nat) :
    ∀ (l : List α), l.Pairwise (fun x y => key x ≤ key y) →
      l.takeWhile (fun x => decide (key x < b)) = l.filter (fun x => decide (key x < b)) := by
  intro l
  induction l with
  | nil => intro _; rfl
  | cons x rest ih =>
    intro h
    rw [List.pairwise_cons] at h
    by_cases hx : key x < b
    · simp only [List.takeWhile_cons, hx, decide_True, if_true, List.filter_cons]
      rw [ih h.2]
    · have hnone : rest.filter (fun y => decide (key y < b)) = [] := by
        rw [List.filter_eq_nil_iff]
        intro y hy
        have := h.1 y hy
        simp only [decide_eq_true_eq]
        omega
      simp only [List.takeWhile_cons, hx, decide_False, Bool.false_eq_true, if_false,
        List.filter_cons, hnone]

theorem exportEvent_time (iTimeStart iTimeEnd iTimeClip : Nat) (gain : Nat → ℚ)
    (e : ExportEvent) (hlo : iTimeStart ≤ iTimeClip + e.time)
    (hhi : iTimeClip + e.time < 2 ^ 64) :
    (exportEvent iTimeStart iTimeEnd iTimeClip gain e).time
      = iTimeClip + e.time - iTimeStart := by
  simp only [exportEvent, toULong]
  omega

theorem exportEvent_duration (iTimeStart iTimeEnd iTimeClip : Nat) (gain : Nat → ℚ)
    (e : ExportEvent) (hnote : e.type = EventType.NOTEON)
    (hhi : iTimeClip + e.time < iTimeEnd) (hEnd : iTimeEnd < 2 ^ 64)
    (hno : iTimeClip + e.time + e.duration < 2 ^ 64) :
    iTimeClip + e.time + (exportEvent iTimeStart iTimeEnd iTimeClip gain e).duration
      ≤ iTimeEnd := by
  have h1 : (iTimeClip + e.time) % 2 ^ 64 = iTimeClip + e.time :=
    Nat.mod_eq_of_lt (by omega)
  have h2 : (iTimeClip + e.time + e.duration) % 2 ^ 64 = iTimeClip + e.time + e.duration :=
    Nat.mod_eq_of_lt hno
  simp only [exportEvent, hnote, true_and, h1, h2, toULong]
  split <;> omega

/-- For a clip at tick `tClip` whose events are ordered by time, with
`tStart < tEnd` the ticks of the export range and no overflow of
`unsigned long`: the events copied are exactly those with
`tStart ≤ tClip + time < tEnd`, in order; the copy of such an event has the
tick `tClip + time - tStart`, below `tEnd - tStart`, whether the clip starts
before `tStart` or not; and the copy of a NOTEON has
`tick + duration ≤ tEnd - tStart`. -/
theorem exportClipEvents_window (tStart tEnd tClip : Nat) (gain : Nat → ℚ)
    (events : List ExportEvent)
    (hsorted : events.Pairwise (fun a b => a.time ≤ b.time))
    (hrange : tStart < tEnd) (hEnd : tEnd < 2 ^ 64)
    (hno : ∀ e ∈ events, tClip + e.time + e.duration < 2 ^ 64) :
    exportClipEvents tStart tEnd tClip gain events
        = (events.filter
            (fun e => decide (tStart ≤ tClip + e.time ∧ tClip + e.time < tEnd))).map
          (exportEvent tStart tEnd tClip gain)
      ∧ (∀ e ∈ events, tStart ≤ tClip + e.time → tClip + e.time < tEnd →
          (exportEvent tStart tEnd tClip gain e).time = tClip + e.time - tStart
          ∧ (exportEvent tStart tEnd tClip gain e).time < tEnd - tStart
          ∧ (e.type = EventType.NOTEON →
              (exportEvent tStart tEnd tClip gain e).time
                + (exportEvent tStart tEnd tClip gain e).duration ≤ tEnd - tStart)) := by
  constructor
  · have hkey : events.Pairwise
        (fun a b => (tClip + a.time) % 2 ^ 64 ≤ (tClip + b.time) % 2 ^ 64) := by
      refine List.Pairwise.imp_of_mem ?_ hsorted
      intro a b ha hb hab
      have h1 := hno a ha
      have h2 := hno b hb
      rw [Nat.mod_eq_of_lt (by omega), Nat.mod_eq_of_lt (by omega)]
      omega
    unfold exportClipEvents
    rw [dropWhile_eq_filter_of_sorted (fun (e : ExportEvent) => (tClip + e.time) % 2 ^ 64)
        tStart events hkey,
      takeWhile_eq_filter_of_sorted (fun (e : ExportEvent) => (tClip + e.time) % 2 ^ 64) tEnd _
        (List.Pairwise.sublist (List.filter_sublist _) hkey),
      List.filter_filter]
    congr 1
    apply List.filter_congr
    intro e he
    have h1 := hno e he
    rw [Nat.mod_eq_of_lt (by omega : tClip + e.time < 2 ^ 64)]
    by_cases ha : tStart ≤ tClip + e.time <;> by_cases hb : tClip + e.time < tEnd <;>
      simp [ha, hb]
  · intro e he hlo hhi
    have h1 := hno e he
    have ht := exportEvent_time tStart tEnd tClip gain e hlo (by omega)
    refine ⟨ht, by omega, ?_⟩
    intro hnote
    have hd := exportEvent_duration tStart tEnd tClip gain e hnote hhi hEnd h1
    omega


theorem captureClassify_tick (eng : CaptureEngine) (ev : CaptureEvent) (now cq r : Nat) :
    (captureClassify { eng with captureQuantize := cq } { ev with tick := r } now).calls
        = (captureClassify eng ev now).calls
      ∧ (captureClassify { eng with captureQuantize := cq } { ev with tick := r } now).captured
        = (captureClassify eng ev now).captured
      ∧ (captureClassify { eng with captureQuantize := cq } { ev with tick := r }
          now).sysexReads
        = (captureClassify eng ev now).sysexReads := by
  obtain ⟨type, destPort, tick, channel, note, velocity, duration, param, value, extLen,
    extMem⟩ := ev
  cases type <;> simp only [captureClassify, captureClock, onControlPort, sysexBytes] <;>
    (repeat' split) <;> simp

theorem captureTracks_quantize (eng : CaptureEngine) (cq : Nat) (iAlsaPort : Int)
    (tick : Nat) (c : Captured) :
    ∀ (tracks : List CaptureTrack) (i : Nat),
      captureTracks { eng with captureQuantize := cq } iAlsaPort tick c i tracks
        = captureTracks eng iAlsaPort tick c i tracks := by
  intro tracks
  induction tracks with
  | nil => intro i; rfl
  | cons t rest ih =>
    intro i
    simp only [captureTracks, ih]
    rfl

theorem captureClassify_calls_post (eng : CaptureEngine) (ev : CaptureEvent) (now : Nat) :
    ∀ c ∈ (captureClassify eng ev now).calls, c.isForward = false := by
  intro c hc
  obtain ⟨type, destPort, tick, channel, note, velocity, duration, param, value, extLen,
    extMem⟩ := ev
  cases type <;> simp only [captureClassify, captureClock] at hc <;>
    (repeat' split at hc) <;> simp at hc <;> (try (rw [hc]; rfl))

theorem captureTracks_addEvent (eng : CaptureEngine) (iAlsaPort : Int) (tick : Nat)
    (c : Captured) (j t : Nat) (ty : EventType) (d1 d2 dur : Nat) (sx : Option (List Nat)) :
    ∀ (tracks : List CaptureTrack) (i : Nat),
      CaptureCall.addEvent j t ty d1 d2 dur sx
          ∈ captureTracks eng iAlsaPort tick c i tracks → t = tick := by
  intro tracks
  induction tracks with
  | nil =>
    intro i h
    simp [captureTracks] at h
  | cons tr rest ih =>
    intro i h
    simp only [captureTracks, List.mem_append] at h
    rcases h with h | h
    · unfold captureTrack at h
      (repeat' split at h) <;>
        simp only [List.mem_append, List.mem_cons, List.mem_singleton, List.not_mem_nil,
          List.mem_ite_nil_right, or_false, false_or, reduceCtorEq, and_false,
          CaptureCall.addEvent.injEq] at h <;>
        first
          | exact h.2.2.1
          | exact h.2.1
    · exact ih (i + 1) h

theorem captureBus_no_addEvent (iAlsaPort : Int) (channel : Nat) (c : Captured)
    (b : CaptureBus) (j t : Nat) (ty : EventType) (d1 d2 dur : Nat)
    (sx : Option (List Nat)) :
    ¬ (CaptureCall.addEvent j t ty d1 d2 dur sx ∈ captureBus iAlsaPort channel c b) := by
  intro h
  unfold captureBus at h
  (repeat' split at h) <;> simp at h

theorem capture_of_tick (eng : CaptureEngine) (ev : CaptureEvent) (now tick : Nat)
    (hs : eng.hasSession = true)
    (hr : captureQuantizeTick eng.ticksPerBeat eng.captureQuantize ev.tick = some tick) :
    capture eng ev now
      = match (captureClassify eng ev now).captured with
        | none =>
          some ⟨(captureClassify eng ev now).engine, (captureClassify eng ev now).calls,
            (captureClassify eng ev now).sysexReads⟩
        | some c =>
          some ⟨(captureClassify eng ev now).engine,
            (captureClassify eng ev now).calls
              ++ captureTracks eng ev.destPort tick c 0 eng.tracks
              ++ eng.buses.flatMap (captureBus ev.destPort ev.channel c),
            (captureClassify eng ev now).sysexReads⟩ := by
  simp only [capture, hs, Bool.not_true, Bool.false_eq_true, if_false, hr]

/-- C23: with a session, a quantum `q = ticksPerBeat / captureQuantize ≥ 1`
and no overflow of `tick + q / 2`, `capture` replaces the event tick by the
quantized tick `r`: `r` is a multiple of `q`, lies within `q / 2` of the
event tick, is at least as near to it as any other multiple of `q`, and an
exact tie (the tick at the midpoint) is rounded up.  All that `capture` then
does (record, punch test, monitors, thru) is what it does, without
quantization, for the same event at tick `r`; in particular every event it
appends to a record buffer carries the tick `r`. -/
theorem C23_capture_quantize_nearest (eng : CaptureEngine) (ev : CaptureEvent) (now : Nat)
    (hs : eng.hasSession = true)
    (hq : 1 ≤ eng.ticksPerBeat / eng.captureQuantize)
    (hno : ev.tick + eng.ticksPerBeat / eng.captureQuantize / 2 < 2 ^ 64) :
    ∃ r, captureQuantizeTick eng.ticksPerBeat eng.captureQuantize ev.tick = some r
      ∧ (eng.ticksPerBeat / eng.captureQuantize) ∣ r
      ∧ 2 * |(r : Int) - (ev.tick : Int)|
          ≤ ((eng.ticksPerBeat / eng.captureQuantize : Nat) : Int)
      ∧ (∀ m : Nat, (eng.ticksPerBeat / eng.captureQuantize) ∣ m →
          |(r : Int) - (ev.tick : Int)| ≤ |(m : Int) - (ev.tick : Int)|)
      ∧ (2 * (ev.tick % (eng.ticksPerBeat / eng.captureQuantize))
            = eng.ticksPerBeat / eng.captureQuantize →
          r = ev.tick + eng.ticksPerBeat / eng.captureQuantize / 2)
      ∧ (capture eng ev now).map (fun res => (res.calls, res.sysexReads))
          = (capture { eng with captureQuantize := 0 } { ev with tick := r } now).map
              (fun res => (res.calls, res.sysexReads))
      ∧ (∃ res, capture eng ev now = some res
          ∧ ∀ j t ty d1 d2 dur sx,
              CaptureCall.addEvent j t ty d1 d2 dur sx ∈ res.calls → t = r) := by
  obtain ⟨r, hr, h1, h2, h3, h4⟩ :=
    captureQuantizeTick_nearest eng.ticksPerBeat eng.captureQuantize ev.tick hq hno
  have hr0 : captureQuantizeTick eng.ticksPerBeat 0 r = some r := rfl
  obtain ⟨hc1, hc2, hc3⟩ := captureClassify_tick eng ev now 0 r
  refine ⟨r, hr, h1, h2, h3, h4, ?_, ?_⟩
  · have hs0 : ({ eng with captureQuantize := 0 } : CaptureEngine).hasSession = true := hs
    rw [capture_of_tick eng ev now r hs hr,
      capture_of_tick { eng with captureQuantize := 0 } { ev with tick := r } now r hs0 hr0,
      hc1, hc2, hc3]
    cases (captureClassify eng ev now).captured with
    | none => rfl
    | some c =>
      simp only [Option.map_some', captureTracks_quantize]
  · cases hcap : (captureClassify eng ev now).captured with
    | none =>
      refine ⟨⟨(captureClassify eng ev now).engine, (captureClassify eng ev now).calls,
        (captureClassify eng ev now).sysexReads⟩, ?_, ?_⟩
      · rw [capture_of_tick eng ev now r hs hr, hcap]
      · intro j t ty d1 d2 dur sx hmem
        have := captureClassify_calls_post eng ev now _ hmem
        exact absurd this (by simp [CaptureCall.isForward])
    | some c =>
      refine ⟨⟨(captureClassify eng ev now).engine,
        (captureClassify eng ev now).calls
          ++ captureTracks eng ev.destPort r c 0 eng.tracks
          ++ eng.buses.flatMap (captureBus ev.destPort ev.channel c),
        (captureClassify eng ev now).sysexReads⟩, ?_, ?_⟩
      · rw [capture_of_tick eng ev now r hs hr, hcap]
      · intro j t ty d1 d2 dur sx hmem
        simp only [List.mem_append, List.mem_flatMap] at hmem
        rcases hmem with (hmem | hmem) | ⟨b, _, hmem⟩
        · have := captureClassify_calls_post eng ev now _ hmem
          exact absurd this (by simp [CaptureCall.isForward])
        · exact captureTracks_addEvent eng ev.destPort r c j t ty d1 d2 dur sx _ 0 hmem
        · exact absurd hmem (captureBus_no_addEvent _ _ _ _ _ _ _ _ _ _ _)

/-- Witness for C23: a note-on at tick 1000 captured with 960 ticks per beat
quantized to sixteenths (`q = 240`); the armed track records it at tick 960. -/
theorem C23_capture_quantize_nearest_witness :
    (∃ r, captureQuantizeTick exampleQuantizeEngine.ticksPerBeat
          exampleQuantizeEngine.captureQuantize exampleNoteEvent.tick = some r
      ∧ (exampleQuantizeEngine.ticksPerBeat / exampleQuantizeEngine.captureQuantize) ∣ r
      ∧ 2 * |(r : Int) - (exampleNoteEvent.tick : Int)|
          ≤ ((exampleQuantizeEngine.ticksPerBeat / exampleQuantizeEngine.captureQuantize
              : Nat) : Int)
      ∧ (∀ m : Nat,
          (exampleQuantizeEngine.ticksPerBeat / exampleQuantizeEngine.captureQuantize) ∣ m →
          |(r : Int) - (exampleNoteEvent.tick : Int)|
            ≤ |(m : Int) - (exampleNoteEvent.tick : Int)|)
      ∧ (2 * (exampleNoteEvent.tick
              % (exampleQuantizeEngine.ticksPerBeat / exampleQuantizeEngine.captureQuantize))
            = exampleQuantizeEngine.ticksPerBeat / exampleQuantizeEngine.captureQuantize →
          r = exampleNoteEvent.tick
            + exampleQuantizeEngine.ticksPerBeat / exampleQuantizeEngine.captureQuantize / 2)
      ∧ (capture exampleQuantizeEngine exampleNoteEvent 0).map
            (fun res => (res.calls, res.sysexReads))
          = (capture { exampleQuantizeEngine with captureQuantize := 0 }
              { exampleNoteEvent with tick := r } 0).map
              (fun res => (res.calls, res.sysexReads))
      ∧ (∃ res, capture exampleQuantizeEngine exampleNoteEvent 0 = some res
          ∧ ∀ j t ty d1 d2 dur sx,
              CaptureCall.addEvent j t ty d1 d2 dur sx ∈ res.calls → t = r))
      ∧ (capture exampleQuantizeEngine exampleNoteEvent 0).map (fun res => res.calls)
          = some [CaptureCall.addEvent 0 960 EventType.NOTEON 60 64 0 none,
              CaptureCall.trackMonitorEnqueue 0 EventType.NOTEON 64,
              CaptureCall.monitorInEnqueue 1 EventType.NOTEON 64] :=
  ⟨C23_capture_quantize_nearest exampleQuantizeEngine exampleNoteEvent 0 rfl (by decide)
    (by decide), by decide⟩

theorem flatMap_congr_mem {α β : Type} (l : List α) (f g : α → List β)
    (h : ∀ x ∈ l, f x = g x) : l.flatMap f = l.flatMap g := by
  induction l with
  | nil => rfl
  | cons x rest ih =>
    rw [List.flatMap_cons, List.flatMap_cons, h x (List.mem_cons_self _ _),
      ih (fun y hy => h y (List.mem_cons_of_mem _ hy))]

theorem exportTrackEvents_eq (s : ExportSession) (iExportStart iExportEnd : Nat)
    (t : ExportTrack)
    (hsorted : ∀ c ∈ t.clips, c.events.Pairwise (fun a b => a.time ≤ b.time))
    (hticks : s.tickFromFrame iExportStart < s.tickFromFrame iExportEnd)
    (hEnd : s.tickFromFrame iExportEnd < 2 ^ 64)
    (hno : ∀ c ∈ t.clips, ∀ e ∈ c.events,
      s.tickFromFrame c.clipStart + e.time + e.duration < 2 ^ 64) :
    exportTrackEvents s iExportStart iExportEnd t
      = ((t.clips.dropWhile
            (fun c => decide ((c.clipStart + c.clipLength) % 2 ^ 64 < iExportStart))).takeWhile
            (fun c => decide (c.clipStart < iExportEnd))).flatMap
          (fun c =>
            (c.events.filter (fun e =>
                decide (s.tickFromFrame iExportStart ≤ s.tickFromFrame c.clipStart + e.time
                  ∧ s.tickFromFrame c.clipStart + e.time < s.tickFromFrame iExportEnd))).map
              (exportEvent (s.tickFromFrame iExportStart) (s.tickFromFrame iExportEnd)
                (s.tickFromFrame c.clipStart) c.gain)) := by
  unfold exportTrackEvents
  apply flatMap_congr_mem
  intro c hc
  have hc2 : c ∈ t.clips :=
    (List.dropWhile_sublist _).subset ((List.takeWhile_sublist _).subset hc)
  exact (exportClipEvents_window _ _ _ c.gain c.events (hsorted c hc2) hticks hEnd
    (hno c hc2)).1

/-- C27: an export that goes through (engine stopped, session present, range
`[iExportStart, iExportEnd)` not empty, a file that opens and takes the
header) writes, for each eligible track, the events of the clips that the
clip loop visits, and of those exactly the events with
`tStart ≤ tClip + event.time < tEnd`, in order (`tStart`, `tEnd` the ticks of
the range, `tClip` the tick of the clip start, events ordered by time, no
overflow of `unsigned long`).  The copy of such an event has the tick
`tClip + event.time - tStart`, below `tEnd - tStart`, whether the clip starts
before `tStart` or not, and the copy of a NOTEON has
`tick + duration ≤ tEnd - tStart`. -/
theorem C27_export_event_window (s : ExportSession) (iExportStart iExportEnd : Nat)
    (port : Int)
    (hplay : s.isPlaying = false) (hsess : s.hasSession = true)
    (hrange : iExportStart < iExportEnd)
    (hopen : s.fileOpens = true) (hhead : s.headerWrites = true)
    (hcount : (s.tracks.filter (exportEligible s port)).length + 1 < 65536)
    (hticks : s.tickFromFrame iExportStart < s.tickFromFrame iExportEnd)
    (hEnd : s.tickFromFrame iExportEnd < 2 ^ 64)
    (hsorted : ∀ t ∈ s.tracks, ∀ c ∈ t.clips,
      c.events.Pairwise (fun a b => a.time ≤ b.time))
    (hno : ∀ t ∈ s.tracks, ∀ c ∈ t.clips, ∀ e ∈ c.events,
      s.tickFromFrame c.clipStart + e.time + e.duration < 2 ^ 64) :
    fileExport s iExportStart iExportEnd (some port)
        = (true,
            [ExportCall.fileOpen,
             ExportCall.writeHeader s.defaultFormat
               (if s.defaultFormat = 0 then 1
                else (s.tracks.filter (exportEligible s port)).length + 1)
               (s.ticksPerBeat % 65536),
             ExportCall.writeTracks
               (if s.defaultFormat = 0 then
                 (List.range 16).map (fun ch =>
                   ((s.tracks.filter (exportEligible s port)).filter
                       (fun t => decide (t.midiChannel &&& 0x0f = ch))).flatMap
                     (fun t =>
                       ((t.clips.dropWhile (fun c =>
                            decide ((c.clipStart + c.clipLength) % 2 ^ 64
                              < iExportStart))).takeWhile
                          (fun c => decide (c.clipStart < iExportEnd))).flatMap
                        (fun c =>
                          (c.events.filter (fun e =>
                              decide (s.tickFromFrame iExportStart
                                  ≤ s.tickFromFrame c.clipStart + e.time
                                ∧ s.tickFromFrame c.clipStart + e.time
                                  < s.tickFromFrame iExportEnd))).map
                            (exportEvent (s.tickFromFrame iExportStart)
                              (s.tickFromFrame iExportEnd)
                              (s.tickFromFrame c.clipStart) c.gain))))
               else
                 [] :: (s.tracks.filter (exportEligible s port)).map
                   (fun t =>
                     ((t.clips.dropWhile (fun c =>
                          decide ((c.clipStart + c.clipLength) % 2 ^ 64
                            < iExportStart))).takeWhile
                        (fun c => decide (c.clipStart < iExportEnd))).flatMap
                      (fun c =>
                        (c.events.filter (fun e =>
                            decide (s.tickFromFrame iExportStart
                                ≤ s.tickFromFrame c.clipStart + e.time
                              ∧ s.tickFromFrame c.clipStart + e.time
                                < s.tickFromFrame iExportEnd))).map
                          (exportEvent (s.tickFromFrame iExportStart)
                            (s.tickFromFrame iExportEnd)
                            (s.tickFromFrame c.clipStart) c.gain)))),
             ExportCall.fileClose])
      ∧ (∀ t ∈ s.tracks, ∀ c ∈ t.clips, ∀ e ∈ c.events,
          s.tickFromFrame iExportStart ≤ s.tickFromFrame c.clipStart + e.time →
          s.tickFromFrame c.clipStart + e.time < s.tickFromFrame iExportEnd →
          (exportEvent (s.tickFromFrame iExportStart) (s.tickFromFrame iExportEnd)
              (s.tickFromFrame c.clipStart) c.gain e).time
            = s.tickFromFrame c.clipStart + e.time - s.tickFromFrame iExportStart
          ∧ (exportEvent (s.tickFromFrame iExportStart) (s.tickFromFrame iExportEnd)
              (s.tickFromFrame c.clipStart) c.gain e).time
            < s.tickFromFrame iExportEnd - s.tickFromFrame iExportStart
          ∧ (e.type = EventType.NOTEON →
              (exportEvent (s.tickFromFrame iExportStart) (s.tickFromFrame iExportEnd)
                  (s.tickFromFrame c.clipStart) c.gain e).time
                + (exportEvent (s.tickFromFrame iExportStart) (s.tickFromFrame iExportEnd)
                  (s.tickFromFrame c.clipStart) c.gain e).duration
              ≤ s.tickFromFrame iExportEnd - s.tickFromFrame iExportStart)) := by
  constructor
  · have hnr : ¬ (iExportStart ≥ iExportEnd) := by omega
    have hmod : ((s.tracks.filter (exportEligible s port)).length + 1) % 65536
        = (s.tracks.filter (exportEligible s port)).length + 1 := Nat.mod_eq_of_lt hcount
    have hw : ∀ t ∈ s.tracks.filter (exportEligible s port),
        exportTrackEvents s iExportStart iExportEnd t
          = ((t.clips.dropWhile (fun c =>
                decide ((c.clipStart + c.clipLength) % 2 ^ 64 < iExportStart))).takeWhile
              (fun c => decide (c.clipStart < iExportEnd))).flatMap
            (fun c =>
              (c.events.filter (fun e =>
                  decide (s.tickFromFrame iExportStart
                      ≤ s.tickFromFrame c.clipStart + e.time
                    ∧ s.tickFromFrame c.clipStart + e.time
                      < s.tickFromFrame iExportEnd))).map
                (exportEvent (s.tickFromFrame iExportStart) (s.tickFromFrame iExportEnd)
                  (s.tickFromFrame c.clipStart) c.gain)) := by
      intro t ht
      have ht2 : t ∈ s.tracks := (List.mem_filter.mp ht).1
      exact exportTrackEvents_eq s iExportStart iExportEnd t (hsorted t ht2) hticks hEnd
        (hno t ht2)
    by_cases hf : s.defaultFormat = 0
    · have hseq : (List.range 16).map (fun ch =>
          ((s.tracks.filter (exportEligible s port)).filter
              (fun t => decide (t.midiChannel &&& 0x0f = ch))).flatMap
            (exportTrackEvents s iExportStart iExportEnd))
          = (List.range 16).map (fun ch =>
          ((s.tracks.filter (exportEligible s port)).filter
              (fun t => decide (t.midiChannel &&& 0x0f = ch))).flatMap
            (fun t =>
              ((t.clips.dropWhile (fun c =>
                  decide ((c.clipStart + c.clipLength) % 2 ^ 64 < iExportStart))).takeWhile
                (fun c => decide (c.clipStart < iExportEnd))).flatMap
              (fun c =>
                (c.events.filter (fun e =>
                    decide (s.tickFromFrame iExportStart
                        ≤ s.tickFromFrame c.clipStart + e.time
                      ∧ s.tickFromFrame c.clipStart + e.time
                        < s.tickFromFrame iExportEnd))).map
                  (exportEvent (s.tickFromFrame iExportStart) (s.tickFromFrame iExportEnd)
                    (s.tickFromFrame c.clipStart) c.gain)))) := by
        apply List.map_congr_left
        intro ch _
        apply flatMap_congr_mem
        intro t ht
        exact hw t (List.mem_filter.mp ht).1
      simp only [fileExport, hplay, hsess, hnr, hopen, hhead, hf, hseq, if_true, if_false,
        Bool.false_eq_true, Bool.not_true, ne_eq, not_true_eq_false, false_and,
        List.cons_append, List.nil_append, List.singleton_append]
    · have hseq : (s.tracks.filter (exportEligible s port)).map
            (exportTrackEvents s iExportStart iExportEnd)
          = (s.tracks.filter (exportEligible s port)).map
            (fun t =>
              ((t.clips.dropWhile (fun c =>
                  decide ((c.clipStart + c.clipLength) % 2 ^ 64 < iExportStart))).takeWhile
                (fun c => decide (c.clipStart < iExportEnd))).flatMap
              (fun c =>
                (c.events.filter (fun e =>
                    decide (s.tickFromFrame iExportStart
                        ≤ s.tickFromFrame c.clipStart + e.time
                      ∧ s.tickFromFrame c.clipStart + e.time
                        < s.tickFromFrame iExportEnd))).map
                  (exportEvent (s.tickFromFrame iExportStart) (s.tickFromFrame iExportEnd)
                    (s.tickFromFrame c.clipStart) c.gain))) :=
        List.map_congr_left hw
      have hlt : ¬ ((s.tracks.filter (exportEligible s port)).length + 1 < 1) := by omega
      have htake : ∀ (l : List (List ExportEvent)),
          l.length = (s.tracks.filter (exportEligible s port)).length →
          l.take ((s.tracks.filter (exportEligible s port)).length + 1 - 1) = l := by
        intro l hl
        rw [Nat.add_sub_cancel, ← hl, List.take_length]
      simp only [fileExport, hplay, hsess, hnr, hopen, hhead, hf, hmod, hlt, hseq, if_true,
        if_false, Bool.false_eq_true, Bool.not_true, ne_eq, not_false_eq_true, true_and,
        and_false, List.cons_append, List.nil_append, List.singleton_append,
        htake _ (List.length_map _ _)]
  · intro t ht c hc e he hlo hhi
    exact (exportClipEvents_window _ _ _ c.gain c.events (hsorted t ht c hc) hticks hEnd
      (hno t ht c hc)).2 e he hlo hhi

/-- Witness for C27: the example clip at tick 60 exported over the ticks
`[100, 200)`.  Of its notes at the ticks 60, 110, 210 and 460 only the one at
110 is written, at tick 10 and with its duration cut from 100 to 90. -/
theorem C27_export_event_window_witness :
    fileExport exampleClipSession 100 200 (some 0)
      = (true,
          [ExportCall.fileOpen, ExportCall.writeHeader 1 2 960,
           ExportCall.writeTracks [[], [⟨10, EventType.NOTEON, 100, 90⟩]],
           ExportCall.fileClose]) :=
  (C27_export_event_window exampleClipSession 100 200 0 rfl rfl (by decide) rfl rfl
    (by decide) (by decide) (by decide) (by decide) (by decide)).1.trans
    (by
      have ht : truncInt (100 : ℚ) = 100 :=
        truncInt_eq _ 100 (by norm_num) (by norm_num) (by norm_num)
      have hv : intToUChar 100 &&& 0x7f = 100 := by decide
      simp [exampleClipSession, exampleExportSession, exampleExportEvents, exportEligible,
        exportEvent, toULong, ht, hv])

theorem bitLengthAux_zero (fuel : Nat) : bitLengthAux fuel 0 = 0 := by
  cases fuel <;> simp [bitLengthAux]

/-- With enough fuel `bitLengthAux` is the number of binary digits:
`2 ^ (b - 1) ≤ n < 2 ^ b` for `n ≠ 0`. -/
theorem bitLengthAux_spec :
    ∀ (fuel n : Nat), n < 2 ^ fuel →
      n < 2 ^ bitLengthAux fuel n
        ∧ (n ≠ 0 → 1 ≤ bitLengthAux fuel n ∧ 2 ^ (bitLengthAux fuel n - 1) ≤ n) := by
  intro fuel
  induction fuel with
  | zero =>
    intro n hn
    have h0 : n = 0 := by simpa using hn
    subst h0
    exact ⟨by simp [bitLengthAux], fun h => absurd rfl h⟩
  | succ fuel ih =>
    intro n hn
    by_cases h0 : n = 0
    · subst h0
      exact ⟨by simp [bitLengthAux], fun h => absurd rfl h⟩
    · have hhalf : n / 2 < 2 ^ fuel := by
        rw [Nat.pow_succ] at hn
        omega
      obtain ⟨ih1, ih2⟩ := ih (n / 2) hhalf
      have hb : bitLengthAux (fuel + 1) n = bitLengthAux fuel (n / 2) + 1 := by
        simp [bitLengthAux, h0]
      rw [hb]
      refine ⟨?_, fun _ => ⟨by omega, ?_⟩⟩
      · rw [Nat.pow_succ]
        omega
      · rw [Nat.add_sub_cancel]
        by_cases hz : n / 2 = 0
        · rw [hz, bitLengthAux_zero]
          simp only [Nat.pow_zero]
          omega
        · obtain ⟨hge, hle⟩ := ih2 hz
          have hp : 2 ^ bitLengthAux fuel (n / 2)
              = 2 ^ (bitLengthAux fuel (n / 2) - 1) * 2 := by
            rw [← Nat.pow_succ]
            congr 1
            omega
          rw [hp]
          omega

theorem bitLength_spec (n : Nat) (hn : n < 2 ^ 128) :
    n < 2 ^ bitLength n ∧ (n ≠ 0 → 1 ≤ bitLength n ∧ 2 ^ (bitLength n - 1) ≤ n) :=
  bitLengthAux_spec 128 n hn

end Qtractor
